import Mathlib

/-!
IdealGasSimulator: particle kinematics and the pairwise elastic collision.

A shallow embedding of `src/src/particle.cc`, `src/src/particle_simulator.cc` and
`src/src/histogram.cc`, in two readings of the numbers.

Exact arithmetic.  The first embedding (namespace `idealgas`) reads every scalar
as a rational number and every operation as the exact one.  It carries the
properties stated "in exact arithmetic".  The only irrational operation of the
source is the square root inside `glm::distance` and `glm::length`; it is used in
exactly two ways, a comparison `sqrt s < r` and a square `pow (sqrt s) 2`, and
both have an exact rational meaning (`distanceLt`, `lengthSq`), related to
`Real.sqrt` by `distanceLt_iff_sqrt_lt` and `lengthSq_eq_sq_length`.

The arithmetic of the program.  The second embedding (namespace `idealgas.ieee`)
reads `float` as IEEE 754 binary32 and `double` as binary64 and rounds every
operation as the program does.  It carries the properties of what the program
stores and decides, and the inputs on which the program leaves the exact
reading.
-/

namespace idealgas

/-! ## glm::vec2 -/

/-- The two-component vector `glm::vec2`. -/
structure Vec2 where
  x : ℚ
  y : ℚ
deriving DecidableEq

namespace Vec2

/-- Componentwise `a + b`. -/
def add (a b : Vec2) : Vec2 := ⟨a.x + b.x, a.y + b.y⟩

/-- Componentwise `a - b`. -/
def sub (a b : Vec2) : Vec2 := ⟨a.x - b.x, a.y - b.y⟩

/-- Scalar times vector, `s * a`. -/
def smul (s : ℚ) (a : Vec2) : Vec2 := ⟨s * a.x, s * a.y⟩

end Vec2

/-- The scalar product `glm::dot`. -/
def dot (a b : Vec2) : ℚ := a.x * b.x + a.y * b.y

/-- The square of `glm::length a`, that is `pow(glm::length(a), 2)`: the length
is `sqrt (dot a a)` and its square is `dot a a`. -/
def lengthSq (a : Vec2) : ℚ := dot a a

/-- The comparison `glm::distance(a, b) < r`.  The distance is the square root
of `lengthSq (a - b)`, a nonnegative number, so it is below `r` exactly when
`r` is positive and `lengthSq (a - b) < r * r`. -/
def distanceLt (a b : Vec2) (r : ℚ) : Bool :=
  decide (0 < r ∧ lengthSq (Vec2.sub a b) < r * r)

/-! ## Particle -/

/-- The class `Particle` (fields in the order of `particle.h`). -/
structure Particle where
  position_ : Vec2
  velocity_ : Vec2
  mass_ : ℚ
  color_ : String
  radius_ : ℚ
deriving DecidableEq

namespace Particle

/-- The setter `Particle::SetVelocity`. -/
def SetVelocity (p : Particle) (velocity : Vec2) : Particle :=
  { p with velocity_ := velocity }

end Particle

/-! ## ParticleSimulator: detection and resolution of a collision -/

/-- The predicate `ParticleSimulator::CanCollide`. -/
def CanCollide (particle1 particle2 : Particle) : Bool :=
  if distanceLt particle1.position_ particle2.position_
      (particle1.radius_ + particle2.radius_) then
    let v1_difference := Vec2.sub particle1.velocity_ particle2.velocity_
    let x1_difference := Vec2.sub particle1.position_ particle2.position_
    if dot v1_difference x1_difference < 0 then true else false
  else false

/-- The procedure `ParticleSimulator::Collide`; the two particles passed by
reference are returned as a pair.  Both new velocities are computed before
either is stored. -/
def Collide (particle1 particle2 : Particle) : Particle × Particle :=
  let p1_mass := particle1.mass_
  let p2_mass := particle2.mass_
  let v1_difference := Vec2.sub particle1.velocity_ particle2.velocity_
  let x1_difference := Vec2.sub particle1.position_ particle2.position_
  let magnitude1_pow2 := lengthSq x1_difference
  let v2_difference := Vec2.sub particle2.velocity_ particle1.velocity_
  let x2_difference := Vec2.sub particle2.position_ particle1.position_
  let magnitude2_pow2 := lengthSq x2_difference
  let p1_mass_ratio := (2 * p2_mass) / (p1_mass + p2_mass)
  let p2_mass_ratio := (2 * p1_mass) / (p1_mass + p2_mass)
  let p1_new_vel := Vec2.sub particle1.velocity_
    (Vec2.smul p1_mass_ratio
      (Vec2.smul (dot v1_difference x1_difference / magnitude1_pow2) x1_difference))
  let p2_new_vel := Vec2.sub particle2.velocity_
    (Vec2.smul p2_mass_ratio
      (Vec2.smul (dot v2_difference x2_difference / magnitude2_pow2) x2_difference))
  (particle1.SetVelocity p1_new_vel, particle2.SetVelocity p2_new_vel)

/-! ## Particle: one step of motion with the wall checks -/

/-- The constant `ParticleSimulator::kWindowSizeWidth`. -/
def kWindowSizeWidth : ℕ := 1500

/-- The constant `ParticleSimulator::kWindowSizeHeight`. -/
def kWindowSizeHeight : ℕ := 800

/-- The constant `kXLowerBound = kWindowSizeWidth * .3`, stored in a `size_t`. -/
def kXLowerBound : ℕ := kWindowSizeWidth * 3 / 10

/-- The constant `kXUpperBound = kWindowSizeWidth * .9`, stored in a `size_t`. -/
def kXUpperBound : ℕ := kWindowSizeWidth * 9 / 10

/-- The constant `kYLowerBound = kWindowSizeHeight * .1`, stored in a `size_t`. -/
def kYLowerBound : ℕ := kWindowSizeHeight * 1 / 10

/-- The constant `kYUpperBound = kWindowSizeHeight * .9`, stored in a `size_t`. -/
def kYUpperBound : ℕ := kWindowSizeHeight * 9 / 10

/-- The first wall check of `Particle::Update`:
`if (velocity_.x < 0) { if (position_.x <= kXLowerBound + radius_) velocity_.x = -velocity_.x; }`. -/
def checkXLower (position : Vec2) (radius : ℚ) (velocity : Vec2) : Vec2 :=
  if velocity.x < 0 then
    if position.x ≤ (kXLowerBound : ℚ) + radius then ⟨-velocity.x, velocity.y⟩
    else velocity
  else velocity

/-- The second wall check of `Particle::Update`:
`if (velocity_.y < 0) { if (position_.y <= kYLowerBound + radius_) velocity_.y = -velocity_.y; }`. -/
def checkYLower (position : Vec2) (radius : ℚ) (velocity : Vec2) : Vec2 :=
  if velocity.y < 0 then
    if position.y ≤ (kYLowerBound : ℚ) + radius then ⟨velocity.x, -velocity.y⟩
    else velocity
  else velocity

/-- The third wall check of `Particle::Update`:
`if (velocity_.x > 0) { if (position_.x >= kXUpperBound - radius_) velocity_.x = -velocity_.x; }`. -/
def checkXUpper (position : Vec2) (radius : ℚ) (velocity : Vec2) : Vec2 :=
  if velocity.x > 0 then
    if position.x ≥ (kXUpperBound : ℚ) - radius then ⟨-velocity.x, velocity.y⟩
    else velocity
  else velocity

/-- The fourth wall check of `Particle::Update`:
`if (velocity_.y > 0) { if (position_.y >= kYUpperBound - radius_) velocity_.y = -velocity_.y; }`. -/
def checkYUpper (position : Vec2) (radius : ℚ) (velocity : Vec2) : Vec2 :=
  if velocity.y > 0 then
    if position.y ≥ (kYUpperBound : ℚ) - radius then ⟨velocity.x, -velocity.y⟩
    else velocity
  else velocity

namespace Particle

/-- The method `Particle::Update`: `position_ += velocity_`, then the four wall
checks one after the other in the order of the source, each reading the moved
position and the velocity as the checks before it left it. -/
def Update (p : Particle) : Particle :=
  let position := Vec2.add p.position_ p.velocity_
  let velocity1 := checkXLower position p.radius_ p.velocity_
  let velocity2 := checkYLower position p.radius_ velocity1
  let velocity3 := checkXUpper position p.radius_ velocity2
  let velocity4 := checkYUpper position p.radius_ velocity3
  { p with position_ := position, velocity_ := velocity4 }

end Particle

/-! ## ParticleSimulator: one tick -/

/-- The class `ParticleSimulator`: its only data member is `particles_`. -/
structure ParticleSimulator where
  particles_ : List Particle

/-- The body of the inner loop of `ParticleSimulator::Update` at the pair
`(i, j)`: `if (CanCollide(particles_[i], particles_[j])) Collide(...)`, the two
references being written back at their indices. -/
def collideAt (particles_ : List Particle) (i j : ℕ) : List Particle :=
  match particles_[i]?, particles_[j]? with
  | some pi, some pj =>
    if CanCollide pi pj then
      (particles_.set i (Collide pi pj).1).set j (Collide pi pj).2
    else particles_
  | _, _ => particles_

/-- The inner loop `for (j = ...; j < particles_.size(); j++)`; the first
argument after `i` is the number of iterations left and the second the current
`j`. -/
def innerLoop (i : ℕ) : ℕ → ℕ → List Particle → List Particle
  | 0, _, particles_ => particles_
  | n + 1, j, particles_ => innerLoop i n (j + 1) (collideAt particles_ i j)

/-- The statement `particles_[i].Update();`. -/
def updateAt (particles_ : List Particle) (i : ℕ) : List Particle :=
  match particles_[i]? with
  | some p => particles_.set i p.Update
  | none => particles_

/-- The outer loop `for (i = ...; i < particles_.size(); i++)`: the inner loop
from `j = i + 1` to the end, then `particles_[i].Update()`.  The first argument
is the number of iterations left, the second the current `i`. -/
def outerLoop : ℕ → ℕ → List Particle → List Particle
  | 0, _, particles_ => particles_
  | n + 1, i, particles_ =>
    outerLoop n (i + 1)
      (updateAt (innerLoop i (particles_.length - (i + 1)) (i + 1) particles_) i)

namespace ParticleSimulator

/-- The method `ParticleSimulator::Update`.  No statement of the loops changes
the size of `particles_`, so both loops run a number of times fixed on entry. -/
def Update (s : ParticleSimulator) : ParticleSimulator :=
  ⟨outerLoop s.particles_.length 0 s.particles_⟩

end ParticleSimulator

/-! ## The tick in two phases, as the specification describes it -/

/-- The pair scan of the specification: every pair `(i, j)` with `i < j` once,
in lexicographic order, `Collide` applied where `CanCollide` holds.  The first
argument is the number of values of `i` left, the second the current `i`. -/
def scanLoop : ℕ → ℕ → List Particle → List Particle
  | 0, _, particles_ => particles_
  | n + 1, i, particles_ =>
    scanLoop n (i + 1) (innerLoop i (particles_.length - (i + 1)) (i + 1) particles_)

/-- The integration pass of the specification: `Particle::Update` on every
particle in index order.  The first argument is the number of particles left,
the second the current index. -/
def integrateLoop : ℕ → ℕ → List Particle → List Particle
  | 0, _, particles_ => particles_
  | n + 1, i, particles_ => integrateLoop n (i + 1) (updateAt particles_ i)

/-- The first phase of the two-phase step on a whole population. -/
def resolveCollisions (particles_ : List Particle) : List Particle :=
  scanLoop particles_.length 0 particles_

namespace ParticleSimulator

/-- The two-phase step of the specification: the whole pair scan first, then
the integration of every particle. -/
def UpdateTwoPhase (s : ParticleSimulator) : ParticleSimulator :=
  ⟨integrateLoop s.particles_.length 0 (resolveCollisions s.particles_)⟩

end ParticleSimulator

/-! ## Measures used by the conservation properties -/

/-- The quantity `mass * (vx^2 + vy^2)` of one particle. -/
def kineticEnergy (p : Particle) : ℚ :=
  p.mass_ * (p.velocity_.x ^ 2 + p.velocity_.y ^ 2)

/-- The sum of `kineticEnergy` over a population. -/
def totalKineticEnergy (particles_ : List Particle) : ℚ :=
  (particles_.map kineticEnergy).sum

/-- The two coordinate axes. -/
inductive Axis where
  | x : Axis
  | y : Axis
deriving DecidableEq

/-- The component of a vector on an axis (`v.x` or `v.y`). -/
def Vec2.comp (v : Vec2) : Axis → ℚ
  | Axis.x => v.x
  | Axis.y => v.y

/-- The lower container bound of an axis: `kXLowerBound` or `kYLowerBound`. -/
def lowerBound : Axis → ℚ
  | Axis.x => (kXLowerBound : ℚ)
  | Axis.y => (kYLowerBound : ℚ)

/-- The upper container bound of an axis: `kXUpperBound` or `kYUpperBound`. -/
def upperBound : Axis → ℚ
  | Axis.x => (kXUpperBound : ℚ)
  | Axis.y => (kYUpperBound : ℚ)

/-- The two wall checks of one axis in the order `Particle::Update` runs them:
the lower-wall check on the given velocity component, then the upper-wall check
on the component the first check left.  `Update_velocity_comp` proves that this
is what `Particle::Update` does to each component. -/
def bounceAxis (lower upper radius position velocity : ℚ) : ℚ :=
  let velocity1 :=
    if velocity < 0 then
      if position ≤ lower + radius then -velocity else velocity
    else velocity
  if velocity1 > 0 then
    if position ≥ upper - radius then -velocity1 else velocity1
  else velocity1

/-! ## Particle: construction, SpeedUp and SlowDown -/

namespace Particle

/-- The constructor `Particle(location, velocity, radius, mass, color)`. -/
def new (location velocity : Vec2) (radius mass : ℚ) (color : String) : Particle :=
  { position_ := location, velocity_ := velocity, mass_ := mass, color_ := color,
    radius_ := radius }

/-- The method `Particle::SpeedUp`.  The two statements on `velocity_.y` read
`velocity_.x` as the statements on `velocity_.x` left it. -/
def SpeedUp (p : Particle) : Particle :=
  let vx :=
    if p.velocity_.x < p.radius_ / 2 ∧ p.velocity_.x > 0 then p.velocity_.x + 0.5
    else if p.velocity_.x > -p.radius_ / 2 ∧ p.velocity_.x < 0 then p.velocity_.x - 0.5
    else p.velocity_.x
  let vy :=
    if p.velocity_.y < p.radius_ / 2 ∧ vx > 0 then p.velocity_.y + 0.5
    else if p.velocity_.y > -p.radius_ / 2 ∧ vx < 0 then p.velocity_.y - 0.5
    else p.velocity_.y
  { p with velocity_ := ⟨vx, vy⟩ }

/-- The method `Particle::SlowDown`. -/
def SlowDown (p : Particle) : Particle :=
  let vx :=
    if p.velocity_.x > 0 then p.velocity_.x - 0.5
    else if p.velocity_.x < 0 then p.velocity_.x + 0.5
    else p.velocity_.x
  let vy :=
    if p.velocity_.y > 0 then p.velocity_.y - 0.5
    else if p.velocity_.y < 0 then p.velocity_.y + 0.5
    else p.velocity_.y
  { p with velocity_ := ⟨vx, vy⟩ }

end Particle

/-! ## ParticleSimulator: adding particles -/

/-- The exceptions the simulator throws: `std::invalid_argument` with its
message. -/
inductive Exception where
  | invalid_argument (what : String) : Exception
deriving DecidableEq

/-- The constant `ParticleSimulator::kMinimumVelocity`. -/
def kMinimumVelocity : ℚ := 0.5

/-- The method `ParticleSimulator::ValidateAddParticleArguments`: the chain of
`if ... else if ...`, each branch throwing `std::invalid_argument`; `abs` is the
absolute value of the `double`, and the coordinates are `size_t`. -/
def ValidateAddParticleArguments (radius mass : ℚ) (x_coord y_coord : ℕ)
    (initial_x_vel initial_y_vel : ℚ) : Except Exception Unit :=
  if radius < 0.1 then
    Except.error (Exception.invalid_argument
      "Please make sure the radius of the particles is at least 0.1!")
  else if mass < 0.1 then
    Except.error (Exception.invalid_argument
      "Please make sure the mass of the particles is at least 0.1!")
  else if initial_x_vel = 0 ∧ initial_y_vel = 0 then
    Except.error (Exception.invalid_argument
      "Please make sure the initial velocity of the particles is not 0!")
  else if |initial_x_vel| > radius * 0.8 ∨ |initial_y_vel| > radius * 0.8 then
    Except.error (Exception.invalid_argument
      ("Please make sure the magnitude of the initial velocity of the particles is at most " ++
        "half the radius! Tunneling will occur otherwise!"))
  else if x_coord < kXLowerBound ∨ x_coord > kXUpperBound then
    Except.error (Exception.invalid_argument
      ("Please make sure the spawn x coordinate is within the container boundaries of " ++
        toString kXLowerBound ++ " and " ++ toString kXUpperBound))
  else if y_coord < kYLowerBound ∨ y_coord > kYUpperBound then
    Except.error (Exception.invalid_argument
      ("Please make sure the spawn y coordinate is within the container boundaries of " ++
        toString kYLowerBound ++ " and " ++ toString kYUpperBound))
  else Except.ok ()

/-- The loop of the explicit-position `AddParticles`:
`for (i = 0; i < amount; i++) particles_.emplace_back(...)`, every iteration
constructing the same particle; the first argument is the number of iterations
left. -/
def emplaceLoop : ℕ → Particle → List Particle → List Particle
  | 0, _, particles_ => particles_
  | n + 1, p, particles_ => emplaceLoop n p (particles_ ++ [p])

/-- The loop of the random-spawn `AddParticles`.  `positions i` and
`velocities i` are what `GenerateRandomXYPosition()` and
`GenerateRandomXYVelocity(radius)` return in iteration `i`; the first argument is
the number of iterations left and the second the current `i`. -/
def emplaceRandomLoop (radius mass : ℚ) (color : String) (positions : ℕ → ℕ × ℕ)
    (velocities : ℕ → ℚ × ℚ) : ℕ → ℕ → List Particle → List Particle
  | 0, _, particles_ => particles_
  | n + 1, i, particles_ =>
    emplaceRandomLoop radius mass color positions velocities n (i + 1)
      (particles_ ++
        [Particle.new ⟨((positions i).1 : ℚ), ((positions i).2 : ℚ)⟩
          ⟨(velocities i).1, (velocities i).2⟩ radius mass color])

namespace ParticleSimulator

/-- The random-spawn overload `AddParticles(amount, radius, mass, color)`.  The
result is what the call throws, if anything, together with the simulator as the
call leaves it.  The random source is the pair `positions`, `velocities`. -/
def AddParticlesRandom (s : ParticleSimulator) (amount : ℕ) (radius mass : ℚ)
    (color : String) (positions : ℕ → ℕ × ℕ) (velocities : ℕ → ℚ × ℚ) :
    Except Exception Unit × ParticleSimulator :=
  if radius < 0.1 then
    (Except.error (Exception.invalid_argument
      "Please make sure the radius of the particles is at least 1!"), s)
  else
    (Except.ok (),
      ⟨emplaceRandomLoop radius mass color positions velocities amount 0 s.particles_⟩)

/-- The explicit-position overload
`AddParticles(amount, radius, mass, color, x_coord, y_coord, initial_x_vel, initial_y_vel)`.
The result is what the call throws, if anything, together with the simulator as
the call leaves it. -/
def AddParticlesExplicit (s : ParticleSimulator) (amount : ℕ) (radius mass : ℚ)
    (color : String) (x_coord y_coord : ℕ) (initial_x_vel initial_y_vel : ℚ) :
    Except Exception Unit × ParticleSimulator :=
  match ValidateAddParticleArguments radius mass x_coord y_coord initial_x_vel
      initial_y_vel with
  | Except.error e => (Except.error e, s)
  | Except.ok _ =>
    (Except.ok (),
      ⟨emplaceLoop amount
        (Particle.new ⟨(x_coord : ℚ), (y_coord : ℚ)⟩ ⟨initial_x_vel, initial_y_vel⟩ radius mass
          color) s.particles_⟩)

/-- The method `ParticleSimulator::SpeedUp`. -/
def SpeedUp (s : ParticleSimulator) : ParticleSimulator :=
  ⟨s.particles_.map Particle.SpeedUp⟩

/-- The method `ParticleSimulator::SlowDown`. -/
def SlowDown (s : ParticleSimulator) : ParticleSimulator :=
  ⟨s.particles_.map Particle.SlowDown⟩

end ParticleSimulator

/-- What the two generators may return in the first `amount` iterations:
`std::uniform_int_distribution (a, b)` returns a value between `a` and `b`, so
the coordinates lie between the bounds inset by 2 and the velocity components
between `kMinimumVelocity` and `radius / 2`. -/
def ValidDraws (amount : ℕ) (radius : ℚ) (positions : ℕ → ℕ × ℕ)
    (velocities : ℕ → ℚ × ℚ) : Prop :=
  ∀ i, i < amount →
    (kXLowerBound + 2 ≤ (positions i).1 ∧ (positions i).1 ≤ kXUpperBound - 2) ∧
    (kYLowerBound + 2 ≤ (positions i).2 ∧ (positions i).2 ≤ kYUpperBound - 2) ∧
    (kMinimumVelocity ≤ (velocities i).1 ∧ (velocities i).1 ≤ radius / 2) ∧
    (kMinimumVelocity ≤ (velocities i).2 ∧ (velocities i).2 ≤ radius / 2)

/-- The simulator states reachable from an empty simulator by successful calls
of either `AddParticles` overload and by `Update`, `SpeedUp` and `SlowDown`. -/
inductive Reachable : ParticleSimulator → Prop where
  | empty : Reachable ⟨[]⟩
  | addRandom (s : ParticleSimulator) (amount : ℕ) (radius mass : ℚ) (color : String)
      (positions : ℕ → ℕ × ℕ) (velocities : ℕ → ℚ × ℚ) :
      Reachable s → ValidDraws amount radius positions velocities →
      (s.AddParticlesRandom amount radius mass color positions velocities).1 = Except.ok () →
      Reachable (s.AddParticlesRandom amount radius mass color positions velocities).2
  | addExplicit (s : ParticleSimulator) (amount : ℕ) (radius mass : ℚ) (color : String)
      (x_coord y_coord : ℕ) (initial_x_vel initial_y_vel : ℚ) :
      Reachable s →
      (s.AddParticlesExplicit amount radius mass color x_coord y_coord initial_x_vel
        initial_y_vel).1 = Except.ok () →
      Reachable (s.AddParticlesExplicit amount radius mass color x_coord y_coord
        initial_x_vel initial_y_vel).2
  | update (s : ParticleSimulator) : Reachable s → Reachable s.Update
  | speedUp (s : ParticleSimulator) : Reachable s → Reachable s.SpeedUp
  | slowDown (s : ParticleSimulator) : Reachable s → Reachable s.SlowDown

/-! ## The calls of Collide made by one tick -/

/-- The body of the inner loop as `collideAt`, recording in addition the pair
of arguments of every `Collide` call it makes. -/
def collideAtLog (particles_ : List Particle) (i j : ℕ) (calls : List (Particle × Particle)) :
    List Particle × List (Particle × Particle) :=
  match particles_[i]?, particles_[j]? with
  | some pi, some pj =>
    if CanCollide pi pj then
      ((particles_.set i (Collide pi pj).1).set j (Collide pi pj).2, calls ++ [(pi, pj)])
    else (particles_, calls)
  | _, _ => (particles_, calls)

/-- The inner loop as `innerLoop`, with the record of the `Collide` calls. -/
def innerLoopLog (i : ℕ) :
    ℕ → ℕ → List Particle × List (Particle × Particle) →
      List Particle × List (Particle × Particle)
  | 0, _, state => state
  | n + 1, j, state => innerLoopLog i n (j + 1) (collideAtLog state.1 i j state.2)

/-- The outer loop as `outerLoop`, with the record of the `Collide` calls. -/
def outerLoopLog :
    ℕ → ℕ → List Particle × List (Particle × Particle) →
      List Particle × List (Particle × Particle)
  | 0, _, state => state
  | n + 1, i, state =>
    outerLoopLog n (i + 1)
      (updateAt (innerLoopLog i (state.1.length - (i + 1)) (i + 1) state).1 i,
        (innerLoopLog i (state.1.length - (i + 1)) (i + 1) state).2)

namespace ParticleSimulator

/-- The pairs of arguments of the `Collide` calls that `Update` makes, in the
order of the calls. -/
def collideCalls (s : ParticleSimulator) : List (Particle × Particle) :=
  (outerLoopLog s.particles_.length 0 (s.particles_, [])).2

end ParticleSimulator

/-! ## Histogram -/

/-- The comparison `glm::length(v) >= a`: the length is the square root of
`lengthSq v`, a nonnegative number, so it is at least `a` exactly when `a` is
not positive or `a * a ≤ lengthSq v`. -/
def lengthGe (v : Vec2) (a : ℚ) : Bool :=
  decide (a ≤ 0 ∨ a * a ≤ lengthSq v)

/-- The comparison `glm::length(v) < b`: the length is below `b` exactly when
`b` is positive and `lengthSq v < b * b`. -/
def lengthLt (v : Vec2) (b : ℚ) : Bool :=
  decide (0 < b ∧ lengthSq v < b * b)

/-- The algorithm `std::copy_if` into a `std::back_inserter`: the elements of
the input that satisfy the predicate are pushed, in turn, on the back of the
output. -/
def copy_if (pred : Particle → Bool) : List Particle → List Particle → List Particle
  | [], out => out
  | p :: rest, out => copy_if pred rest (if pred p then out ++ [p] else out)

/-- The class `Histogram`, without the members that only hold drawing
coordinates (`lower_bound_` and the four axis corners). -/
structure Histogram where
  particles_ : List Particle
  bins_ : List ℕ
  mass_ : ℚ

namespace Histogram

/-- The constant `Histogram::kNumberOfPartitions`. -/
def kNumberOfPartitions : ℕ := 10

/-- The constant `Histogram::kMaxSpeed`. -/
def kMaxSpeed : ℕ := 50

/-- The constructor `Histogram(mass)`: `kNumberOfPartitions` bins, all zero. -/
def new (mass : ℚ) : Histogram :=
  { particles_ := [], bins_ := List.replicate kNumberOfPartitions 0, mass_ := mass }

/-- The method `Histogram::FindAllParticlesWithMass`. -/
def FindAllParticlesWithMass (h : Histogram) (particles : List Particle) : List Particle :=
  copy_if (fun particle => decide (particle.mass_ = h.mass_)) particles []

/-- The loop of `Histogram::FindAllParticlesInSpeedRange`, `count` being the
counter. -/
def countInSpeedRange (min_speed max_speed : ℚ) : List Particle → ℕ → ℕ
  | [], count => count
  | particle :: rest, count =>
    countInSpeedRange min_speed max_speed rest
      (if lengthGe particle.velocity_ min_speed && lengthLt particle.velocity_ max_speed then
        count + 1
      else count)

/-- The method `Histogram::FindAllParticlesInSpeedRange`. -/
def FindAllParticlesInSpeedRange (particles : List Particle) (min_speed max_speed : ℚ) : ℕ :=
  countInSpeedRange min_speed max_speed particles 0

/-- The loop of `Histogram::FillBins`:
`for (min_speed = 0, bin = 0; min_speed < kMaxSpeed && bin < kNumberOfPartitions;
min_speed += speed_range, bin++) bins_[bin] = FindAllParticlesInSpeedRange(...)`. -/
def fillBinsLoop (particles : List Particle) (speed_range min_speed : ℚ) (bin : ℕ)
    (bins_ : List ℕ) : List ℕ :=
  if h : min_speed < (kMaxSpeed : ℚ) ∧ bin < kNumberOfPartitions then
    have _ : kNumberOfPartitions - (bin + 1) < kNumberOfPartitions - bin :=
      Nat.sub_lt_sub_left h.2 (Nat.lt_succ_self bin)
    fillBinsLoop particles speed_range (min_speed + speed_range) (bin + 1)
      (bins_.set bin
        (FindAllParticlesInSpeedRange particles min_speed (min_speed + speed_range)))
  else bins_
termination_by kNumberOfPartitions - bin

/-- The method `Histogram::FillBins`; `speed_range` is the integer quotient
`kMaxSpeed / kNumberOfPartitions` converted to `double`. -/
def FillBins (h : Histogram) (particles : List Particle) : Histogram :=
  let speed_range : ℚ := ((kMaxSpeed / kNumberOfPartitions : ℕ) : ℚ)
  { h with bins_ := fillBinsLoop particles speed_range 0 0 h.bins_ }

end Histogram

/-- The simulator states reachable from an empty simulator by successful
`AddParticles` calls that give every velocity component a magnitude of at most
`radius / 2` (explicit arguments within that bound, or draws of the generators)
and by `Update`s before which no pair of particles satisfies `CanCollide`. -/
inductive CalmReachable : ParticleSimulator → Prop where
  | empty : CalmReachable ⟨[]⟩
  | addRandom (s : ParticleSimulator) (amount : ℕ) (radius mass : ℚ) (color : String)
      (positions : ℕ → ℕ × ℕ) (velocities : ℕ → ℚ × ℚ) :
      CalmReachable s → ValidDraws amount radius positions velocities →
      (s.AddParticlesRandom amount radius mass color positions velocities).1 = Except.ok () →
      CalmReachable (s.AddParticlesRandom amount radius mass color positions velocities).2
  | addExplicit (s : ParticleSimulator) (amount : ℕ) (radius mass : ℚ) (color : String)
      (x_coord y_coord : ℕ) (initial_x_vel initial_y_vel : ℚ) :
      CalmReachable s →
      (s.AddParticlesExplicit amount radius mass color x_coord y_coord initial_x_vel
        initial_y_vel).1 = Except.ok () →
      |initial_x_vel| ≤ radius / 2 → |initial_y_vel| ≤ radius / 2 →
      CalmReachable (s.AddParticlesExplicit amount radius mass color x_coord y_coord
        initial_x_vel initial_y_vel).2
  | update (s : ParticleSimulator) :
      CalmReachable s → s.particles_.Pairwise (fun a b => CanCollide a b = false) →
      CalmReachable s.Update

/-! ## Wall containment -/

/-- The position of a particle on an axis lies between `lowerBound + radius`
and `upperBound - radius`, up to the magnitude of its velocity component on that
axis. -/
def withinOvershoot (p : Particle) (a : Axis) : Prop :=
  lowerBound a + p.radius_ - |p.velocity_.comp a| ≤ p.position_.comp a ∧
    p.position_.comp a ≤ upperBound a - p.radius_ + |p.velocity_.comp a|

/-- A spawn position between `lowerBound + radius` and `upperBound - radius` on
both axes. -/
def SpawnInside (radius : ℚ) (x y : ℕ) : Prop :=
  (lowerBound Axis.x + radius ≤ (x : ℚ) ∧ (x : ℚ) ≤ upperBound Axis.x - radius) ∧
    (lowerBound Axis.y + radius ≤ (y : ℚ) ∧ (y : ℚ) ≤ upperBound Axis.y - radius)

/-- What a particle keeps on an axis from tick to tick without collisions, once
it has been between the walls: the walls leave room for it, and it is either
between `lowerBound + radius` and `upperBound - radius`, or beyond one of the two
and heading back far enough to be inside again after its next move. -/
def wallInvariant (p : Particle) (a : Axis) : Prop :=
  lowerBound a + p.radius_ ≤ upperBound a - p.radius_ ∧
    ((lowerBound a + p.radius_ ≤ p.position_.comp a ∧
        p.position_.comp a ≤ upperBound a - p.radius_) ∨
      (p.position_.comp a < lowerBound a + p.radius_ ∧ 0 < p.velocity_.comp a ∧
        lowerBound a + p.radius_ ≤ p.position_.comp a + p.velocity_.comp a) ∨
      (upperBound a - p.radius_ < p.position_.comp a ∧ p.velocity_.comp a < 0 ∧
        p.position_.comp a + p.velocity_.comp a ≤ upperBound a - p.radius_))

/-- The simulator states reachable from an empty simulator by successful calls
of either `AddParticles` overload and by `Update`. -/
inductive ReachableByAddAndUpdate : ParticleSimulator → Prop where
  | empty : ReachableByAddAndUpdate ⟨[]⟩
  | addRandom (s : ParticleSimulator) (amount : ℕ) (radius mass : ℚ) (color : String)
      (positions : ℕ → ℕ × ℕ) (velocities : ℕ → ℚ × ℚ) :
      ReachableByAddAndUpdate s → ValidDraws amount radius positions velocities →
      (s.AddParticlesRandom amount radius mass color positions velocities).1 = Except.ok () →
      ReachableByAddAndUpdate
        (s.AddParticlesRandom amount radius mass color positions velocities).2
  | addExplicit (s : ParticleSimulator) (amount : ℕ) (radius mass : ℚ) (color : String)
      (x_coord y_coord : ℕ) (initial_x_vel initial_y_vel : ℚ) :
      ReachableByAddAndUpdate s →
      (s.AddParticlesExplicit amount radius mass color x_coord y_coord initial_x_vel
        initial_y_vel).1 = Except.ok () →
      ReachableByAddAndUpdate (s.AddParticlesExplicit amount radius mass color x_coord y_coord
        initial_x_vel initial_y_vel).2
  | update (s : ParticleSimulator) : ReachableByAddAndUpdate s → ReachableByAddAndUpdate s.Update

/-- The simulator states reachable from an empty simulator by successful
`AddParticles` calls whose spawn positions lie between `lowerBound + radius` and
`upperBound - radius` on both axes and by `Update`s before which no pair of
particles satisfies `CanCollide`. -/
inductive ContainedReachable : ParticleSimulator → Prop where
  | empty : ContainedReachable ⟨[]⟩
  | addRandom (s : ParticleSimulator) (amount : ℕ) (radius mass : ℚ) (color : String)
      (positions : ℕ → ℕ × ℕ) (velocities : ℕ → ℚ × ℚ) :
      ContainedReachable s → ValidDraws amount radius positions velocities →
      (∀ i, i < amount → SpawnInside radius (positions i).1 (positions i).2) →
      (s.AddParticlesRandom amount radius mass color positions velocities).1 = Except.ok () →
      ContainedReachable (s.AddParticlesRandom amount radius mass color positions velocities).2
  | addExplicit (s : ParticleSimulator) (amount : ℕ) (radius mass : ℚ) (color : String)
      (x_coord y_coord : ℕ) (initial_x_vel initial_y_vel : ℚ) :
      ContainedReachable s → SpawnInside radius x_coord y_coord →
      (s.AddParticlesExplicit amount radius mass color x_coord y_coord initial_x_vel
        initial_y_vel).1 = Except.ok () →
      ContainedReachable (s.AddParticlesExplicit amount radius mass color x_coord y_coord
        initial_x_vel initial_y_vel).2
  | update (s : ParticleSimulator) :
      ContainedReachable s → s.particles_.Pairwise (fun a b => CanCollide a b = false) →
      ContainedReachable s.Update

/-! ## Concrete particles (the scenarios of `test_particle_controller.cc`) -/

/-- The first particle of "Collision of particles with different mass". -/
def lightParticle : Particle := ⟨⟨550, 545⟩, ⟨-3, 0⟩, 10, "red", 10⟩

/-- The second particle of "Collision of particles with different mass". -/
def heavyParticle : Particle := ⟨⟨540, 545⟩, ⟨3, 0⟩, 20, "red", 20⟩

/-- The particle of "Horizontal velocity should be negated after hitting right
vertical wall" in `test_particle.cc`. -/
def rightWallParticle : Particle := ⟨⟨1345, 25⟩, ⟨5, 0⟩, 10, "red", 5⟩

/-- The particle of "Both horizontal and vertical velocity should be negated if
it hits the corner of the container" in `test_particle.cc`. -/
def cornerParticle : Particle := ⟨⟨1340, 710⟩, ⟨5, 5⟩, 10, "red", 5⟩

/-- A particle wider than the container, moving left; the explicit-position
`AddParticles(1, 500, 1, "red", 900, 400, -1, 0)` creates it. -/
def wideParticle : Particle := ⟨⟨900, 400⟩, ⟨-1, 0⟩, 1, "red", 500⟩

/-- The first particle of "Particles moving toward each other with same mass
should collide". -/
def headOnRight : Particle := ⟨⟨550, 550⟩, ⟨-2, 0⟩, 10, "red", 10⟩

/-- The second particle of "Particles moving toward each other with same mass
should collide". -/
def headOnLeft : Particle := ⟨⟨540, 550⟩, ⟨2, 0⟩, 10, "red", 10⟩

/-- The first particle of "There shouldn't be a collision if particles aren't
touching". -/
def farUpper : Particle := ⟨⟨550, 250⟩, ⟨-2, 0⟩, 10, "red", 10⟩

/-- The second particle of "There shouldn't be a collision if particles aren't
touching". -/
def farLower : Particle := ⟨⟨540, 550⟩, ⟨2, 0⟩, 10, "red", 10⟩

/-- A particle of mass 1, radius 10 and velocity `(-5, 0)`, as the
explicit-position `AddParticles(1, 10, 1, "red", 550, 550, -5, 0)` creates it. -/
def lightFast : Particle := ⟨⟨550, 550⟩, ⟨-5, 0⟩, 1, "red", 10⟩

/-- A particle of mass 3, radius 10 and velocity `(5, 0)`, as the
explicit-position `AddParticles(1, 10, 3, "red", 540, 550, 5, 0)` creates it. -/
def heavySlow : Particle := ⟨⟨540, 550⟩, ⟨5, 0⟩, 3, "red", 10⟩

/-- The simulator after the random-spawn `AddParticles(1, 5, 0, "red")` on an
empty simulator, the generators returning `(500, 500)` and `(1, 1)`. -/
def masslessSimulator : ParticleSimulator :=
  ((ParticleSimulator.mk []).AddParticlesRandom 1 5 0 "red" (fun _ => (500, 500))
    (fun _ => (1, 1))).2

/-- A particle of radius 10 with velocity `(4.75, 0)`, as the explicit-position
`AddParticles(1, 10, 10, "red", 500, 500, 4.75, 0)` creates it. -/
def nearLimitParticle : Particle := ⟨⟨500, 500⟩, ⟨4.75, 0⟩, 10, "red", 10⟩

/-- A particle of radius 10 with velocity `(0.125, 0)`, as the explicit-position
`AddParticles(1, 10, 10, "red", 500, 500, 0.125, 0)` creates it. -/
def crawlingParticle : Particle := ⟨⟨500, 500⟩, ⟨0.125, 0⟩, 10, "red", 10⟩

/-- Three particles of mass 10 with the speeds 6, 17 and 25 of the red
particles of `test_histogram.cc`, followed by one particle of mass 30. -/
def histogramParticles : List Particle :=
  [⟨⟨900, 700⟩, ⟨6, 0⟩, 10, "red", 50⟩, ⟨⟨600, 500⟩, ⟨17, 0⟩, 10, "red", 50⟩,
    ⟨⟨500, 600⟩, ⟨25, 0⟩, 10, "red", 50⟩, ⟨⟨900, 350⟩, ⟨5, 0⟩, 30, "blue", 50⟩]

/-- A particle of radius 10 on the corner `(450, 80)` of the container, as the
explicit-position `AddParticles(1, 10, 10, "red", 450, 80, 1, 1)` creates it. -/
def cornerSpawn : Particle := ⟨⟨450, 80⟩, ⟨1, 1⟩, 10, "red", 10⟩

/-- A particle of radius 10 at `x = 1340 = 1350 - 10`, moving right, as the
explicit-position `AddParticles(1, 10, 10, "red", 1340, 500, 5, 0)` creates it. -/
def wallRunner : Particle := ⟨⟨1340, 500⟩, ⟨5, 0⟩, 10, "red", 10⟩

/-- A particle of radius 10 at `x = 461`, moving left, as the explicit-position
`AddParticles(1, 10, 10, "red", 461, 500, -3, 0)` creates it. -/
def bouncer : Particle := ⟨⟨461, 500⟩, ⟨-3, 0⟩, 10, "red", 10⟩

/-- A particle of radius 10 at `x = 470`, moving right slowly, as the
explicit-position `AddParticles(1, 10, 10, "red", 470, 500, 0.5, 0)` creates
it. -/
def follower : Particle := ⟨⟨470, 500⟩, ⟨0.5, 0⟩, 10, "red", 10⟩

/-- A particle of mass 30 with the speed 5 of the blue particles of
`test_histogram.cc`, as `AddParticles(1, 50, 30, "blue", 900, 350, 5, 0)` creates
it. -/
def speedFive : Particle := ⟨⟨900, 350⟩, ⟨5, 0⟩, 30, "blue", 50⟩

/-- The first particle of "Collisions can be detected between pairs of
particles with more than two particles". -/
def trioA : Particle := ⟨⟨550, 545⟩, ⟨-3, 5⟩, 10, "red", 10⟩

/-- The second particle of the three-particle test. -/
def trioB : Particle := ⟨⟨540, 545⟩, ⟨3, 3⟩, 20, "red", 20⟩

/-- The third particle of the three-particle test. -/
def trioC : Particle := ⟨⟨545, 550⟩, ⟨3, -4⟩, 20, "red", 20⟩

/-- The first particle after the collision of the pair `(0, 1)`. -/
def trioA1 : Particle := ⟨⟨550, 545⟩, ⟨5, 5⟩, 10, "red", 10⟩

/-- The second particle after the collision of the pair `(0, 1)`. -/
def trioB1 : Particle := ⟨⟨540, 545⟩, ⟨-1, 3⟩, 20, "red", 20⟩

/-- The first particle after the collision of the pair `(0, 2)`. -/
def trioA2 : Particle := ⟨⟨550, 545⟩, ⟨29 / 3, 1 / 3⟩, 10, "red", 10⟩

/-- The third particle after the collision of the pair `(0, 2)`. -/
def trioC1 : Particle := ⟨⟨545, 550⟩, ⟨2 / 3, -5 / 3⟩, 20, "red", 20⟩

/-- The second particle after the collision of the pair `(1, 2)`. -/
def trioB2 : Particle := ⟨⟨540, 545⟩, ⟨-5 / 2, 3 / 2⟩, 20, "red", 20⟩

/-- The third particle after the collision of the pair `(1, 2)`. -/
def trioC2 : Particle := ⟨⟨545, 550⟩, ⟨13 / 6, -1 / 6⟩, 20, "red", 20⟩

/-! ## Single and double precision

The definitions above compute in exact arithmetic.  The program itself computes
in `float` (`glm::vec2`, the masses inside `Collide`) and in `double` (radius,
mass, the arguments of `AddParticles`).  The namespace `ieee` embeds the same
source a second time with the arithmetic of the machine: IEEE 754 binary32 for
`float` and binary64 for `double`, rounding to nearest with ties to even, every
operation rounded once to the type C++ gives it (a `float` operand that meets a
`double` is widened first, which changes no value), no fused multiply-add.  The
definitions carry the names of the source.
-/

namespace ieee

/-- A binary floating point format: `prec` bits of significand and the largest
exponent `emax`; the smallest exponent of a normal number is `1 - emax`. -/
structure Format where
  prec : ℕ
  emax : ℤ

/-- The format of `float`. -/
def binary32 : Format := ⟨24, 127⟩

/-- The format of `double`. -/
def binary64 : Format := ⟨53, 1023⟩

/-- A value of a `float` or a `double`: not a number, an infinity with its
sign, or the finite number `mag` (a nonnegative rational) with its sign;
`fin true 0` is the negative zero. -/
inductive Fp where
  | nan : Fp
  | inf (neg : Bool) : Fp
  | fin (neg : Bool) (mag : ℚ) : Fp
deriving DecidableEq

/-- The power `2 ^ k` for an integer `k`. -/
def pow2 (k : ℤ) : ℚ :=
  if 0 ≤ k then ((2 ^ k.toNat : ℕ) : ℚ) else 1 / ((2 ^ (-k).toNat : ℕ) : ℚ)

/-- The position of the leading bit of `n` by repeated halving: the `k` with
`2 ^ k ≤ n < 2 ^ (k + 1)` (0 for `n ≤ 1`).  The first argument bounds the number
of halvings; `n` itself is enough. -/
def log2Nat : ℕ → ℕ → ℕ
  | 0, _ => 0
  | fuel + 1, n => if n < 2 then 0 else log2Nat fuel (n / 2) + 1

/-- The exponent of a positive rational `a`: the integer `k` with
`2 ^ k ≤ a < 2 ^ (k + 1)`.  The difference of the leading bit positions of
numerator and denominator is `k` or `k + 1`. -/
def ilog2 (a : ℚ) : ℤ :=
  let k : ℤ := (log2Nat a.num.natAbs a.num.natAbs : ℤ) - (log2Nat a.den a.den : ℤ)
  if pow2 k ≤ a then k else k - 1

/-- The integer nearest to a nonnegative rational, a tie going to the even
one. -/
def roundHalfEven (a : ℚ) : ℤ :=
  let n : ℤ := ⌊a⌋
  if a - n < 1 / 2 then n
  else if 1 / 2 < a - n then n + 1
  else if n % 2 = 0 then n else n + 1

namespace Format

/-- Rounding of the magnitude `a ≥ 0` with sign `neg` to the format: `a` is
rounded to the nearest multiple of the unit in the last place of its binade
(of the smallest normal binade for a subnormal `a`), ties to even; a result of
`2 ^ (emax + 1)` or more is an infinity, and a result of zero keeps the sign. -/
def round (f : Format) (neg : Bool) (a : ℚ) : Fp :=
  if a = 0 then Fp.fin neg 0
  else
    let e : ℤ := max (ilog2 a) (1 - f.emax)
    let ulp : ℚ := pow2 (e - ((f.prec : ℤ) - 1))
    let m : ℚ := (roundHalfEven (a / ulp) : ℚ) * ulp
    if pow2 (f.emax + 1) ≤ m then Fp.inf neg else Fp.fin neg m

end Format

/-- The integer square root by bisection: the bits `2 ^ (k - 1)`, ..., `2`, `1`
are added to `acc` in turn whenever the square still fits under `n`. -/
def sqrtBits (n : ℕ) : ℕ → ℕ → ℕ
  | 0, acc => acc
  | k + 1, acc =>
    if (acc + 2 ^ k) ^ 2 ≤ n then sqrtBits n k (acc + 2 ^ k) else sqrtBits n k acc

/-- The integer square root: the largest `r` with `r * r ≤ n`. -/
def natSqrt (n : ℕ) : ℕ := sqrtBits n (log2Nat n n / 2 + 1) 0

namespace Format

/-- The correctly rounded square root of a positive rational `a`: with `ulp` the
unit in the last place of the binade of the root and `t = a / ulp ^ 2`, the root
is `sqrt t` units; `n` is its integer part, and comparing `t` with
`(n + 1/2) ^ 2` decides the rounding (ties to even).  A square root neither
overflows nor is subnormal. -/
def roundSqrt (f : Format) (a : ℚ) : Fp :=
  let e : ℤ := ilog2 a / 2
  let ulp : ℚ := pow2 (e - ((f.prec : ℤ) - 1))
  let t : ℚ := a / (ulp * ulp)
  let n : ℕ := natSqrt ⌊t⌋.toNat
  let h : ℚ := (n : ℚ) + 1 / 2
  let m : ℕ :=
    if t < h * h then n else if h * h < t then n + 1 else if n % 2 = 0 then n else n + 1
  Fp.fin false ((m : ℚ) * ulp)

end Format

namespace Fp

/-- The rational value of a finite number (0 for an infinity and for not a
number). -/
def toRat : Fp → ℚ
  | fin neg mag => if neg then -mag else mag
  | _ => 0

/-- The number of the format nearest to the rational `q`: a decimal literal of
the source, such as `0.1`, read as a `double`. -/
def ofRat (f : Format) (q : ℚ) : Fp := f.round (decide (q < 0)) |q|

/-- The conversion of a `size_t` or of an integer literal to the format. -/
def ofNat (f : Format) (n : ℕ) : Fp := f.round false (n : ℚ)

/-- The conversion of a `double` to `float` (the format `f`); the widening of a
`float` to `double` changes no value and is not written. -/
def cast (f : Format) : Fp → Fp
  | fin s a => f.round s a
  | x => x

/-- Unary minus: the sign is flipped. -/
def neg : Fp → Fp
  | nan => nan
  | inf s => inf (!s)
  | fin s a => fin (!s) a

/-- The absolute value `abs`: the sign is cleared. -/
def abs : Fp → Fp
  | nan => nan
  | inf _ => inf false
  | fin _ a => fin false a

/-- The sum `x + y`, rounded to the format.  An exact sum of zero is `+0`,
except that `-0 + -0` is `-0`. -/
def add (f : Format) : Fp → Fp → Fp
  | nan, _ => nan
  | _, nan => nan
  | inf s, inf t => if s = t then inf s else nan
  | inf s, fin _ _ => inf s
  | fin _ _, inf t => inf t
  | fin s a, fin t b =>
    let r : ℚ := (fin s a).toRat + (fin t b).toRat
    if r = 0 then fin (s && t) 0 else f.round (decide (r < 0)) |r|

/-- The difference `x - y`, rounded to the format: `x + (-y)`. -/
def sub (f : Format) (x y : Fp) : Fp := add f x (neg y)

/-- The product `x * y`, rounded to the format. -/
def mul (f : Format) : Fp → Fp → Fp
  | nan, _ => nan
  | _, nan => nan
  | inf s, inf t => inf (xor s t)
  | inf s, fin t b => if b = 0 then nan else inf (xor s t)
  | fin s a, inf t => if a = 0 then nan else inf (xor s t)
  | fin s a, fin t b => f.round (xor s t) (a * b)

/-- The quotient `x / y`, rounded to the format; `0 / 0` is not a number and
any other finite number over zero is an infinity. -/
def div (f : Format) : Fp → Fp → Fp
  | nan, _ => nan
  | _, nan => nan
  | inf _, inf _ => nan
  | inf s, fin t _ => inf (xor s t)
  | fin s _, inf t => fin (xor s t) 0
  | fin s a, fin t b =>
    if b = 0 then (if a = 0 then nan else inf (xor s t)) else f.round (xor s t) (a / b)

/-- The square root, rounded to the format. -/
def sqrt (f : Format) : Fp → Fp
  | nan => nan
  | inf s => if s then nan else inf false
  | fin s a => if a = 0 then fin s 0 else if s then nan else f.roundSqrt a

/-- The comparison `x < y`; false when either side is not a number. -/
def lt : Fp → Fp → Bool
  | nan, _ => false
  | _, nan => false
  | inf s, inf t => s && !t
  | inf s, fin _ _ => s
  | fin _ _, inf t => !t
  | fin s a, fin t b => decide ((fin s a).toRat < (fin t b).toRat)

/-- The comparison `x <= y`; false when either side is not a number. -/
def le : Fp → Fp → Bool
  | nan, _ => false
  | _, nan => false
  | inf s, inf t => s || !t
  | inf s, fin _ _ => s
  | fin _ _, inf t => !t
  | fin s a, fin t b => decide ((fin s a).toRat ≤ (fin t b).toRat)

/-- The comparison `x == y`; false when either side is not a number, true for
the two zeros. -/
def eq : Fp → Fp → Bool
  | nan, _ => false
  | _, nan => false
  | inf s, inf t => s == t
  | inf _, fin _ _ => false
  | fin _ _, inf _ => false
  | fin s a, fin t b => decide ((fin s a).toRat = (fin t b).toRat)

end Fp

/-! ### glm::vec2 in single precision -/

/-- The two-component vector `glm::vec2`; both components are `float`. -/
structure Vec2 where
  x : Fp
  y : Fp
deriving DecidableEq

namespace Vec2

/-- Componentwise `a + b` in `float`. -/
def add (a b : Vec2) : Vec2 := ⟨Fp.add binary32 a.x b.x, Fp.add binary32 a.y b.y⟩

/-- Componentwise `a - b` in `float`. -/
def sub (a b : Vec2) : Vec2 := ⟨Fp.sub binary32 a.x b.x, Fp.sub binary32 a.y b.y⟩

/-- Scalar times vector, `s * a`, both `float`. -/
def smul (s : Fp) (a : Vec2) : Vec2 := ⟨Fp.mul binary32 s a.x, Fp.mul binary32 s a.y⟩

/-- The exact values of the two components. -/
def toExact (a : Vec2) : idealgas.Vec2 := ⟨a.x.toRat, a.y.toRat⟩

end Vec2

/-- The scalar product `glm::dot`: the two products are rounded to `float`, then
their sum is. -/
def dot (a b : Vec2) : Fp :=
  Fp.add binary32 (Fp.mul binary32 a.x b.x) (Fp.mul binary32 a.y b.y)

/-- The length `glm::length(a) = sqrt(dot(a, a))`, a `float`. -/
def length (a : Vec2) : Fp := Fp.sqrt binary32 (dot a a)

/-- The distance `glm::distance(p0, p1) = length(p1 - p0)`, a `float`. -/
def distance (p0 p1 : Vec2) : Fp := length (Vec2.sub p1 p0)

/-! ### Particle -/

/-- The class `Particle` (fields in the order of `particle.h`): position and
velocity are `glm::vec2`, mass and radius are `double`. -/
structure Particle where
  position_ : Vec2
  velocity_ : Vec2
  mass_ : Fp
  color_ : String
  radius_ : Fp
deriving DecidableEq

namespace Particle

/-- The constructor `Particle(location, velocity, radius, mass, color)`. -/
def new (location velocity : Vec2) (radius mass : Fp) (color : String) : Particle :=
  { position_ := location, velocity_ := velocity, mass_ := mass, color_ := color,
    radius_ := radius }

/-- The setter `Particle::SetVelocity`. -/
def SetVelocity (p : Particle) (velocity : Vec2) : Particle :=
  { p with velocity_ := velocity }

/-- The particle of the exact embedding with the same values. -/
def toExact (p : Particle) : idealgas.Particle :=
  ⟨p.position_.toExact, p.velocity_.toExact, p.mass_.toRat, p.color_, p.radius_.toRat⟩

end Particle

/-! ### Detection and resolution -/

/-- The predicate `ParticleSimulator::CanCollide`.  The distance is a `float`,
the sum of the radii a `double`; the scalar product is compared with the
integer `0` as a `float`. -/
def CanCollide (particle1 particle2 : Particle) : Bool :=
  if Fp.lt (distance particle1.position_ particle2.position_)
      (Fp.add binary64 particle1.radius_ particle2.radius_) then
    let v1_difference := Vec2.sub particle1.velocity_ particle2.velocity_
    let x1_difference := Vec2.sub particle1.position_ particle2.position_
    if Fp.lt (dot v1_difference x1_difference) (Fp.ofNat binary32 0) then true else false
  else false

/-- The procedure `ParticleSimulator::Collide`.  The masses are narrowed to
`float`; `pow(magnitude, 2)` takes a `float` and an `int` and is the `double`
square of the magnitude (the square of a `float` is a `double` without
rounding), so the quotient `dot / pow` is a `double` division and the cast
`(float)` narrows it; everything else is `float`. -/
def Collide (particle1 particle2 : Particle) : Particle × Particle :=
  let p1_mass := Fp.cast binary32 particle1.mass_
  let p2_mass := Fp.cast binary32 particle2.mass_
  let v1_difference := Vec2.sub particle1.velocity_ particle2.velocity_
  let x1_difference := Vec2.sub particle1.position_ particle2.position_
  let magnitude1 := length x1_difference
  let v2_difference := Vec2.sub particle2.velocity_ particle1.velocity_
  let x2_difference := Vec2.sub particle2.position_ particle1.position_
  let magnitude2 := length x2_difference
  let p1_mass_ratio :=
    Fp.div binary32 (Fp.mul binary32 (Fp.ofNat binary32 2) p2_mass)
      (Fp.add binary32 p1_mass p2_mass)
  let p2_mass_ratio :=
    Fp.div binary32 (Fp.mul binary32 (Fp.ofNat binary32 2) p1_mass)
      (Fp.add binary32 p1_mass p2_mass)
  let p1_new_vel := Vec2.sub particle1.velocity_
    (Vec2.smul p1_mass_ratio
      (Vec2.smul
        (Fp.cast binary32
          (Fp.div binary64 (dot v1_difference x1_difference)
            (Fp.mul binary64 magnitude1 magnitude1)))
        x1_difference))
  let p2_new_vel := Vec2.sub particle2.velocity_
    (Vec2.smul p2_mass_ratio
      (Vec2.smul
        (Fp.cast binary32
          (Fp.div binary64 (dot v2_difference x2_difference)
            (Fp.mul binary64 magnitude2 magnitude2)))
        x2_difference))
  (particle1.SetVelocity p1_new_vel, particle2.SetVelocity p2_new_vel)

/-! ### Particle::Update, SpeedUp and SlowDown -/

/-- The first wall check of `Particle::Update`; `kXLowerBound + radius_` is a
`double` sum. -/
def checkXLower (position : Vec2) (radius : Fp) (velocity : Vec2) : Vec2 :=
  if Fp.lt velocity.x (Fp.ofNat binary32 0) then
    if Fp.le position.x (Fp.add binary64 (Fp.ofNat binary64 kXLowerBound) radius) then
      ⟨Fp.neg velocity.x, velocity.y⟩
    else velocity
  else velocity

/-- The second wall check of `Particle::Update`. -/
def checkYLower (position : Vec2) (radius : Fp) (velocity : Vec2) : Vec2 :=
  if Fp.lt velocity.y (Fp.ofNat binary32 0) then
    if Fp.le position.y (Fp.add binary64 (Fp.ofNat binary64 kYLowerBound) radius) then
      ⟨velocity.x, Fp.neg velocity.y⟩
    else velocity
  else velocity

/-- The third wall check of `Particle::Update`; `kXUpperBound - radius_` is a
`double` difference. -/
def checkXUpper (position : Vec2) (radius : Fp) (velocity : Vec2) : Vec2 :=
  if Fp.lt (Fp.ofNat binary32 0) velocity.x then
    if Fp.le (Fp.sub binary64 (Fp.ofNat binary64 kXUpperBound) radius) position.x then
      ⟨Fp.neg velocity.x, velocity.y⟩
    else velocity
  else velocity

/-- The fourth wall check of `Particle::Update`. -/
def checkYUpper (position : Vec2) (radius : Fp) (velocity : Vec2) : Vec2 :=
  if Fp.lt (Fp.ofNat binary32 0) velocity.y then
    if Fp.le (Fp.sub binary64 (Fp.ofNat binary64 kYUpperBound) radius) position.y then
      ⟨velocity.x, Fp.neg velocity.y⟩
    else velocity
  else velocity

namespace Particle

/-- The method `Particle::Update`: `position_ += velocity_` in `float`, then the
four wall checks in the order of the source. -/
def Update (p : Particle) : Particle :=
  let position := Vec2.add p.position_ p.velocity_
  { p with
    position_ := position
    velocity_ :=
      checkYUpper position p.radius_
        (checkXUpper position p.radius_
          (checkYLower position p.radius_ (checkXLower position p.radius_ p.velocity_))) }

/-- The method `Particle::SpeedUp`.  `radius_ / 2` is a `double` quotient and
`velocity_.x += 0.5` adds in `double` and narrows the sum to `float`. -/
def SpeedUp (p : Particle) : Particle :=
  let vx :=
    if Fp.lt p.velocity_.x (Fp.div binary64 p.radius_ (Fp.ofNat binary64 2)) &&
        Fp.lt (Fp.ofNat binary32 0) p.velocity_.x then
      Fp.cast binary32 (Fp.add binary64 p.velocity_.x (Fp.ofRat binary64 (1 / 2)))
    else if Fp.lt (Fp.div binary64 (Fp.neg p.radius_) (Fp.ofNat binary64 2)) p.velocity_.x &&
        Fp.lt p.velocity_.x (Fp.ofNat binary32 0) then
      Fp.cast binary32 (Fp.sub binary64 p.velocity_.x (Fp.ofRat binary64 (1 / 2)))
    else p.velocity_.x
  let vy :=
    if Fp.lt p.velocity_.y (Fp.div binary64 p.radius_ (Fp.ofNat binary64 2)) &&
        Fp.lt (Fp.ofNat binary32 0) vx then
      Fp.cast binary32 (Fp.add binary64 p.velocity_.y (Fp.ofRat binary64 (1 / 2)))
    else if Fp.lt (Fp.div binary64 (Fp.neg p.radius_) (Fp.ofNat binary64 2)) p.velocity_.y &&
        Fp.lt vx (Fp.ofNat binary32 0) then
      Fp.cast binary32 (Fp.sub binary64 p.velocity_.y (Fp.ofRat binary64 (1 / 2)))
    else p.velocity_.y
  { p with velocity_ := ⟨vx, vy⟩ }

/-- The method `Particle::SlowDown`. -/
def SlowDown (p : Particle) : Particle :=
  let vx :=
    if Fp.lt (Fp.ofNat binary32 0) p.velocity_.x then
      Fp.cast binary32 (Fp.sub binary64 p.velocity_.x (Fp.ofRat binary64 (1 / 2)))
    else if Fp.lt p.velocity_.x (Fp.ofNat binary32 0) then
      Fp.cast binary32 (Fp.add binary64 p.velocity_.x (Fp.ofRat binary64 (1 / 2)))
    else p.velocity_.x
  let vy :=
    if Fp.lt (Fp.ofNat binary32 0) p.velocity_.y then
      Fp.cast binary32 (Fp.sub binary64 p.velocity_.y (Fp.ofRat binary64 (1 / 2)))
    else if Fp.lt p.velocity_.y (Fp.ofNat binary32 0) then
      Fp.cast binary32 (Fp.add binary64 p.velocity_.y (Fp.ofRat binary64 (1 / 2)))
    else p.velocity_.y
  { p with velocity_ := ⟨vx, vy⟩ }

end Particle

/-! ### ParticleSimulator -/

/-- The class `ParticleSimulator`: its state is the vector `particles_`. -/
structure ParticleSimulator where
  particles_ : List Particle
deriving DecidableEq

/-- The body of the inner loop of `ParticleSimulator::Update`:
`if (CanCollide(particles_[i], particles_[j])) Collide(particles_[i], particles_[j]);`. -/
def collideAt (particles_ : List Particle) (i j : ℕ) : List Particle :=
  match particles_[i]?, particles_[j]? with
  | some pi, some pj =>
    if CanCollide pi pj then
      (particles_.set i (Collide pi pj).1).set j (Collide pi pj).2
    else particles_
  | _, _ => particles_

/-- The inner loop `for (j = i + 1; j < particles_.size(); j++)`; the first
count is the number of iterations left, the second the current `j`. -/
def innerLoop (i : ℕ) : ℕ → ℕ → List Particle → List Particle
  | 0, _, particles_ => particles_
  | n + 1, j, particles_ => innerLoop i n (j + 1) (collideAt particles_ i j)

/-- The statement `particles_[i].Update();`. -/
def updateAt (particles_ : List Particle) (i : ℕ) : List Particle :=
  match particles_[i]? with
  | some p => particles_.set i p.Update
  | none => particles_

/-- The outer loop `for (i = 0; i < particles_.size(); i++)`; the first count is
the number of iterations left, the second the current `i`. -/
def outerLoop : ℕ → ℕ → List Particle → List Particle
  | 0, _, particles_ => particles_
  | n + 1, i, particles_ =>
    outerLoop n (i + 1)
      (updateAt (innerLoop i (particles_.length - (i + 1)) (i + 1) particles_) i)

/-- The method `ParticleSimulator::ValidateAddParticleArguments`; the literals
`0.1`, `.8` and `0.8` are `double`s, `radius * .8` is a `double` product and `abs`
is the absolute value of the `double`. -/
def ValidateAddParticleArguments (radius mass : Fp) (x_coord y_coord : ℕ)
    (initial_x_vel initial_y_vel : Fp) : Except Exception Unit :=
  if Fp.lt radius (Fp.ofRat binary64 (1 / 10)) then
    Except.error (Exception.invalid_argument
      "Please make sure the radius of the particles is at least 0.1!")
  else if Fp.lt mass (Fp.ofRat binary64 (1 / 10)) then
    Except.error (Exception.invalid_argument
      "Please make sure the mass of the particles is at least 0.1!")
  else if Fp.eq initial_x_vel (Fp.ofNat binary64 0) && Fp.eq initial_y_vel (Fp.ofNat binary64 0) then
    Except.error (Exception.invalid_argument
      "Please make sure the initial velocity of the particles is not 0!")
  else if Fp.lt (Fp.mul binary64 radius (Fp.ofRat binary64 (8 / 10))) (Fp.abs initial_x_vel) ||
      Fp.lt (Fp.mul binary64 radius (Fp.ofRat binary64 (8 / 10))) (Fp.abs initial_y_vel) then
    Except.error (Exception.invalid_argument
      ("Please make sure the magnitude of the initial velocity of the particles is at most " ++
        "half the radius! Tunneling will occur otherwise!"))
  else if x_coord < kXLowerBound ∨ x_coord > kXUpperBound then
    Except.error (Exception.invalid_argument
      ("Please make sure the spawn x coordinate is within the container boundaries of " ++
        toString kXLowerBound ++ " and " ++ toString kXUpperBound))
  else if y_coord < kYLowerBound ∨ y_coord > kYUpperBound then
    Except.error (Exception.invalid_argument
      ("Please make sure the spawn y coordinate is within the container boundaries of " ++
        toString kYLowerBound ++ " and " ++ toString kYUpperBound))
  else Except.ok ()

/-- The loop of the explicit-position `AddParticles`; the first argument is the
number of iterations left. -/
def emplaceLoop : ℕ → Particle → List Particle → List Particle
  | 0, _, particles_ => particles_
  | n + 1, p, particles_ => emplaceLoop n p (particles_ ++ [p])

/-- The loop of the random-spawn `AddParticles`; `positions i` and
`velocities i` are what the two generators return in iteration `i` (a pair of
`size_t` and a pair of `double`), and `glm::vec2(...)` converts both to `float`. -/
def emplaceRandomLoop (radius mass : Fp) (color : String) (positions : ℕ → ℕ × ℕ)
    (velocities : ℕ → Fp × Fp) : ℕ → ℕ → List Particle → List Particle
  | 0, _, particles_ => particles_
  | n + 1, i, particles_ =>
    emplaceRandomLoop radius mass color positions velocities n (i + 1)
      (particles_ ++
        [Particle.new
          ⟨Fp.ofNat binary32 (positions i).1, Fp.ofNat binary32 (positions i).2⟩
          ⟨Fp.cast binary32 (velocities i).1, Fp.cast binary32 (velocities i).2⟩
          radius mass color])

namespace ParticleSimulator

/-- The method `ParticleSimulator::Update`. -/
def Update (s : ParticleSimulator) : ParticleSimulator :=
  ⟨outerLoop s.particles_.length 0 s.particles_⟩

/-- The random-spawn overload `AddParticles(amount, radius, mass, color)`. -/
def AddParticlesRandom (s : ParticleSimulator) (amount : ℕ) (radius mass : Fp)
    (color : String) (positions : ℕ → ℕ × ℕ) (velocities : ℕ → Fp × Fp) :
    Except Exception Unit × ParticleSimulator :=
  if Fp.lt radius (Fp.ofRat binary64 (1 / 10)) then
    (Except.error (Exception.invalid_argument
      "Please make sure the radius of the particles is at least 1!"), s)
  else
    (Except.ok (),
      ⟨emplaceRandomLoop radius mass color positions velocities amount 0 s.particles_⟩)

/-- The explicit-position overload
`AddParticles(amount, radius, mass, color, x_coord, y_coord, initial_x_vel, initial_y_vel)`:
`glm::vec2(x_coord, y_coord)` converts the two `size_t` to `float` and
`glm::vec2(initial_x_vel, initial_y_vel)` narrows the two `double`s to `float`;
radius and mass are stored as the `double`s given. -/
def AddParticlesExplicit (s : ParticleSimulator) (amount : ℕ) (radius mass : Fp)
    (color : String) (x_coord y_coord : ℕ) (initial_x_vel initial_y_vel : Fp) :
    Except Exception Unit × ParticleSimulator :=
  match ValidateAddParticleArguments radius mass x_coord y_coord initial_x_vel
      initial_y_vel with
  | Except.error e => (Except.error e, s)
  | Except.ok _ =>
    (Except.ok (),
      ⟨emplaceLoop amount
        (Particle.new ⟨Fp.ofNat binary32 x_coord, Fp.ofNat binary32 y_coord⟩
          ⟨Fp.cast binary32 initial_x_vel, Fp.cast binary32 initial_y_vel⟩ radius mass color)
        s.particles_⟩)

/-- The method `ParticleSimulator::SpeedUp`. -/
def SpeedUp (s : ParticleSimulator) : ParticleSimulator :=
  ⟨s.particles_.map Particle.SpeedUp⟩

/-- The method `ParticleSimulator::SlowDown`. -/
def SlowDown (s : ParticleSimulator) : ParticleSimulator :=
  ⟨s.particles_.map Particle.SlowDown⟩

end ParticleSimulator

/-! ### Histogram -/

/-- The loop of `Histogram::FindAllParticlesInSpeedRange`: `p_speed` is the
`float` length of the velocity, widened to `double` and compared with the two
`double` bounds. -/
def countInSpeedRange (min_speed max_speed : Fp) : List Particle → ℕ → ℕ
  | [], count => count
  | particle :: rest, count =>
    countInSpeedRange min_speed max_speed rest
      (if Fp.le min_speed (length particle.velocity_) &&
          Fp.lt (length particle.velocity_) max_speed then
        count + 1
      else count)

/-- The method `Histogram::FindAllParticlesInSpeedRange`. -/
def FindAllParticlesInSpeedRange (particles : List Particle) (min_speed max_speed : Fp) : ℕ :=
  countInSpeedRange min_speed max_speed particles 0

/-- The loop of `Histogram::FillBins`.  The first argument is the number of bins
left, `kNumberOfPartitions - bin`, so that `bin < kNumberOfPartitions` holds
exactly while it is not zero; `min_speed` and `speed_range` are `double`s. -/
def fillBinsLoop (particles : List Particle) (speed_range : Fp) :
    ℕ → Fp → ℕ → List ℕ → List ℕ
  | 0, _, _, bins_ => bins_
  | n + 1, min_speed, bin, bins_ =>
    if Fp.lt min_speed (Fp.ofNat binary64 idealgas.Histogram.kMaxSpeed) then
      fillBinsLoop particles speed_range n (Fp.add binary64 min_speed speed_range) (bin + 1)
        (bins_.set bin
          (FindAllParticlesInSpeedRange particles min_speed
            (Fp.add binary64 min_speed speed_range)))
    else bins_

/-- The class `Histogram`, without the members that only hold drawing
coordinates. -/
structure Histogram where
  particles_ : List Particle
  bins_ : List ℕ
  mass_ : Fp

namespace Histogram

/-- The constructor `Histogram(mass)`: `kNumberOfPartitions` bins, all zero. -/
def new (mass : Fp) : Histogram :=
  { particles_ := [], bins_ := List.replicate idealgas.Histogram.kNumberOfPartitions 0,
    mass_ := mass }

/-- The method `Histogram::FillBins`; `speed_range` is the integer quotient
`kMaxSpeed / kNumberOfPartitions` converted to `double`, and `min_speed` starts
at the integer 0 converted to `double`. -/
def FillBins (h : Histogram) (particles : List Particle) : Histogram :=
  { h with
    bins_ :=
      fillBinsLoop particles
        (Fp.ofNat binary64
          (idealgas.Histogram.kMaxSpeed / idealgas.Histogram.kNumberOfPartitions))
        idealgas.Histogram.kNumberOfPartitions (Fp.ofNat binary64 0) 0 h.bins_ }

end Histogram

/-! ### Scenarios in the arithmetic of the program

Each simulator below is what a sequence of `AddParticles` calls on an empty
simulator leaves; a rejected call would leave the list as it was.  A decimal
such as `0.3` is the `double` the compiler reads it as, `Fp.ofRat binary64`. -/


/-- The simulator after `AddParticles(1, 10, 10, "red", 550, 550, -0.3, 0)` and
`AddParticles(1, 10, 10, "red", 540, 550, 0.3, 0)`: the head-on pair of the
equal-mass test with the speed `0.3`. -/
def slowHeadOn : ParticleSimulator :=
  (((ParticleSimulator.mk []).AddParticlesExplicit 1 (Fp.ofRat binary64 10)
      (Fp.ofRat binary64 10) "red" 550 550 (Fp.ofRat binary64 (-3 / 10))
      (Fp.ofRat binary64 0)).2.AddParticlesExplicit 1 (Fp.ofRat binary64 10)
    (Fp.ofRat binary64 10) "red" 540 550 (Fp.ofRat binary64 (3 / 10)) (Fp.ofRat binary64 0)).2

/-- The first particle of `slowHeadOn`; its x-velocity is the `float` nearest to
`-0.3`, `-0.300000011920928955078125`. -/
def slowRight : Particle :=
  ⟨⟨Fp.fin false 550, Fp.fin false 550⟩, ⟨Fp.fin true (5033165 / 16777216), Fp.fin false 0⟩,
    Fp.fin false 10, "red", Fp.fin false 10⟩

/-- The second particle of `slowHeadOn`. -/
def slowLeft : Particle :=
  ⟨⟨Fp.fin false 540, Fp.fin false 550⟩, ⟨Fp.fin false (5033165 / 16777216), Fp.fin false 0⟩,
    Fp.fin false 10, "red", Fp.fin false 10⟩

/-- The simulator after `AddParticles(1, 1.5811388492584229, 1, "red", 553, 551, -1, 0)`
and `AddParticles(1, 1.5811388492584229, 1, "red", 550, 550, 1, 0)`: the centres
are `sqrt 10 = 3.16227766...` apart and the radii add up to
`3.1622776985...`. -/
def grazingPair : ParticleSimulator :=
  (((ParticleSimulator.mk []).AddParticlesExplicit 1
      (Fp.ofRat binary64 (15811388492584229 / 10000000000000000)) (Fp.ofRat binary64 1) "red"
      553 551 (Fp.ofRat binary64 (-1)) (Fp.ofRat binary64 0)).2.AddParticlesExplicit 1
    (Fp.ofRat binary64 (15811388492584229 / 10000000000000000)) (Fp.ofRat binary64 1) "red"
    550 550 (Fp.ofRat binary64 1) (Fp.ofRat binary64 0)).2

/-- The first particle of `grazingPair`. -/
def grazingUpper : Particle :=
  ⟨⟨Fp.fin false 553, Fp.fin false 551⟩, ⟨Fp.fin true 1, Fp.fin false 0⟩, Fp.fin false 1, "red",
    Fp.fin false (6631777 / 4194304)⟩

/-- The second particle of `grazingPair`. -/
def grazingLower : Particle :=
  ⟨⟨Fp.fin false 550, Fp.fin false 550⟩, ⟨Fp.fin false 1, Fp.fin false 0⟩, Fp.fin false 1, "red",
    Fp.fin false (6631777 / 4194304)⟩

/-- The simulator after `AddParticles(1, 10.012492179870607, 1, "red", 570, 551, -1, 0)`
and `AddParticles(1, 10.012492179870607, 1, "red", 550, 550, 1, 0)`: the centres
are `sqrt 401 = 20.0249843945...` apart and the radii add up to
`20.0249843597...`. -/
def nearMissPair : ParticleSimulator :=
  (((ParticleSimulator.mk []).AddParticlesExplicit 1
      (Fp.ofRat binary64 (10012492179870607 / 1000000000000000)) (Fp.ofRat binary64 1) "red"
      570 551 (Fp.ofRat binary64 (-1)) (Fp.ofRat binary64 0)).2.AddParticlesExplicit 1
    (Fp.ofRat binary64 (10012492179870607 / 1000000000000000)) (Fp.ofRat binary64 1) "red"
    550 550 (Fp.ofRat binary64 1) (Fp.ofRat binary64 0)).2

/-- The first particle of `nearMissPair`. -/
def nearMissUpper : Particle :=
  ⟨⟨Fp.fin false 570, Fp.fin false 551⟩, ⟨Fp.fin true 1, Fp.fin false 0⟩, Fp.fin false 1, "red",
    Fp.fin false (5636532006289409 / 562949953421312)⟩

/-- The second particle of `nearMissPair`. -/
def nearMissLower : Particle :=
  ⟨⟨Fp.fin false 550, Fp.fin false 550⟩, ⟨Fp.fin false 1, Fp.fin false 0⟩, Fp.fin false 1, "red",
    Fp.fin false (5636532006289409 / 562949953421312)⟩

/-- The simulator after
`AddParticles(1, 10, 1, "red", 710, 524, -1.5845813751220703, -2.022005558013916)` and
`AddParticles(1, 10, 1000, "red", 716, 513, -1.5840263366699219, -2.021702766418457)`:
a light particle closing in very slowly on a heavy one (the four velocity
components are `float`s). -/
def stickingPair : ParticleSimulator :=
  (((ParticleSimulator.mk []).AddParticlesExplicit 1 (Fp.ofRat binary64 10)
      (Fp.ofRat binary64 1) "red" 710 524
      (Fp.ofRat binary64 (-15845813751220703 / 10000000000000000))
      (Fp.ofRat binary64 (-2022005558013916 / 1000000000000000))).2.AddParticlesExplicit 1
    (Fp.ofRat binary64 10) (Fp.ofRat binary64 1000) "red" 716 513
    (Fp.ofRat binary64 (-15840263366699219 / 10000000000000000))
    (Fp.ofRat binary64 (-2021702766418457 / 1000000000000000))).2

/-- The first particle of `stickingPair`. -/
def stickingLight : Particle :=
  ⟨⟨Fp.fin false 710, Fp.fin false 524⟩,
    ⟨Fp.fin true (830777 / 524288), Fp.fin true (4240453 / 2097152)⟩, Fp.fin false 1, "red",
    Fp.fin false 10⟩

/-- The second particle of `stickingPair`. -/
def stickingHeavy : Particle :=
  ⟨⟨Fp.fin false 716, Fp.fin false 513⟩,
    ⟨Fp.fin true (415243 / 262144), Fp.fin true (2119909 / 1048576)⟩, Fp.fin false 1000, "red",
    Fp.fin false 10⟩

/-- The particle that `AddParticles(1, 10, 10, "red", 500, 500, 0.1, 0.1)`
creates: both velocity components are the `float` nearest to `0.1`,
`0.100000001490116119384765625`. -/
def drifting : Particle :=
  ⟨⟨Fp.fin false 500, Fp.fin false 500⟩,
    ⟨Fp.fin false (13421773 / 134217728), Fp.fin false (13421773 / 134217728)⟩, Fp.fin false 10,
    "red", Fp.fin false 10⟩

/-- The particle that `AddParticles(1, 10, 10, "red", 900, 300, 0.1, 0.1)`
creates. -/
def driftingFar : Particle :=
  ⟨⟨Fp.fin false 900, Fp.fin false 300⟩,
    ⟨Fp.fin false (13421773 / 134217728), Fp.fin false (13421773 / 134217728)⟩, Fp.fin false 10,
    "red", Fp.fin false 10⟩

/-- The simulator after `AddParticles(1, 10, 10, "red", 500, 500, 0.1, 0.1)` and
`AddParticles(1, 10, 10, "red", 900, 300, 0.1, 0.1)`. -/
def driftingPair : ParticleSimulator :=
  (((ParticleSimulator.mk []).AddParticlesExplicit 1 (Fp.ofRat binary64 10)
      (Fp.ofRat binary64 10) "red" 500 500 (Fp.ofRat binary64 (1 / 10))
      (Fp.ofRat binary64 (1 / 10))).2.AddParticlesExplicit 1 (Fp.ofRat binary64 10)
    (Fp.ofRat binary64 10) "red" 900 300 (Fp.ofRat binary64 (1 / 10))
    (Fp.ofRat binary64 (1 / 10))).2

/-- The particle that `AddParticles(1, 9.9, 10, "red", 1340, 710, 0.1, 0.1)`
creates; the radius is the `double` nearest to `9.9`. -/
def cornerGrazer : Particle :=
  ⟨⟨Fp.fin false 1340, Fp.fin false 710⟩,
    ⟨Fp.fin false (13421773 / 134217728), Fp.fin false (13421773 / 134217728)⟩, Fp.fin false 10,
    "red", Fp.fin false (5573204538870989 / 562949953421312)⟩

/-- The `double` `2.4000000000000004`, the next one above `2.4`; it is the
product `3 * .8` as the program computes it. -/
def justAbove : Fp := Fp.fin false (1351079888211149 / 562949953421312)

/-- The simulator after `AddParticles(1, 10, 10, "red", 550, 550, 8, 0)`: a
velocity of `0.8 * radius`. -/
def fastSpawn : ParticleSimulator :=
  ((ParticleSimulator.mk []).AddParticlesExplicit 1 (Fp.ofRat binary64 10)
    (Fp.ofRat binary64 10) "red" 550 550 (Fp.ofRat binary64 8) (Fp.ofRat binary64 0)).2

/-- The simulator after `AddParticles(1, 10, 1, "red", 550, 550, -5, 0)` and
`AddParticles(1, 10, 3, "red", 540, 550, 5, 0)`: a light and a heavy particle
head-on, each velocity at half the radius. -/
def unequalHeadOn : ParticleSimulator :=
  (((ParticleSimulator.mk []).AddParticlesExplicit 1 (Fp.ofRat binary64 10)
      (Fp.ofRat binary64 1) "red" 550 550 (Fp.ofRat binary64 (-5))
      (Fp.ofRat binary64 0)).2.AddParticlesExplicit 1 (Fp.ofRat binary64 10)
    (Fp.ofRat binary64 3) "red" 540 550 (Fp.ofRat binary64 5) (Fp.ofRat binary64 0)).2

/-- The simulator after `AddParticles(1, 0.5, 10, "red", 500, 500, 0.125, 0)`. -/
def smallCrawler : ParticleSimulator :=
  ((ParticleSimulator.mk []).AddParticlesExplicit 1 (Fp.ofRat binary64 (1 / 2))
    (Fp.ofRat binary64 10) "red" 500 500 (Fp.ofRat binary64 (1 / 8)) (Fp.ofRat binary64 0)).2

/-- The simulator after `AddParticles(1, 10, 10, "red", 500, 500, 4.75, 0)`. -/
def nearLimit : ParticleSimulator :=
  ((ParticleSimulator.mk []).AddParticlesExplicit 1 (Fp.ofRat binary64 10)
    (Fp.ofRat binary64 10) "red" 500 500 (Fp.ofRat binary64 (19 / 4)) (Fp.ofRat binary64 0)).2

/-- The simulator after `AddParticles(1, 0.3, 10, "red", 500, 500, 0.15, 0)`: the
argument `0.15` is exactly half of the argument `0.3` (as `double`s). -/
def halfRadiusSpawn : ParticleSimulator :=
  ((ParticleSimulator.mk []).AddParticlesExplicit 1 (Fp.ofRat binary64 (3 / 10))
    (Fp.ofRat binary64 10) "red" 500 500 (Fp.ofRat binary64 (15 / 100))
    (Fp.ofRat binary64 0)).2

/-- The simulator after `AddParticles(1, 10, 10, "red", 450, 80, 1, 1)`: a
particle of radius 10 centred on the corner of the container. -/
def cornerSpawned : ParticleSimulator :=
  ((ParticleSimulator.mk []).AddParticlesExplicit 1 (Fp.ofRat binary64 10)
    (Fp.ofRat binary64 10) "red" 450 80 (Fp.ofRat binary64 1) (Fp.ofRat binary64 1)).2

/-- The simulator after `AddParticles(1, 10, 10, "red", 461, 500, -3, 0)` and
`AddParticles(1, 10, 10, "red", 470, 500, 0.5, 0)`: both spawns lie between the
walls inset by the radius. -/
def bouncerAndFollower : ParticleSimulator :=
  (((ParticleSimulator.mk []).AddParticlesExplicit 1 (Fp.ofRat binary64 10)
      (Fp.ofRat binary64 10) "red" 461 500 (Fp.ofRat binary64 (-3))
      (Fp.ofRat binary64 0)).2.AddParticlesExplicit 1 (Fp.ofRat binary64 10)
    (Fp.ofRat binary64 10) "red" 470 500 (Fp.ofRat binary64 (1 / 2)) (Fp.ofRat binary64 0)).2

/-- The simulator after `AddParticles(1, 10, 10, "red", 460, 500, -0.1, 0)`: a
particle of radius 10 touching the left wall from inside. -/
def wallToucher : ParticleSimulator :=
  ((ParticleSimulator.mk []).AddParticlesExplicit 1 (Fp.ofRat binary64 10)
    (Fp.ofRat binary64 10) "red" 460 500 (Fp.ofRat binary64 (-1 / 10)) (Fp.ofRat binary64 0)).2

/-- The simulator after
`AddParticles(1, 10, 10, "red", 500, 500, 3, 3.9999997615814209)`: the second
velocity component is the `float` just below 4. -/
def almostFive : ParticleSimulator :=
  ((ParticleSimulator.mk []).AddParticlesExplicit 1 (Fp.ofRat binary64 10)
    (Fp.ofRat binary64 10) "red" 500 500 (Fp.ofRat binary64 3)
    (Fp.ofRat binary64 (39999997615814209 / 10000000000000000))).2

/-- The simulator after the random-spawn `AddParticles(2, 10, 0, "red")`, the
generators returning the positions `(550, 550)`, `(540, 550)` and the
velocities `(0.5, 0.5)`, `(3, 0.5)`: two particles of mass 0 on one horizontal
line. -/
def weightlessPair : ParticleSimulator :=
  ((ParticleSimulator.mk []).AddParticlesRandom 2 (Fp.ofRat binary64 10) (Fp.ofRat binary64 0)
    "red" (fun i => if i = 0 then (550, 550) else (540, 550))
    (fun i =>
      if i = 0 then (Fp.ofRat binary64 (1 / 2), Fp.ofRat binary64 (1 / 2))
      else (Fp.ofRat binary64 3, Fp.ofRat binary64 (1 / 2)))).2

/-- The first particle of `weightlessPair`. -/
def weightlessRight : Particle :=
  ⟨⟨Fp.fin false 550, Fp.fin false 550⟩, ⟨Fp.fin false (1 / 2), Fp.fin false (1 / 2)⟩,
    Fp.fin false 0, "red", Fp.fin false 10⟩

/-- The second particle of `weightlessPair`. -/
def weightlessLeft : Particle :=
  ⟨⟨Fp.fin false 540, Fp.fin false 550⟩, ⟨Fp.fin false 3, Fp.fin false (1 / 2)⟩,
    Fp.fin false 0, "red", Fp.fin false 10⟩

/-- The simulator of the repository test "Particles moving toward each other with
same mass should collide": `AddParticles(1, 10, 10, "red", 550, 550, -2, 0)` and
`AddParticles(1, 10, 10, "red", 540, 550, 2, 0)`. -/
def testHeadOn : ParticleSimulator :=
  (((ParticleSimulator.mk []).AddParticlesExplicit 1 (Fp.ofRat binary64 10)
      (Fp.ofRat binary64 10) "red" 550 550 (Fp.ofRat binary64 (-2))
      (Fp.ofRat binary64 0)).2.AddParticlesExplicit 1 (Fp.ofRat binary64 10)
    (Fp.ofRat binary64 10) "red" 540 550 (Fp.ofRat binary64 2) (Fp.ofRat binary64 0)).2

/-- The simulator of the repository test "Particles with no vertical velocity
component": `AddParticles(1, 10, 10, "red", 550, 545, -3, 0)` and
`AddParticles(1, 20, 20, "red", 540, 545, 3, 0)`. -/
def testUnequalMass : ParticleSimulator :=
  (((ParticleSimulator.mk []).AddParticlesExplicit 1 (Fp.ofRat binary64 10)
      (Fp.ofRat binary64 10) "red" 550 545 (Fp.ofRat binary64 (-3))
      (Fp.ofRat binary64 0)).2.AddParticlesExplicit 1 (Fp.ofRat binary64 20)
    (Fp.ofRat binary64 20) "red" 540 545 (Fp.ofRat binary64 3) (Fp.ofRat binary64 0)).2

end ieee

/-! ## The square root of the source and its rational stand-ins -/

theorem lengthSq_nonneg (a : Vec2) : 0 ≤ lengthSq a := by
  unfold lengthSq dot
  nlinarith [mul_self_nonneg a.x, mul_self_nonneg a.y]

theorem lengthSq_eq_sq_length (a : Vec2) :
    ((lengthSq a : ℚ) : ℝ) = (Real.sqrt (((lengthSq a : ℚ) : ℝ))) ^ 2 := by
  have h : (0 : ℝ) ≤ ((lengthSq a : ℚ) : ℝ) := by exact_mod_cast lengthSq_nonneg a
  rw [Real.sq_sqrt h]

theorem distanceLt_iff_sqrt_lt (a b : Vec2) (r : ℚ) :
    distanceLt a b r = true ↔
      Real.sqrt (((lengthSq (Vec2.sub a b) : ℚ) : ℝ)) < ((r : ℚ) : ℝ) := by
  unfold distanceLt
  rw [decide_eq_true_iff]
  constructor
  · rintro ⟨hr, hlt⟩
    have hr' : (0 : ℝ) < (r : ℝ) := by exact_mod_cast hr
    rw [Real.sqrt_lt' hr']
    have : ((lengthSq (Vec2.sub a b) : ℚ) : ℝ) < ((r * r : ℚ) : ℝ) := by exact_mod_cast hlt
    simpa [pow_two] using this
  · intro h
    have hr' : (0 : ℝ) < (r : ℝ) := lt_of_le_of_lt (Real.sqrt_nonneg _) h
    have hr : 0 < r := by exact_mod_cast hr'
    refine ⟨hr, ?_⟩
    rw [Real.sqrt_lt' hr'] at h
    have h2 : ((lengthSq (Vec2.sub a b) : ℚ) : ℝ) < ((r * r : ℚ) : ℝ) := by
      simpa [pow_two] using h
    exact_mod_cast h2


/-! ## Detection -/

/-- C1, amended: in exact arithmetic, `CanCollide p1 p2` is true exactly when the
Euclidean distance of the centres is strictly below `radius1 + radius2` and
`dot (v1 - v2, x1 - x2) < 0`; in every other case it is false. -/
theorem CanCollide_iff (p1 p2 : Particle) :
    (CanCollide p1 p2 = true ↔
      (Real.sqrt ((((p1.position_.x - p2.position_.x : ℚ) : ℝ)) ^ 2 +
          (((p1.position_.y - p2.position_.y : ℚ) : ℝ)) ^ 2)
          < (((p1.radius_ + p2.radius_ : ℚ)) : ℝ) ∧
        (p1.velocity_.x - p2.velocity_.x) * (p1.position_.x - p2.position_.x) +
          (p1.velocity_.y - p2.velocity_.y) * (p1.position_.y - p2.position_.y) < 0)) ∧
    (¬ (Real.sqrt ((((p1.position_.x - p2.position_.x : ℚ) : ℝ)) ^ 2 +
          (((p1.position_.y - p2.position_.y : ℚ) : ℝ)) ^ 2)
          < (((p1.radius_ + p2.radius_ : ℚ)) : ℝ) ∧
        (p1.velocity_.x - p2.velocity_.x) * (p1.position_.x - p2.position_.x) +
          (p1.velocity_.y - p2.velocity_.y) * (p1.position_.y - p2.position_.y) < 0) →
      CanCollide p1 p2 = false) := by
  have key : CanCollide p1 p2 = true ↔
      (Real.sqrt ((((p1.position_.x - p2.position_.x : ℚ) : ℝ)) ^ 2 +
          (((p1.position_.y - p2.position_.y : ℚ) : ℝ)) ^ 2)
          < (((p1.radius_ + p2.radius_ : ℚ)) : ℝ) ∧
        (p1.velocity_.x - p2.velocity_.x) * (p1.position_.x - p2.position_.x) +
          (p1.velocity_.y - p2.velocity_.y) * (p1.position_.y - p2.position_.y) < 0) := by
    have hs : (((lengthSq (Vec2.sub p1.position_ p2.position_) : ℚ)) : ℝ) =
        (((p1.position_.x - p2.position_.x : ℚ) : ℝ)) ^ 2 +
          (((p1.position_.y - p2.position_.y : ℚ) : ℝ)) ^ 2 := by
      simp only [lengthSq, dot, Vec2.sub]
      push_cast
      ring
    rw [← hs, ← distanceLt_iff_sqrt_lt]
    unfold CanCollide
    by_cases hd : distanceLt p1.position_ p2.position_ (p1.radius_ + p2.radius_) = true
    · simp [hd, dot, Vec2.sub]
    · simp [hd]
  refine ⟨key, fun h => ?_⟩
  cases hc : CanCollide p1 p2
  · rfl
  · exact absurd (key.mp hc) h

/-! ## Resolution -/

theorem lengthSq_sub_ne_zero {a b : Vec2} (h : a ≠ b) :
    (a.x - b.x) ^ 2 + (a.y - b.y) ^ 2 ≠ 0 := by
  intro h0
  apply h
  have hx : 0 ≤ (a.x - b.x) ^ 2 := sq_nonneg _
  have hy : 0 ≤ (a.y - b.y) ^ 2 := sq_nonneg _
  have hx0 : (a.x - b.x) ^ 2 = 0 := by linarith
  have hy0 : (a.y - b.y) ^ 2 = 0 := by linarith
  have ex : a.x = b.x := by
    have := pow_eq_zero_iff (two_ne_zero) |>.mp hx0
    linarith
  have ey : a.y = b.y := by
    have := pow_eq_zero_iff (two_ne_zero) |>.mp hy0
    linarith
  cases a
  cases b
  simp_all

theorem Collide_fst_fields (p1 p2 : Particle) :
    (Collide p1 p2).1.position_ = p1.position_ ∧ (Collide p1 p2).1.mass_ = p1.mass_ ∧
      (Collide p1 p2).1.radius_ = p1.radius_ ∧ (Collide p1 p2).1.color_ = p1.color_ := by
  simp [Collide, Particle.SetVelocity]

theorem Collide_snd_fields (p1 p2 : Particle) :
    (Collide p1 p2).2.position_ = p2.position_ ∧ (Collide p1 p2).2.mass_ = p2.mass_ ∧
      (Collide p1 p2).2.radius_ = p2.radius_ ∧ (Collide p1 p2).2.color_ = p2.color_ := by
  simp [Collide, Particle.SetVelocity]

theorem collide_energy_core (m1 m2 vx1 vy1 vx2 vy2 dx dy : ℚ)
    (hd : dx ^ 2 + dy ^ 2 ≠ 0) (hm : m1 + m2 ≠ 0) :
    m1 * ((vx1 - 2 * m2 / (m1 + m2) *
              (((vx1 - vx2) * dx + (vy1 - vy2) * dy) / (dx * dx + dy * dy) * dx)) ^ 2 +
          (vy1 - 2 * m2 / (m1 + m2) *
              (((vx1 - vx2) * dx + (vy1 - vy2) * dy) / (dx * dx + dy * dy) * dy)) ^ 2) +
      m2 * ((vx2 - 2 * m1 / (m1 + m2) *
              (((vx2 - vx1) * (-dx) + (vy2 - vy1) * (-dy)) / ((-dx) * (-dx) + (-dy) * (-dy)) *
                (-dx))) ^ 2 +
          (vy2 - 2 * m1 / (m1 + m2) *
              (((vx2 - vx1) * (-dx) + (vy2 - vy1) * (-dy)) / ((-dx) * (-dx) + (-dy) * (-dy)) *
                (-dy))) ^ 2) =
      m1 * (vx1 ^ 2 + vy1 ^ 2) + m2 * (vx2 ^ 2 + vy2 ^ 2) := by
  have hd1 : dx * dx + dy * dy ≠ 0 := by
    intro h
    apply hd
    nlinarith
  have hd2 : (-dx) * (-dx) + (-dy) * (-dy) ≠ 0 := by
    intro h
    apply hd
    nlinarith
  field_simp
  ring

theorem collide_momentum_core (m1 m2 v1 v2 d1 d2 q1 q2 e1 e2 : ℚ)
    (hd : d2 = d1) (hq : q2 = q1) (he : e2 = -e1) :
    m1 * (v1 - 2 * m2 / (m1 + m2) * (d1 / q1 * e1)) +
      m2 * (v2 - 2 * m1 / (m1 + m2) * (d2 / q2 * e2)) =
      m1 * v1 + m2 * v2 := by
  subst hd hq he
  ring

/-- C3: for distinct centres and `m1 + m2 ≠ 0`, `Collide` keeps
`m1 * |v1|^2 + m2 * |v2|^2` unchanged. -/
theorem Collide_conserves_kinetic_energy (p1 p2 : Particle)
    (hx : p1.position_ ≠ p2.position_) (hm : p1.mass_ + p2.mass_ ≠ 0) :
    p1.mass_ * ((Collide p1 p2).1.velocity_.x ^ 2 + (Collide p1 p2).1.velocity_.y ^ 2) +
        p2.mass_ * ((Collide p1 p2).2.velocity_.x ^ 2 + (Collide p1 p2).2.velocity_.y ^ 2) =
      p1.mass_ * (p1.velocity_.x ^ 2 + p1.velocity_.y ^ 2) +
        p2.mass_ * (p2.velocity_.x ^ 2 + p2.velocity_.y ^ 2) := by
  have hd := lengthSq_sub_ne_zero hx
  obtain ⟨⟨x1, y1⟩, ⟨vx1, vy1⟩, m1, c1, r1⟩ := p1
  obtain ⟨⟨x2, y2⟩, ⟨vx2, vy2⟩, m2, c2, r2⟩ := p2
  simp only [Collide, Particle.SetVelocity, Vec2.sub, Vec2.smul, dot, lengthSq] at hd hm ⊢
  have ex : x2 - x1 = -(x1 - x2) := by ring
  have ey : y2 - y1 = -(y1 - y2) := by ring
  rw [ex, ey]
  exact collide_energy_core m1 m2 vx1 vy1 vx2 vy2 (x1 - x2) (y1 - y2) hd hm

/-- C4: for distinct centres and `m1 + m2 ≠ 0`, `Collide` keeps the momentum
vector `m1 * v1 + m2 * v2` unchanged; for equal masses the sum of the two
velocities is unchanged. -/
theorem Collide_conserves_momentum (p1 p2 : Particle)
    (hx : p1.position_ ≠ p2.position_) (hm : p1.mass_ + p2.mass_ ≠ 0) :
    (p1.mass_ * (Collide p1 p2).1.velocity_.x + p2.mass_ * (Collide p1 p2).2.velocity_.x =
        p1.mass_ * p1.velocity_.x + p2.mass_ * p2.velocity_.x ∧
      p1.mass_ * (Collide p1 p2).1.velocity_.y + p2.mass_ * (Collide p1 p2).2.velocity_.y =
        p1.mass_ * p1.velocity_.y + p2.mass_ * p2.velocity_.y) ∧
    (p1.mass_ = p2.mass_ →
      (Collide p1 p2).1.velocity_.x + (Collide p1 p2).2.velocity_.x =
          p1.velocity_.x + p2.velocity_.x ∧
        (Collide p1 p2).1.velocity_.y + (Collide p1 p2).2.velocity_.y =
          p1.velocity_.y + p2.velocity_.y) := by
  have hd := lengthSq_sub_ne_zero hx
  obtain ⟨⟨x1, y1⟩, ⟨vx1, vy1⟩, m1, c1, r1⟩ := p1
  obtain ⟨⟨x2, y2⟩, ⟨vx2, vy2⟩, m2, c2, r2⟩ := p2
  simp only [Collide, Particle.SetVelocity, Vec2.sub, Vec2.smul, dot, lengthSq] at hd hm ⊢
  have hx' := collide_momentum_core m1 m2 vx1 vx2
    ((vx1 - vx2) * (x1 - x2) + (vy1 - vy2) * (y1 - y2))
    ((vx2 - vx1) * (x2 - x1) + (vy2 - vy1) * (y2 - y1))
    ((x1 - x2) * (x1 - x2) + (y1 - y2) * (y1 - y2))
    ((x2 - x1) * (x2 - x1) + (y2 - y1) * (y2 - y1))
    (x1 - x2) (x2 - x1) (by ring) (by ring) (by ring)
  have hy' := collide_momentum_core m1 m2 vy1 vy2
    ((vx1 - vx2) * (x1 - x2) + (vy1 - vy2) * (y1 - y2))
    ((vx2 - vx1) * (x2 - x1) + (vy2 - vy1) * (y2 - y1))
    ((x1 - x2) * (x1 - x2) + (y1 - y2) * (y1 - y2))
    ((x2 - x1) * (x2 - x1) + (y2 - y1) * (y2 - y1))
    (y1 - y2) (y2 - y1) (by ring) (by ring) (by ring)
  refine ⟨⟨hx', hy'⟩, ?_⟩
  intro he
  subst he
  have hm2 : m1 ≠ 0 := by
    intro h0
    apply hm
    rw [h0]
    norm_num
  constructor
  · apply mul_left_cancel₀ hm2
    rw [mul_add, mul_add]
    exact hx'
  · apply mul_left_cancel₀ hm2
    rw [mul_add, mul_add]
    exact hy'

theorem lightParticle_ne_heavyParticle : lightParticle.position_ ≠ heavyParticle.position_ := by
  simp [lightParticle, heavyParticle]

theorem light_heavy_mass_ne_zero : lightParticle.mass_ + heavyParticle.mass_ ≠ 0 := by
  norm_num [lightParticle, heavyParticle]

/-- Witness of C3 on the pair of the different-mass test. -/
theorem Collide_conserves_kinetic_energy_witness :
    lightParticle.position_ ≠ heavyParticle.position_ ∧
      lightParticle.mass_ + heavyParticle.mass_ ≠ 0 ∧
      lightParticle.mass_ * ((Collide lightParticle heavyParticle).1.velocity_.x ^ 2 +
            (Collide lightParticle heavyParticle).1.velocity_.y ^ 2) +
          heavyParticle.mass_ * ((Collide lightParticle heavyParticle).2.velocity_.x ^ 2 +
            (Collide lightParticle heavyParticle).2.velocity_.y ^ 2) =
        lightParticle.mass_ * (lightParticle.velocity_.x ^ 2 + lightParticle.velocity_.y ^ 2) +
          heavyParticle.mass_ * (heavyParticle.velocity_.x ^ 2 + heavyParticle.velocity_.y ^ 2) :=
  ⟨lightParticle_ne_heavyParticle, light_heavy_mass_ne_zero,
    Collide_conserves_kinetic_energy lightParticle heavyParticle
      lightParticle_ne_heavyParticle light_heavy_mass_ne_zero⟩

/-- Witness of C4 on the pair of the different-mass test: the momentum along x
is `10 * (-3) + 20 * 3 = 30` before and after. -/
theorem Collide_conserves_momentum_witness :
    lightParticle.position_ ≠ heavyParticle.position_ ∧
      lightParticle.mass_ + heavyParticle.mass_ ≠ 0 ∧
      lightParticle.mass_ * (Collide lightParticle heavyParticle).1.velocity_.x +
          heavyParticle.mass_ * (Collide lightParticle heavyParticle).2.velocity_.x = 30 := by
  have h := (Collide_conserves_momentum lightParticle heavyParticle
    lightParticle_ne_heavyParticle light_heavy_mass_ne_zero).1.1
  refine ⟨lightParticle_ne_heavyParticle, light_heavy_mass_ne_zero, ?_⟩
  rw [h]
  norm_num [lightParticle, heavyParticle]

/-! ## No sticking -/

theorem collide_relative_core (m1 m2 vx1 vy1 vx2 vy2 dx dy : ℚ)
    (hd : dx ^ 2 + dy ^ 2 ≠ 0) (hm : m1 + m2 ≠ 0) :
    ((vx1 - 2 * m2 / (m1 + m2) *
            (((vx1 - vx2) * dx + (vy1 - vy2) * dy) / (dx * dx + dy * dy) * dx)) -
          (vx2 - 2 * m1 / (m1 + m2) *
            (((vx2 - vx1) * (-dx) + (vy2 - vy1) * (-dy)) / ((-dx) * (-dx) + (-dy) * (-dy)) *
              (-dx)))) * dx +
        ((vy1 - 2 * m2 / (m1 + m2) *
            (((vx1 - vx2) * dx + (vy1 - vy2) * dy) / (dx * dx + dy * dy) * dy)) -
          (vy2 - 2 * m1 / (m1 + m2) *
            (((vx2 - vx1) * (-dx) + (vy2 - vy1) * (-dy)) / ((-dx) * (-dx) + (-dy) * (-dy)) *
              (-dy)))) * dy =
      -((vx1 - vx2) * dx + (vy1 - vy2) * dy) := by
  have hd1 : dx * dx + dy * dy ≠ 0 := by
    intro h
    apply hd
    nlinarith
  have hd2 : (-dx) * (-dx) + (-dy) * (-dy) ≠ 0 := by
    intro h
    apply hd
    nlinarith
  field_simp
  ring

theorem CanCollide_approaching {p1 p2 : Particle} (hc : CanCollide p1 p2 = true) :
    dot (Vec2.sub p1.velocity_ p2.velocity_) (Vec2.sub p1.position_ p2.position_) < 0 := by
  unfold CanCollide at hc
  by_contra hn
  simp [hn] at hc

theorem CanCollide_distinct_centres {p1 p2 : Particle} (hc : CanCollide p1 p2 = true) :
    p1.position_ ≠ p2.position_ := by
  intro he
  have h := CanCollide_approaching hc
  rw [he] at h
  simp [dot, Vec2.sub] at h

theorem Collide_relative_velocity (p1 p2 : Particle)
    (hx : p1.position_ ≠ p2.position_) (hm : p1.mass_ + p2.mass_ ≠ 0) :
    dot (Vec2.sub (Collide p1 p2).1.velocity_ (Collide p1 p2).2.velocity_)
        (Vec2.sub p1.position_ p2.position_) =
      -dot (Vec2.sub p1.velocity_ p2.velocity_) (Vec2.sub p1.position_ p2.position_) := by
  have hd := lengthSq_sub_ne_zero hx
  obtain ⟨⟨x1, y1⟩, ⟨vx1, vy1⟩, m1, c1, r1⟩ := p1
  obtain ⟨⟨x2, y2⟩, ⟨vx2, vy2⟩, m2, c2, r2⟩ := p2
  simp only [Collide, Particle.SetVelocity, Vec2.sub, Vec2.smul, dot, lengthSq] at hd hm ⊢
  have ex : x2 - x1 = -(x1 - x2) := by ring
  have ey : y2 - y1 = -(y1 - y2) := by ring
  rw [ex, ey]
  exact collide_relative_core m1 m2 vx1 vy1 vx2 vy2 (x1 - x2) (y1 - y2) hd hm

/-- C5 (no sticking), amended: in exact arithmetic, when `CanCollide p1 p2` holds
and `m1 + m2 ≠ 0`, the pair returned by `Collide` (same positions, new
velocities) fails `CanCollide`:
`dot (v1' - v2', x1 - x2) = -dot (v1 - v2, x1 - x2) > 0`. -/
theorem Collide_no_sticking (p1 p2 : Particle)
    (hm : p1.mass_ + p2.mass_ ≠ 0) (hc : CanCollide p1 p2 = true) :
    CanCollide (Collide p1 p2).1 (Collide p1 p2).2 = false ∧
      dot (Vec2.sub (Collide p1 p2).1.velocity_ (Collide p1 p2).2.velocity_)
          (Vec2.sub p1.position_ p2.position_) =
        -dot (Vec2.sub p1.velocity_ p2.velocity_) (Vec2.sub p1.position_ p2.position_) ∧
      0 < dot (Vec2.sub (Collide p1 p2).1.velocity_ (Collide p1 p2).2.velocity_)
          (Vec2.sub p1.position_ p2.position_) := by
  have happ := CanCollide_approaching hc
  have hrel := Collide_relative_velocity p1 p2 (CanCollide_distinct_centres hc) hm
  have hpos : 0 < dot (Vec2.sub (Collide p1 p2).1.velocity_ (Collide p1 p2).2.velocity_)
      (Vec2.sub p1.position_ p2.position_) := by
    rw [hrel]
    linarith
  refine ⟨?_, hrel, hpos⟩
  unfold CanCollide
  rw [(Collide_fst_fields p1 p2).1, (Collide_snd_fields p1 p2).1]
  have hnot : ¬ dot (Vec2.sub (Collide p1 p2).1.velocity_ (Collide p1 p2).2.velocity_)
      (Vec2.sub p1.position_ p2.position_) < 0 := not_lt.mpr (le_of_lt hpos)
  simp [hnot]

theorem light_heavy_CanCollide : CanCollide lightParticle heavyParticle = true := by
  simp [CanCollide, distanceLt, lengthSq, dot, Vec2.sub, lightParticle, heavyParticle]
  norm_num

/-- Witness of the amended C5 on the pair of the different-mass test. -/
theorem Collide_no_sticking_witness :
    lightParticle.mass_ + heavyParticle.mass_ ≠ 0 ∧
      CanCollide lightParticle heavyParticle = true ∧
      CanCollide (Collide lightParticle heavyParticle).1
        (Collide lightParticle heavyParticle).2 = false :=
  ⟨light_heavy_mass_ne_zero, light_heavy_CanCollide,
    (Collide_no_sticking lightParticle heavyParticle
      light_heavy_mass_ne_zero light_heavy_CanCollide).1⟩

/-! ## Kinetic energy over one tick -/

theorem Collide_kineticEnergy (p1 p2 : Particle)
    (hx : p1.position_ ≠ p2.position_) (hm : p1.mass_ + p2.mass_ ≠ 0) :
    kineticEnergy (Collide p1 p2).1 + kineticEnergy (Collide p1 p2).2 =
      kineticEnergy p1 + kineticEnergy p2 := by
  have hd := lengthSq_sub_ne_zero hx
  obtain ⟨⟨x1, y1⟩, ⟨vx1, vy1⟩, m1, c1, r1⟩ := p1
  obtain ⟨⟨x2, y2⟩, ⟨vx2, vy2⟩, m2, c2, r2⟩ := p2
  simp only [kineticEnergy, Collide, Particle.SetVelocity, Vec2.sub, Vec2.smul, dot,
    lengthSq] at hd hm ⊢
  have ex : x2 - x1 = -(x1 - x2) := by ring
  have ey : y2 - y1 = -(y1 - y2) := by ring
  rw [ex, ey]
  exact collide_energy_core m1 m2 vx1 vy1 vx2 vy2 (x1 - x2) (y1 - y2) hd hm

theorem Update_mass (p : Particle) : p.Update.mass_ = p.mass_ := by
  simp [Particle.Update]

theorem checkXLower_sq (pos : Vec2) (r : ℚ) (v : Vec2) :
    (checkXLower pos r v).x ^ 2 = v.x ^ 2 ∧ (checkXLower pos r v).y = v.y := by
  unfold checkXLower
  split_ifs <;> simp

theorem checkYLower_sq (pos : Vec2) (r : ℚ) (v : Vec2) :
    (checkYLower pos r v).x = v.x ∧ (checkYLower pos r v).y ^ 2 = v.y ^ 2 := by
  unfold checkYLower
  split_ifs <;> simp

theorem checkXUpper_sq (pos : Vec2) (r : ℚ) (v : Vec2) :
    (checkXUpper pos r v).x ^ 2 = v.x ^ 2 ∧ (checkXUpper pos r v).y = v.y := by
  unfold checkXUpper
  split_ifs <;> simp

theorem checkYUpper_sq (pos : Vec2) (r : ℚ) (v : Vec2) :
    (checkYUpper pos r v).x = v.x ∧ (checkYUpper pos r v).y ^ 2 = v.y ^ 2 := by
  unfold checkYUpper
  split_ifs <;> simp

theorem Update_kineticEnergy (p : Particle) : kineticEnergy p.Update = kineticEnergy p := by
  simp only [kineticEnergy, Particle.Update]
  rw [(checkYUpper_sq _ _ _).1, (checkYUpper_sq _ _ _).2, (checkXUpper_sq _ _ _).1,
    (checkXUpper_sq _ _ _).2, (checkYLower_sq _ _ _).1, (checkYLower_sq _ _ _).2,
    (checkXLower_sq _ _ _).1, (checkXLower_sq _ _ _).2]

theorem sum_map_set (f : Particle → ℚ) :
    ∀ (l : List Particle) (i : ℕ) (a b : Particle), l[i]? = some a →
      ((l.set i b).map f).sum = (l.map f).sum - f a + f b := by
  intro l
  induction l with
  | nil => intro i a b h; simp at h
  | cons hd tl ih =>
    intro i a b h
    cases i with
    | zero =>
      simp only [List.getElem?_cons_zero, Option.some.injEq] at h
      subst h
      simp only [List.set_cons_zero, List.map_cons, List.sum_cons]
      ring
    | succ k =>
      simp only [List.getElem?_cons_succ] at h
      simp only [List.set_cons_succ, List.map_cons, List.sum_cons, ih k a b h]
      ring

theorem collideAt_length (l : List Particle) (i j : ℕ) :
    (collideAt l i j).length = l.length := by
  unfold collideAt
  split
  · split_ifs <;> simp
  · rfl

theorem collideAt_mass_pos (l : List Particle) (i j : ℕ)
    (hpos : ∀ p ∈ l, 0 < p.mass_) : ∀ p ∈ collideAt l i j, 0 < p.mass_ := by
  unfold collideAt
  split
  · rename_i a b hi hj
    split_ifs
    · intro p hp
      rcases List.mem_or_eq_of_mem_set hp with hp1 | rfl
      · rcases List.mem_or_eq_of_mem_set hp1 with hp2 | rfl
        · exact hpos p hp2
        · rw [(Collide_fst_fields a b).2.1]
          exact hpos a (List.getElem?_mem hi)
      · rw [(Collide_snd_fields a b).2.1]
        exact hpos b (List.getElem?_mem hj)
    · exact hpos
  · exact hpos

theorem collideAt_totalKineticEnergy (l : List Particle) (i j : ℕ)
    (hpos : ∀ p ∈ l, 0 < p.mass_) :
    totalKineticEnergy (collideAt l i j) = totalKineticEnergy l := by
  unfold collideAt
  split
  · rename_i a b hi hj
    split_ifs with hc
    · have hx := CanCollide_distinct_centres hc
      have hij : i ≠ j := by
        intro he
        subst he
        rw [hi] at hj
        simp only [Option.some.injEq] at hj
        subst hj
        exact hx rfl
      have hma := hpos a (List.getElem?_mem hi)
      have hmb := hpos b (List.getElem?_mem hj)
      have hm : a.mass_ + b.mass_ ≠ 0 := by linarith
      have hj' : (l.set i (Collide a b).1)[j]? = some b := by
        rw [List.getElem?_set_ne hij]
        exact hj
      unfold totalKineticEnergy
      rw [sum_map_set kineticEnergy _ j b _ hj', sum_map_set kineticEnergy l i a _ hi]
      have hke := Collide_kineticEnergy a b hx hm
      linarith
    · rfl
  · rfl

theorem updateAt_mass_pos (l : List Particle) (i : ℕ)
    (hpos : ∀ p ∈ l, 0 < p.mass_) : ∀ p ∈ updateAt l i, 0 < p.mass_ := by
  unfold updateAt
  split
  · rename_i a hi
    intro p hp
    rcases List.mem_or_eq_of_mem_set hp with hp1 | rfl
    · exact hpos p hp1
    · rw [Update_mass]
      exact hpos a (List.getElem?_mem hi)
  · exact hpos

theorem updateAt_totalKineticEnergy (l : List Particle) (i : ℕ) :
    totalKineticEnergy (updateAt l i) = totalKineticEnergy l := by
  unfold updateAt
  split
  · rename_i a hi
    unfold totalKineticEnergy
    rw [sum_map_set kineticEnergy l i a _ hi, Update_kineticEnergy]
    ring
  · rfl

theorem innerLoop_conserves (i : ℕ) :
    ∀ (n j : ℕ) (l : List Particle), (∀ p ∈ l, 0 < p.mass_) →
      (∀ p ∈ innerLoop i n j l, 0 < p.mass_) ∧
        totalKineticEnergy (innerLoop i n j l) = totalKineticEnergy l := by
  intro n
  induction n with
  | zero => intro j l hpos; exact ⟨hpos, rfl⟩
  | succ n ih =>
    intro j l hpos
    have h := ih (j + 1) (collideAt l i j) (collideAt_mass_pos l i j hpos)
    simp only [innerLoop]
    exact ⟨h.1, h.2.trans (collideAt_totalKineticEnergy l i j hpos)⟩

theorem outerLoop_conserves :
    ∀ (n i : ℕ) (l : List Particle), (∀ p ∈ l, 0 < p.mass_) →
      (∀ p ∈ outerLoop n i l, 0 < p.mass_) ∧
        totalKineticEnergy (outerLoop n i l) = totalKineticEnergy l := by
  intro n
  induction n with
  | zero => intro i l hpos; exact ⟨hpos, rfl⟩
  | succ n ih =>
    intro i l hpos
    have hin := innerLoop_conserves i (l.length - (i + 1)) (i + 1) l hpos
    have hup := updateAt_mass_pos _ i hin.1
    have h := ih (i + 1) _ hup
    simp only [outerLoop]
    refine ⟨h.1, h.2.trans ?_⟩
    rw [updateAt_totalKineticEnergy]
    exact hin.2

/-- C6: when every particle has positive mass, one `ParticleSimulator::Update`
(all pairwise resolutions and all wall checks) leaves the sum over the particles
of `mass * (vx^2 + vy^2)` unchanged. -/
theorem Update_conserves_total_kinetic_energy (s : ParticleSimulator)
    (hpos : ∀ p ∈ s.particles_, 0 < p.mass_) :
    totalKineticEnergy s.Update.particles_ = totalKineticEnergy s.particles_ :=
  (outerLoop_conserves s.particles_.length 0 s.particles_ hpos).2

theorem light_heavy_mass_pos :
    ∀ p ∈ (ParticleSimulator.mk [lightParticle, heavyParticle]).particles_, 0 < p.mass_ := by
  intro p hp
  simp only [List.mem_cons, List.mem_singleton, List.not_mem_nil, or_false] at hp
  rcases hp with rfl | rfl
  · norm_num [lightParticle]
  · norm_num [heavyParticle]

/-- Witness of C6: the two particles of the different-mass test carry
`10 * 9 + 20 * 9 = 270` before the tick and after it. -/
theorem Update_conserves_total_kinetic_energy_witness :
    (∀ p ∈ (ParticleSimulator.mk [lightParticle, heavyParticle]).particles_, 0 < p.mass_) ∧
      totalKineticEnergy
        (ParticleSimulator.mk [lightParticle, heavyParticle]).Update.particles_ = 270 := by
  refine ⟨light_heavy_mass_pos, ?_⟩
  rw [Update_conserves_total_kinetic_energy _ light_heavy_mass_pos]
  norm_num [totalKineticEnergy, kineticEnergy, lightParticle, heavyParticle]

/-! ## Particle::Update: position and wall checks -/

theorem kXLowerBound_cast : (kXLowerBound : ℚ) = 450 := by
  norm_num [kXLowerBound, kWindowSizeWidth]

theorem kXUpperBound_cast : (kXUpperBound : ℚ) = 1350 := by
  norm_num [kXUpperBound, kWindowSizeWidth]

theorem kYLowerBound_cast : (kYLowerBound : ℚ) = 80 := by
  norm_num [kYLowerBound, kWindowSizeHeight]

theorem kYUpperBound_cast : (kYUpperBound : ℚ) = 720 := by
  norm_num [kYUpperBound, kWindowSizeHeight]

theorem Update_radius (p : Particle) : p.Update.radius_ = p.radius_ := by
  simp [Particle.Update]

theorem Update_position_comp (p : Particle) (a : Axis) :
    p.Update.position_.comp a = p.position_.comp a + p.velocity_.comp a := by
  cases a <;> simp [Particle.Update, Vec2.add, Vec2.comp]

theorem checkXLower_x (pos : Vec2) (r : ℚ) (v : Vec2) :
    (checkXLower pos r v).x =
      (if v.x < 0 then if pos.x ≤ (kXLowerBound : ℚ) + r then -v.x else v.x else v.x) := by
  unfold checkXLower
  split_ifs <;> rfl

theorem checkXUpper_x (pos : Vec2) (r : ℚ) (v : Vec2) :
    (checkXUpper pos r v).x =
      (if v.x > 0 then if pos.x ≥ (kXUpperBound : ℚ) - r then -v.x else v.x else v.x) := by
  unfold checkXUpper
  split_ifs <;> rfl

theorem checkYLower_y (pos : Vec2) (r : ℚ) (v : Vec2) :
    (checkYLower pos r v).y =
      (if v.y < 0 then if pos.y ≤ (kYLowerBound : ℚ) + r then -v.y else v.y else v.y) := by
  unfold checkYLower
  split_ifs <;> rfl

theorem checkYUpper_y (pos : Vec2) (r : ℚ) (v : Vec2) :
    (checkYUpper pos r v).y =
      (if v.y > 0 then if pos.y ≥ (kYUpperBound : ℚ) - r then -v.y else v.y else v.y) := by
  unfold checkYUpper
  split_ifs <;> rfl

theorem Update_velocity_comp (p : Particle) (a : Axis) :
    p.Update.velocity_.comp a =
      bounceAxis (lowerBound a) (upperBound a) p.radius_ (p.Update.position_.comp a)
        (p.velocity_.comp a) := by
  cases a
  · simp only [Particle.Update, Vec2.comp, lowerBound, upperBound, bounceAxis]
    rw [(checkYUpper_sq _ _ _).1, checkXUpper_x, (checkYLower_sq _ _ _).1, checkXLower_x]
  · simp only [Particle.Update, Vec2.comp, lowerBound, upperBound, bounceAxis]
    rw [checkYUpper_y, (checkXUpper_sq _ _ _).2, checkYLower_y, (checkXLower_sq _ _ _).2]

theorem bounceAxis_rule (lower upper radius position velocity : ℚ)
    (h : ¬ (velocity < 0 ∧ position ≤ lower + radius ∧ position ≥ upper - radius)) :
    bounceAxis lower upper radius position velocity =
      (if (velocity < 0 ∧ position - radius ≤ lower) ∨
          (velocity > 0 ∧ position + radius ≥ upper) then -velocity else velocity) := by
  unfold bounceAxis
  by_cases hneg : velocity < 0
  · by_cases hlo : position ≤ lower + radius
    · have hhi : ¬ position ≥ upper - radius := fun hhi => h ⟨hneg, hlo, hhi⟩
      have h1 : position - radius ≤ lower := by linarith
      have h2 : -velocity > 0 := by linarith
      simp [hneg, hlo, hhi, h1, h2]
    · have h1 : ¬ position - radius ≤ lower := fun h1 => hlo (by linarith)
      have h2 : ¬ velocity > 0 := by
        intro h2
        linarith
      simp [hneg, hlo, h1, h2]
  · by_cases hpos : velocity > 0
    · by_cases hhi : position ≥ upper - radius
      · have h1 : position + radius ≥ upper := by linarith
        simp [hneg, hpos, hhi, h1]
      · have h1 : ¬ position + radius ≥ upper := fun h1 => hhi (by linarith)
        simp [hneg, hpos, hhi, h1]
    · simp [hneg, hpos]

/-- The wall rule of C8 holds on every axis on which the particle does not
touch both walls at once while moving towards the lower one. -/
theorem Update_velocity_rule_of_not_both_walls (p : Particle) (a : Axis)
    (h : ¬ (p.velocity_.comp a < 0 ∧ p.Update.position_.comp a ≤ lowerBound a + p.radius_ ∧
      p.Update.position_.comp a ≥ upperBound a - p.radius_)) :
    p.Update.velocity_.comp a =
      (if (p.velocity_.comp a < 0 ∧ p.Update.position_.comp a - p.radius_ ≤ lowerBound a) ∨
          (p.velocity_.comp a > 0 ∧ p.Update.position_.comp a + p.radius_ ≥ upperBound a)
        then -(p.velocity_.comp a) else p.velocity_.comp a) := by
  rw [Update_velocity_comp]
  exact bounceAxis_rule _ _ _ _ _ h

/-- C8 at the particle of radius 500 at `(900, 400)` with velocity `(-1, 0)`:
the x-velocity is negative and the moved position minus the radius,
`899 - 500`, is at most the lower bound 450, so the rule asks for the negated
value `1`; `Particle::Update` returns `-1`, because the upper-wall check reads
the velocity the lower-wall check has just negated and, `899 >= 1350 - 500`,
negates it back. -/
theorem Update_wideParticle_velocity_not_negated :
    wideParticle.velocity_.x < 0 ∧
      wideParticle.Update.position_.x - wideParticle.radius_ ≤ 450 ∧
      wideParticle.Update.velocity_.x = -1 ∧
      wideParticle.Update.velocity_.x ≠ -wideParticle.velocity_.x := by
  have h := Update_velocity_comp wideParticle Axis.x
  simp only [Vec2.comp, lowerBound, upperBound, Update_position_comp, kXLowerBound_cast,
    kXUpperBound_cast] at h
  have hp := Update_position_comp wideParticle Axis.x
  simp only [Vec2.comp] at hp
  rw [h, hp]
  norm_num [wideParticle, bounceAxis]

theorem rightWallParticle_Update :
    rightWallParticle.Update = ⟨⟨1350, 25⟩, ⟨-5, 0⟩, 10, "red", 5⟩ := by
  simp [Particle.Update, rightWallParticle, Vec2.add, checkXLower, checkYLower, checkXUpper,
    checkYUpper, kXUpperBound_cast]
  norm_num

/-- C10 (corner impact), amended: in exact arithmetic, with `vx > 0`, `vy > 0`,
`x + vx >= 1350 - radius` and `y + vy >= 720 - radius`, one `Particle::Update`
negates both velocity components and moves the particle to
`(x + vx, y + vy)`. -/
theorem Update_corner_impact (p : Particle)
    (hvx : 0 < p.velocity_.x) (hvy : 0 < p.velocity_.y)
    (hx : p.position_.x + p.velocity_.x ≥ 1350 - p.radius_)
    (hy : p.position_.y + p.velocity_.y ≥ 720 - p.radius_) :
    p.Update.velocity_.x = -p.velocity_.x ∧ p.Update.velocity_.y = -p.velocity_.y ∧
      p.Update.position_.x = p.position_.x + p.velocity_.x ∧
      p.Update.position_.y = p.position_.y + p.velocity_.y := by
  have hx1 : ¬ p.velocity_.x < 0 := not_lt.mpr (le_of_lt hvx)
  have hy1 : ¬ p.velocity_.y < 0 := not_lt.mpr (le_of_lt hvy)
  have hcx := Update_velocity_comp p Axis.x
  have hcy := Update_velocity_comp p Axis.y
  have hpx := Update_position_comp p Axis.x
  have hpy := Update_position_comp p Axis.y
  simp only [Vec2.comp, lowerBound, upperBound, kXUpperBound_cast, kYUpperBound_cast] at hcx hcy hpx hpy
  rw [hpx] at hcx
  rw [hpy] at hcy
  refine ⟨?_, ?_, hpx, hpy⟩
  · rw [hcx]
    unfold bounceAxis
    simp [hx1, hvx, hx]
  · rw [hcy]
    unfold bounceAxis
    simp [hy1, hvy, hy]

/-- Witness of the amended C10: the particle of the corner test, at `(1340, 710)` with
velocity `(5, 5)` and radius 5, leaves with velocity `(-5, -5)`. -/
theorem Update_corner_impact_witness :
    0 < cornerParticle.velocity_.x ∧ 0 < cornerParticle.velocity_.y ∧
      cornerParticle.position_.x + cornerParticle.velocity_.x ≥ 1350 - cornerParticle.radius_ ∧
      cornerParticle.position_.y + cornerParticle.velocity_.y ≥ 720 - cornerParticle.radius_ ∧
      cornerParticle.Update.velocity_.x = -cornerParticle.velocity_.x ∧
      cornerParticle.Update.velocity_.y = -cornerParticle.velocity_.y ∧
      cornerParticle.Update.position_.x = cornerParticle.position_.x + cornerParticle.velocity_.x ∧
      cornerParticle.Update.position_.y = cornerParticle.position_.y + cornerParticle.velocity_.y := by
  have h1 : 0 < cornerParticle.velocity_.x := by norm_num [cornerParticle]
  have h2 : 0 < cornerParticle.velocity_.y := by norm_num [cornerParticle]
  have h3 : cornerParticle.position_.x + cornerParticle.velocity_.x ≥
      1350 - cornerParticle.radius_ := by norm_num [cornerParticle]
  have h4 : cornerParticle.position_.y + cornerParticle.velocity_.y ≥
      720 - cornerParticle.radius_ := by norm_num [cornerParticle]
  exact ⟨h1, h2, h3, h4, Update_corner_impact cornerParticle h1 h2 h3 h4⟩

/-! ## Resolution before integration -/

theorem Update_pair (a b : Particle) (hc : CanCollide a b = true) :
    (ParticleSimulator.mk [a, b]).Update.particles_ =
      [(Collide a b).1.Update, (Collide a b).2.Update] := by
  simp [ParticleSimulator.Update, outerLoop, innerLoop, collideAt, updateAt, hc]

/-- C11, amended: in exact arithmetic, in a simulator of two particles that
satisfy `CanCollide`, one `ParticleSimulator::Update` resolves the collision
first and moves afterwards: each particle ends at its old position plus the
velocity `Collide` gave it. -/
theorem Update_moves_by_post_collision_velocity (a b : Particle)
    (hc : CanCollide a b = true) :
    ∃ a2 b2 : Particle, (ParticleSimulator.mk [a, b]).Update.particles_ = [a2, b2] ∧
      a2.position_.x = a.position_.x + (Collide a b).1.velocity_.x ∧
      a2.position_.y = a.position_.y + (Collide a b).1.velocity_.y ∧
      b2.position_.x = b.position_.x + (Collide a b).2.velocity_.x ∧
      b2.position_.y = b.position_.y + (Collide a b).2.velocity_.y := by
  refine ⟨(Collide a b).1.Update, (Collide a b).2.Update, Update_pair a b hc, ?_⟩
  have h1 := Update_position_comp (Collide a b).1
  have h2 := Update_position_comp (Collide a b).2
  have hx1 := h1 Axis.x
  have hy1 := h1 Axis.y
  have hx2 := h2 Axis.x
  have hy2 := h2 Axis.y
  simp only [Vec2.comp, (Collide_fst_fields a b).1, (Collide_snd_fields a b).1] at hx1 hy1 hx2 hy2
  exact ⟨hx1, hy1, hx2, hy2⟩

theorem headOn_CanCollide : CanCollide headOnRight headOnLeft = true := by
  simp [CanCollide, distanceLt, lengthSq, dot, Vec2.sub, headOnRight, headOnLeft]
  norm_num

theorem headOn_Collide :
    Collide headOnRight headOnLeft =
      (⟨⟨550, 550⟩, ⟨2, 0⟩, 10, "red", 10⟩, ⟨⟨540, 550⟩, ⟨-2, 0⟩, 10, "red", 10⟩) := by
  simp [Collide, Particle.SetVelocity, lengthSq, dot, Vec2.sub, Vec2.smul, headOnRight,
    headOnLeft]
  norm_num

theorem headOn_Update :
    (ParticleSimulator.mk [headOnRight, headOnLeft]).Update.particles_ =
      [⟨⟨552, 550⟩, ⟨2, 0⟩, 10, "red", 10⟩, ⟨⟨538, 550⟩, ⟨-2, 0⟩, 10, "red", 10⟩] := by
  rw [Update_pair _ _ headOn_CanCollide, headOn_Collide]
  simp [Particle.Update, Vec2.add, checkXLower, checkYLower, checkXUpper, checkYUpper,
    kXUpperBound_cast, kXLowerBound_cast]
  norm_num

/-- Witness of the amended C11, the scenario of the spec: equal-mass particles at
`(550, 550)` and `(540, 550)` with velocities `(-2, 0)` and `(2, 0)` end with
velocities `(2, 0)` and `(-2, 0)` at `(552, 550)` and `(538, 550)`. -/
theorem Update_moves_by_post_collision_velocity_witness :
    CanCollide headOnRight headOnLeft = true ∧
      (ParticleSimulator.mk [headOnRight, headOnLeft]).Update.particles_ =
        [⟨⟨552, 550⟩, ⟨2, 0⟩, 10, "red", 10⟩, ⟨⟨538, 550⟩, ⟨-2, 0⟩, 10, "red", 10⟩] ∧
      ∃ a2 b2 : Particle,
        (ParticleSimulator.mk [headOnRight, headOnLeft]).Update.particles_ = [a2, b2] ∧
        a2.position_.x = headOnRight.position_.x + (Collide headOnRight headOnLeft).1.velocity_.x ∧
        a2.position_.y = headOnRight.position_.y + (Collide headOnRight headOnLeft).1.velocity_.y ∧
        b2.position_.x = headOnLeft.position_.x + (Collide headOnRight headOnLeft).2.velocity_.x ∧
        b2.position_.y = headOnLeft.position_.y + (Collide headOnRight headOnLeft).2.velocity_.y :=
  ⟨headOn_CanCollide, headOn_Update,
    Update_moves_by_post_collision_velocity headOnRight headOnLeft headOn_CanCollide⟩

/-! ## Equal masses on a horizontal line -/

theorem collideAt_of_not (l : List Particle) (i j : ℕ)
    (h : ∀ a b, l[i]? = some a → l[j]? = some b → CanCollide a b = false) :
    collideAt l i j = l := by
  unfold collideAt
  split
  · rename_i a b hi hj
    rw [h a b hi hj]
    simp
  · rfl

theorem innerLoop_of_not (i : ℕ) :
    ∀ (n j : ℕ) (l : List Particle),
      (∀ j' a b, j ≤ j' → l[i]? = some a → l[j']? = some b → CanCollide a b = false) →
      innerLoop i n j l = l := by
  intro n
  induction n with
  | zero => intro j l _; rfl
  | succ n ih =>
    intro j l h
    simp only [innerLoop]
    rw [collideAt_of_not l i j (fun a b hi hj => h j a b (le_refl j) hi hj)]
    exact ih (j + 1) l (fun j' a b hj' hi hj => h j' a b (by omega) hi hj)

theorem updateAt_append (done : List Particle) (t : Particle) (ts : List Particle) :
    updateAt (done ++ t :: ts) done.length = done ++ t.Update :: ts := by
  unfold updateAt
  have h : (done ++ t :: ts)[done.length]? = some t := by
    rw [List.getElem?_append_right (le_refl _)]
    simp
  rw [h]
  simp only
  rw [List.set_append_right _ _ (le_refl _)]
  simp

theorem outerLoop_of_not :
    ∀ (todo done : List Particle), todo.Pairwise (fun a b => CanCollide a b = false) →
      outerLoop todo.length done.length (done ++ todo) = done ++ todo.map Particle.Update := by
  intro todo
  induction todo with
  | nil => intro done _; simp [outerLoop]
  | cons t ts ih =>
    intro done hp
    rw [List.pairwise_cons] at hp
    obtain ⟨ht, hts⟩ := hp
    simp only [List.length_cons, outerLoop]
    have hin : innerLoop done.length ((done ++ t :: ts).length - (done.length + 1))
        (done.length + 1) (done ++ t :: ts) = done ++ t :: ts := by
      apply innerLoop_of_not
      intro j' a b hj' hi hj
      have hi' : (done ++ t :: ts)[done.length]? = some t := by
        rw [List.getElem?_append_right (le_refl _)]
        simp
      rw [hi'] at hi
      simp only [Option.some.injEq] at hi
      subst hi
      rw [List.getElem?_append_right (by omega)] at hj
      obtain ⟨k, hk⟩ : ∃ k, j' - done.length = k + 1 := ⟨j' - done.length - 1, by omega⟩
      rw [hk, List.getElem?_cons_succ] at hj
      exact ht b (List.getElem?_mem hj)
    rw [hin, updateAt_append]
    have h := ih (done ++ [t.Update]) hts
    simp only [List.length_append, List.length_singleton, List.append_assoc,
      List.singleton_append] at h
    rw [h]
    simp

theorem Update_of_not (s : ParticleSimulator)
    (h : s.particles_.Pairwise (fun a b => CanCollide a b = false)) :
    s.Update.particles_ = s.particles_.map Particle.Update := by
  have := outerLoop_of_not s.particles_ [] h
  simpa [ParticleSimulator.Update] using this

/-- C13, amended: in exact arithmetic, when no pair of particles satisfies
`CanCollide` before the tick, one `ParticleSimulator::Update` is
`Particle::Update` on every particle: each position is the old position plus the
old velocity, and each velocity is what the particle's own wall checks make of
its old velocity. -/
theorem Update_without_collision (s : ParticleSimulator)
    (h : s.particles_.Pairwise (fun a b => CanCollide a b = false)) :
    s.Update.particles_ = s.particles_.map Particle.Update ∧
      ∀ (i : ℕ) (p : Particle), s.particles_[i]? = some p →
        ∃ q, s.Update.particles_[i]? = some q ∧
          q.position_.x = p.position_.x + p.velocity_.x ∧
          q.position_.y = p.position_.y + p.velocity_.y ∧
          q.velocity_ = p.Update.velocity_ ∧
          ∀ a : Axis, q.velocity_.comp a =
            bounceAxis (lowerBound a) (upperBound a) p.radius_
              (p.position_.comp a + p.velocity_.comp a) (p.velocity_.comp a) := by
  have hmap := Update_of_not s h
  refine ⟨hmap, ?_⟩
  intro i p hi
  refine ⟨p.Update, ?_, ?_, ?_, rfl, ?_⟩
  · rw [hmap, List.getElem?_map, hi]
    rfl
  · simpa [Vec2.comp] using Update_position_comp p Axis.x
  · simpa [Vec2.comp] using Update_position_comp p Axis.y
  · intro a
    rw [Update_velocity_comp, Update_position_comp]

theorem far_pairwise :
    (ParticleSimulator.mk [farUpper, farLower]).particles_.Pairwise
      (fun a b => CanCollide a b = false) := by
  simp [CanCollide, distanceLt, lengthSq, dot, Vec2.sub, farUpper, farLower]
  norm_num

/-- Witness of the amended C13, the two particles of the no-collision test: they end at
`(548, 250)` and `(542, 550)` with their velocities `(-2, 0)` and `(2, 0)`. -/
theorem Update_without_collision_witness :
    (ParticleSimulator.mk [farUpper, farLower]).particles_.Pairwise
        (fun a b => CanCollide a b = false) ∧
      (ParticleSimulator.mk [farUpper, farLower]).Update.particles_ =
        [⟨⟨548, 250⟩, ⟨-2, 0⟩, 10, "red", 10⟩, ⟨⟨542, 550⟩, ⟨2, 0⟩, 10, "red", 10⟩] := by
  refine ⟨far_pairwise, ?_⟩
  rw [(Update_without_collision _ far_pairwise).1]
  simp [Particle.Update, Vec2.add, checkXLower, checkYLower, checkXUpper, checkYUpper,
    kXUpperBound_cast, kXLowerBound_cast, farUpper, farLower]
  norm_num

/-! ## AddParticles: validation -/

theorem kXLowerBound_eq : kXLowerBound = 450 := by decide

theorem kXUpperBound_eq : kXUpperBound = 1350 := by decide

theorem kYLowerBound_eq : kYLowerBound = 80 := by decide

theorem kYUpperBound_eq : kYUpperBound = 720 := by decide

theorem Validate_ok_iff (radius mass : ℚ) (x y : ℕ) (vx vy : ℚ) :
    ValidateAddParticleArguments radius mass x y vx vy = Except.ok () ↔
      ¬ (radius < 0.1 ∨ mass < 0.1 ∨ (vx = 0 ∧ vy = 0) ∨ |vx| > 0.8 * radius ∨
        |vy| > 0.8 * radius ∨ x < 450 ∨ 1350 < x ∨ y < 80 ∨ 720 < y) := by
  unfold ValidateAddParticleArguments
  rw [kXLowerBound_eq, kXUpperBound_eq, kYLowerBound_eq, kYUpperBound_eq, mul_comm radius 0.8]
  by_cases h1 : radius < 0.1
  · simp [h1]
  by_cases h2 : mass < 0.1
  · simp [h1, h2]
  by_cases h3 : vx = 0 ∧ vy = 0
  · simp [h1, h2, h3]
  by_cases h4 : |vx| > 0.8 * radius ∨ |vy| > 0.8 * radius
  · rw [if_neg h1, if_neg h2, if_neg h3, if_pos h4]
    simp only [reduceCtorEq, false_iff, not_not]
    rcases h4 with h4 | h4
    · exact Or.inr (Or.inr (Or.inr (Or.inl h4)))
    · exact Or.inr (Or.inr (Or.inr (Or.inr (Or.inl h4))))
  by_cases h5 : x < 450 ∨ x > 1350
  · rw [if_neg h1, if_neg h2, if_neg h3, if_neg h4, if_pos h5]
    simp only [reduceCtorEq, false_iff, not_not]
    rcases h5 with h5 | h5
    · exact Or.inr (Or.inr (Or.inr (Or.inr (Or.inr (Or.inl h5)))))
    · exact Or.inr (Or.inr (Or.inr (Or.inr (Or.inr (Or.inr (Or.inl h5))))))
  by_cases h6 : y < 80 ∨ y > 720
  · rw [if_neg h1, if_neg h2, if_neg h3, if_neg h4, if_neg h5, if_pos h6]
    simp only [reduceCtorEq, false_iff, not_not]
    rcases h6 with h6 | h6
    · exact Or.inr (Or.inr (Or.inr (Or.inr (Or.inr (Or.inr (Or.inr (Or.inl h6)))))))
    · exact Or.inr (Or.inr (Or.inr (Or.inr (Or.inr (Or.inr (Or.inr (Or.inr h6)))))))
  · rw [if_neg h1, if_neg h2, if_neg h3, if_neg h4, if_neg h5, if_neg h6]
    simp only [true_iff]
    rintro (h | h | h | h | h | h | h | h | h)
    · exact h1 h
    · exact h2 h
    · exact h3 h
    · exact h4 (Or.inl h)
    · exact h4 (Or.inr h)
    · exact h5 (Or.inl h)
    · exact h5 (Or.inr h)
    · exact h6 (Or.inl h)
    · exact h6 (Or.inr h)

theorem Except_unit_cases (r : Except Exception Unit) :
    r = Except.ok () ∨ ∃ msg, r = Except.error (Exception.invalid_argument msg) := by
  cases r with
  | ok u => exact Or.inl rfl
  | error e =>
    cases e with
    | invalid_argument msg => exact Or.inr ⟨msg, rfl⟩

theorem Validate_error_iff (radius mass : ℚ) (x y : ℕ) (vx vy : ℚ) :
    (∃ msg, ValidateAddParticleArguments radius mass x y vx vy =
        Except.error (Exception.invalid_argument msg)) ↔
      (radius < 0.1 ∨ mass < 0.1 ∨ (vx = 0 ∧ vy = 0) ∨ |vx| > 0.8 * radius ∨
        |vy| > 0.8 * radius ∨ x < 450 ∨ 1350 < x ∨ y < 80 ∨ 720 < y) := by
  have hok := Validate_ok_iff radius mass x y vx vy
  constructor
  · rintro ⟨msg, hmsg⟩
    by_contra hn
    rw [hok.mpr hn] at hmsg
    simp at hmsg
  · intro hc
    rcases Except_unit_cases (ValidateAddParticleArguments radius mass x y vx vy) with h | h
    · exact absurd hc (hok.mp h)
    · exact h

theorem AddParticlesExplicit_fst (s : ParticleSimulator) (amount : ℕ) (radius mass : ℚ)
    (color : String) (x y : ℕ) (vx vy : ℚ) :
    (s.AddParticlesExplicit amount radius mass color x y vx vy).1 =
      ValidateAddParticleArguments radius mass x y vx vy := by
  unfold ParticleSimulator.AddParticlesExplicit
  split
  · rename_i e h
    rw [h]
  · rename_i u h
    rw [h]

theorem AddParticlesExplicit_snd_of_ok (s : ParticleSimulator) (amount : ℕ) (radius mass : ℚ)
    (color : String) (x y : ℕ) (vx vy : ℚ)
    (h : (s.AddParticlesExplicit amount radius mass color x y vx vy).1 = Except.ok ()) :
    (s.AddParticlesExplicit amount radius mass color x y vx vy).2 =
      ⟨emplaceLoop amount (Particle.new ⟨(x : ℚ), (y : ℚ)⟩ ⟨vx, vy⟩ radius mass color)
        s.particles_⟩ := by
  rw [AddParticlesExplicit_fst] at h
  unfold ParticleSimulator.AddParticlesExplicit
  rw [h]

theorem AddParticlesExplicit_snd_of_error (s : ParticleSimulator) (amount : ℕ)
    (radius mass : ℚ) (color : String) (x y : ℕ) (vx vy : ℚ) (e : Exception)
    (h : (s.AddParticlesExplicit amount radius mass color x y vx vy).1 = Except.error e) :
    (s.AddParticlesExplicit amount radius mass color x y vx vy).2 = s := by
  rw [AddParticlesExplicit_fst] at h
  unfold ParticleSimulator.AddParticlesExplicit
  rw [h]

/-! ## AddParticles: the particles added -/

theorem emplaceLoop_eq (p : Particle) :
    ∀ (n : ℕ) (l : List Particle), emplaceLoop n p l = l ++ List.replicate n p := by
  intro n
  induction n with
  | zero => intro l; simp [emplaceLoop]
  | succ n ih =>
    intro l
    simp only [emplaceLoop]
    rw [ih, List.replicate_succ, List.append_assoc, List.singleton_append]

theorem emplaceRandomLoop_eq (radius mass : ℚ) (color : String) (positions : ℕ → ℕ × ℕ)
    (velocities : ℕ → ℚ × ℚ) :
    ∀ (n i : ℕ) (l : List Particle),
      emplaceRandomLoop radius mass color positions velocities n i l =
        l ++ (List.range n).map (fun k =>
          Particle.new ⟨((positions (i + k)).1 : ℚ), ((positions (i + k)).2 : ℚ)⟩
            ⟨(velocities (i + k)).1, (velocities (i + k)).2⟩ radius mass color) := by
  intro n
  induction n with
  | zero => intro i l; simp [emplaceRandomLoop]
  | succ n ih =>
    intro i l
    simp only [emplaceRandomLoop]
    rw [ih, List.range_succ_eq_map, List.map_cons, List.map_map, List.append_assoc,
      List.singleton_append]
    congr 2
    apply List.map_congr_left
    intro k _
    simp only [Function.comp_apply]
    rw [show i + 1 + k = i + (k + 1) by omega]

theorem AddParticlesRandom_snd_of_error (s : ParticleSimulator) (amount : ℕ)
    (radius mass : ℚ) (color : String) (positions : ℕ → ℕ × ℕ) (velocities : ℕ → ℚ × ℚ)
    (e : Exception)
    (h : (s.AddParticlesRandom amount radius mass color positions velocities).1 =
      Except.error e) :
    (s.AddParticlesRandom amount radius mass color positions velocities).2 = s := by
  unfold ParticleSimulator.AddParticlesRandom at h ⊢
  split_ifs with hr
  · rfl
  · rw [if_neg hr] at h
    simp at h

/-- C16 (atomicity of validation): whenever either `AddParticles` overload
throws, the simulator is exactly what it was before the call. -/
theorem AddParticles_atomic (s : ParticleSimulator) (amount : ℕ) (radius mass : ℚ)
    (color : String) (x y : ℕ) (vx vy : ℚ) (positions : ℕ → ℕ × ℕ)
    (velocities : ℕ → ℚ × ℚ) :
    (∀ e, (s.AddParticlesExplicit amount radius mass color x y vx vy).1 = Except.error e →
        (s.AddParticlesExplicit amount radius mass color x y vx vy).2 = s) ∧
      (∀ e, (s.AddParticlesRandom amount radius mass color positions velocities).1 =
          Except.error e →
        (s.AddParticlesRandom amount radius mass color positions velocities).2 = s) :=
  ⟨fun e h => AddParticlesExplicit_snd_of_error s amount radius mass color x y vx vy e h,
    fun e h => AddParticlesRandom_snd_of_error s amount radius mass color positions velocities
      e h⟩

/-- Witness of C16: on a simulator holding the head-on pair, the explicit call
with zero velocity and the random call with radius 0.05 (both from the tests)
throw and leave the two particles in place. -/
theorem AddParticles_atomic_witness :
    (∃ e, ((ParticleSimulator.mk [headOnRight, headOnLeft]).AddParticlesExplicit 5 10 10 "red"
        250 250 0 0).1 = Except.error e) ∧
      ((ParticleSimulator.mk [headOnRight, headOnLeft]).AddParticlesExplicit 5 10 10 "red"
        250 250 0 0).2 = ParticleSimulator.mk [headOnRight, headOnLeft] ∧
      (∃ e, ((ParticleSimulator.mk [headOnRight, headOnLeft]).AddParticlesRandom 50 0.05 10
        "red" (fun _ => (500, 500)) (fun _ => (1, 1))).1 = Except.error e) ∧
      ((ParticleSimulator.mk [headOnRight, headOnLeft]).AddParticlesRandom 50 0.05 10
        "red" (fun _ => (500, 500)) (fun _ => (1, 1))).2 =
          ParticleSimulator.mk [headOnRight, headOnLeft] := by
  have h1 : ∃ e, ((ParticleSimulator.mk [headOnRight, headOnLeft]).AddParticlesExplicit 5 10 10
      "red" 250 250 0 0).1 = Except.error e := by
    rw [AddParticlesExplicit_fst]
    obtain ⟨msg, hmsg⟩ := (Validate_error_iff 10 10 250 250 0 0).mpr (by norm_num)
    exact ⟨_, hmsg⟩
  have h2 : ∃ e, ((ParticleSimulator.mk [headOnRight, headOnLeft]).AddParticlesRandom 50 0.05
      10 "red" (fun _ => (500, 500)) (fun _ => (1, 1))).1 = Except.error e := by
    simp [ParticleSimulator.AddParticlesRandom]
    norm_num
  obtain ⟨e1, he1⟩ := h1
  obtain ⟨e2, he2⟩ := h2
  have h := AddParticles_atomic (ParticleSimulator.mk [headOnRight, headOnLeft]) 5 10 10 "red"
    250 250 0 0 (fun _ => (500, 500)) (fun _ => (1, 1))
  have h' := AddParticles_atomic (ParticleSimulator.mk [headOnRight, headOnLeft]) 50 0.05 10
    "red" 250 250 0 0 (fun _ => (500, 500)) (fun _ => (1, 1))
  exact ⟨⟨e1, he1⟩, h.1 e1 he1, ⟨e2, he2⟩, h'.2 e2 he2⟩

/-- C17: the random-spawn `AddParticles` throws `std::invalid_argument` exactly
when `radius < 0.1`, negative radii included, whatever the mass. -/
theorem AddParticlesRandom_fails_iff (s : ParticleSimulator) (amount : ℕ) (radius mass : ℚ)
    (color : String) (positions : ℕ → ℕ × ℕ) (velocities : ℕ → ℚ × ℚ) :
    ((∃ msg, (s.AddParticlesRandom amount radius mass color positions velocities).1 =
          Except.error (Exception.invalid_argument msg)) ↔ radius < 0.1) ∧
      (¬ radius < 0.1 →
        (s.AddParticlesRandom amount radius mass color positions velocities).1 =
          Except.ok ()) := by
  unfold ParticleSimulator.AddParticlesRandom
  by_cases hr : radius < 0.1
  · simp [hr]
  · simp [hr]

/-- C18: when the random-spawn `AddParticles` returns normally, whatever the
generators return, the particle list is the previous list followed by exactly
`amount` particles, each with the given radius, mass and colour. -/
theorem AddParticlesRandom_appends (s : ParticleSimulator) (amount : ℕ) (radius mass : ℚ)
    (color : String) (positions : ℕ → ℕ × ℕ) (velocities : ℕ → ℚ × ℚ)
    (h : (s.AddParticlesRandom amount radius mass color positions velocities).1 =
      Except.ok ()) :
    (s.AddParticlesRandom amount radius mass color positions velocities).2.particles_.length =
        s.particles_.length + amount ∧
      ∃ added : List Particle,
        (s.AddParticlesRandom amount radius mass color positions velocities).2.particles_ =
          s.particles_ ++ added ∧
        added.length = amount ∧
        ∀ p ∈ added, p.radius_ = radius ∧ p.mass_ = mass ∧ p.color_ = color := by
  unfold ParticleSimulator.AddParticlesRandom at h ⊢
  by_cases hr : radius < 0.1
  · rw [if_pos hr] at h
    simp at h
  · rw [if_neg hr]
    simp only [emplaceRandomLoop_eq]
    refine ⟨by simp, _, rfl, by simp, ?_⟩
    intro p hp
    simp only [List.mem_map, List.mem_range] at hp
    obtain ⟨k, _, rfl⟩ := hp
    simp [Particle.new]

theorem random_ok_example :
    ((ParticleSimulator.mk []).AddParticlesRandom 5 5 10 "red" (fun _ => (500, 500))
      (fun _ => (1, 1))).1 = Except.ok () := by
  simp [ParticleSimulator.AddParticlesRandom]
  norm_num

/-- Witness of C18, "Adding 5 particles actually adds 5 particles". -/
theorem AddParticlesRandom_appends_witness :
    ((ParticleSimulator.mk []).AddParticlesRandom 5 5 10 "red" (fun _ => (500, 500))
        (fun _ => (1, 1))).1 = Except.ok () ∧
      ((ParticleSimulator.mk []).AddParticlesRandom 5 5 10 "red" (fun _ => (500, 500))
        (fun _ => (1, 1))).2.particles_.length = 5 := by
  refine ⟨random_ok_example, ?_⟩
  rw [(AddParticlesRandom_appends _ _ _ _ _ _ _ random_ok_example).1]
  rfl

/-! ## Reachable states: mass and radius -/

theorem draws_valid (amount : ℕ) :
    ValidDraws amount 5 (fun _ => (500, 500)) (fun _ => (1, 1)) := by
  intro i _
  simp only [kXLowerBound_eq, kXUpperBound_eq, kYLowerBound_eq, kYUpperBound_eq,
    kMinimumVelocity]
  norm_num

/-- C19 at the random-spawn call `AddParticles(1, 5, 0, "red")` on an empty
simulator: the call returns normally and the reachable state holds a particle of
radius 5 and mass 0, while the explicit-position overload throws for the same
radius and mass. -/
theorem Reachable_massless_particle :
    Reachable masslessSimulator ∧
      masslessSimulator.particles_ = [⟨⟨500, 500⟩, ⟨1, 1⟩, 0, "red", 5⟩] ∧
      ¬ (∀ p ∈ masslessSimulator.particles_, 0 < p.radius_ ∧ 0 < p.mass_) ∧
      ∃ msg, ((ParticleSimulator.mk []).AddParticlesExplicit 1 5 0 "red" 500 500 1 1).1 =
        Except.error (Exception.invalid_argument msg) := by
  have hok : ((ParticleSimulator.mk []).AddParticlesRandom 1 5 0 "red" (fun _ => (500, 500))
      (fun _ => (1, 1))).1 = Except.ok () := by
    simp [ParticleSimulator.AddParticlesRandom]
    norm_num
  have hlist : masslessSimulator.particles_ = [⟨⟨500, 500⟩, ⟨1, 1⟩, 0, "red", 5⟩] := by
    simp [masslessSimulator, ParticleSimulator.AddParticlesRandom, emplaceRandomLoop,
      Particle.new]
    norm_num
  refine ⟨?_, hlist, ?_, ?_⟩
  · unfold masslessSimulator
    exact Reachable.addRandom _ 1 5 0 "red" _ _ Reachable.empty (draws_valid 1) hok
  · rw [hlist]
    simp
  · rw [AddParticlesExplicit_fst]
    exact (Validate_error_iff 5 0 500 500 1 1).mpr (by norm_num)

/-! ## Reachable states: the bound of half a radius on the velocity -/

theorem lightFast_added :
    ((ParticleSimulator.mk []).AddParticlesExplicit 1 10 1 "red" 550 550 (-5) 0).1 =
        Except.ok () ∧
      ((ParticleSimulator.mk []).AddParticlesExplicit 1 10 1 "red" 550 550 (-5) 0).2 =
        ParticleSimulator.mk [lightFast] := by
  have hok : ((ParticleSimulator.mk []).AddParticlesExplicit 1 10 1 "red" 550 550 (-5) 0).1 =
      Except.ok () := by
    rw [AddParticlesExplicit_fst, Validate_ok_iff]
    norm_num
  refine ⟨hok, ?_⟩
  rw [AddParticlesExplicit_snd_of_ok _ _ _ _ _ _ _ _ _ hok]
  simp [emplaceLoop, Particle.new, lightFast]

theorem heavySlow_added :
    ((ParticleSimulator.mk [lightFast]).AddParticlesExplicit 1 10 3 "red" 540 550 5 0).1 =
        Except.ok () ∧
      ((ParticleSimulator.mk [lightFast]).AddParticlesExplicit 1 10 3 "red" 540 550 5 0).2 =
        ParticleSimulator.mk [lightFast, heavySlow] := by
  have hok : ((ParticleSimulator.mk [lightFast]).AddParticlesExplicit 1 10 3 "red" 540 550 5
      0).1 = Except.ok () := by
    rw [AddParticlesExplicit_fst, Validate_ok_iff]
    norm_num
  refine ⟨hok, ?_⟩
  rw [AddParticlesExplicit_snd_of_ok _ _ _ _ _ _ _ _ _ hok]
  simp [emplaceLoop, Particle.new, heavySlow]

theorem lightFast_heavySlow_reachable :
    Reachable (ParticleSimulator.mk [lightFast, heavySlow]) := by
  have h1 := Reachable.addExplicit _ 1 10 1 "red" 550 550 (-5) 0 Reachable.empty
    lightFast_added.1
  rw [lightFast_added.2] at h1
  have h2 := Reachable.addExplicit _ 1 10 3 "red" 540 550 5 0 h1 heavySlow_added.1
  rw [heavySlow_added.2] at h2
  exact h2

theorem lightFast_heavySlow_CanCollide : CanCollide lightFast heavySlow = true := by
  simp [CanCollide, distanceLt, lengthSq, dot, Vec2.sub, lightFast, heavySlow]
  norm_num

theorem lightFast_heavySlow_Update :
    (ParticleSimulator.mk [lightFast, heavySlow]).Update.particles_ =
      [⟨⟨560, 550⟩, ⟨10, 0⟩, 1, "red", 10⟩, ⟨⟨540, 550⟩, ⟨0, 0⟩, 3, "red", 10⟩] := by
  have hc : Collide lightFast heavySlow =
      (⟨⟨550, 550⟩, ⟨10, 0⟩, 1, "red", 10⟩, ⟨⟨540, 550⟩, ⟨0, 0⟩, 3, "red", 10⟩) := by
    simp [Collide, Particle.SetVelocity, lengthSq, dot, Vec2.sub, Vec2.smul, lightFast,
      heavySlow]
    norm_num
  rw [Update_pair _ _ lightFast_heavySlow_CanCollide, hc]
  simp [Particle.Update, Vec2.add, checkXLower, checkYLower, checkXUpper, checkYUpper,
    kXUpperBound_cast, kXLowerBound_cast]
  norm_num

/-- In exact arithmetic as well a collision breaks the bound of half a radius:
two particles of radius 10 spawned with the velocities `(-5, 0)` and `(5, 0)`,
each within half a radius, collide in the next `Update`, and the lighter one
leaves with the velocity `(10, 0)`, a full radius. -/
theorem Reachable_velocity_above_half_radius :
    ¬ (∀ s : ParticleSimulator, Reachable s →
        ∀ p ∈ s.particles_, |p.velocity_.x| ≤ p.radius_ / 2 ∧ |p.velocity_.y| ≤ p.radius_ / 2) := by
  intro h
  have hr := Reachable.update _ lightFast_heavySlow_reachable
  have hp := h _ hr ⟨⟨560, 550⟩, ⟨10, 0⟩, 1, "red", 10⟩
    (by rw [lightFast_heavySlow_Update]; simp)
  norm_num at hp

theorem Update_velocity_abs (p : Particle) :
    |p.Update.velocity_.x| = |p.velocity_.x| ∧ |p.Update.velocity_.y| = |p.velocity_.y| := by
  constructor
  · rw [← sq_eq_sq_iff_abs_eq_abs]
    simp only [Particle.Update]
    rw [(checkYUpper_sq _ _ _).1, (checkXUpper_sq _ _ _).1, (checkYLower_sq _ _ _).1,
      (checkXLower_sq _ _ _).1]
  · rw [← sq_eq_sq_iff_abs_eq_abs]
    simp only [Particle.Update]
    rw [(checkYUpper_sq _ _ _).2, (checkXUpper_sq _ _ _).2, (checkYLower_sq _ _ _).2,
      (checkXLower_sq _ _ _).2]

theorem AddParticlesRandom_snd_of_ok (s : ParticleSimulator) (amount : ℕ) (radius mass : ℚ)
    (color : String) (positions : ℕ → ℕ × ℕ) (velocities : ℕ → ℚ × ℚ)
    (h : (s.AddParticlesRandom amount radius mass color positions velocities).1 =
      Except.ok ()) :
    (s.AddParticlesRandom amount radius mass color positions velocities).2.particles_ =
      s.particles_ ++ (List.range amount).map (fun k =>
        Particle.new ⟨((positions (0 + k)).1 : ℚ), ((positions (0 + k)).2 : ℚ)⟩
          ⟨(velocities (0 + k)).1, (velocities (0 + k)).2⟩ radius mass color) := by
  unfold ParticleSimulator.AddParticlesRandom at h ⊢
  by_cases hr : radius < 0.1
  · rw [if_pos hr] at h
    simp at h
  · rw [if_neg hr]
    simp only [emplaceRandomLoop_eq]

/-- C20, amended: in exact arithmetic, in every state reachable from an empty
simulator by successful `AddParticles` calls that give each velocity component a
magnitude of at most `radius / 2` and by `Update`s before which no pair
satisfies `CanCollide`, every particle has `|velocity.x| ≤ radius / 2` and
`|velocity.y| ≤ radius / 2`. -/
theorem CalmReachable_velocity_bound (s : ParticleSimulator) (h : CalmReachable s) :
    ∀ p ∈ s.particles_, |p.velocity_.x| ≤ p.radius_ / 2 ∧ |p.velocity_.y| ≤ p.radius_ / 2 := by
  induction h with
  | empty =>
    intro p hp
    simp at hp
  | addRandom s amount radius mass color positions velocities _ hd hok ih =>
    intro p hp
    rw [AddParticlesRandom_snd_of_ok s amount radius mass color positions velocities hok,
      List.mem_append] at hp
    rcases hp with hp | hp
    · exact ih p hp
    · simp only [List.mem_map, List.mem_range] at hp
      obtain ⟨k, hk, rfl⟩ := hp
      obtain ⟨_, _, ⟨hx1, hx2⟩, ⟨hy1, hy2⟩⟩ := hd k hk
      have hmin : (0 : ℚ) ≤ kMinimumVelocity := by norm_num [kMinimumVelocity]
      simp only [Particle.new, zero_add]
      rw [abs_of_nonneg (le_trans hmin hx1), abs_of_nonneg (le_trans hmin hy1)]
      exact ⟨hx2, hy2⟩
  | addExplicit s amount radius mass color x y vx vy _ hok hvx hvy ih =>
    intro p hp
    rw [AddParticlesExplicit_snd_of_ok s amount radius mass color x y vx vy hok] at hp
    simp only [emplaceLoop_eq, List.mem_append] at hp
    rcases hp with hp | hp
    · exact ih p hp
    · rw [List.eq_of_mem_replicate hp]
      exact ⟨hvx, hvy⟩
  | update s _ hnot ih =>
    intro p hp
    rw [Update_of_not s hnot, List.mem_map] at hp
    obtain ⟨q, hq, rfl⟩ := hp
    rw [(Update_velocity_abs q).1, (Update_velocity_abs q).2, Update_radius]
    exact ih q hq

theorem lightFast_calm : CalmReachable (ParticleSimulator.mk [lightFast]) := by
  have h1 := CalmReachable.addExplicit _ 1 10 1 "red" 550 550 (-5) 0 CalmReachable.empty
    lightFast_added.1 (by norm_num) (by norm_num)
  rw [lightFast_added.2] at h1
  exact h1

/-- Witness of the amended C20: the state after one compliant explicit spawn
and one `Update` without collision. -/
theorem CalmReachable_velocity_bound_witness :
    CalmReachable (ParticleSimulator.mk [lightFast]).Update ∧
      ∀ p ∈ (ParticleSimulator.mk [lightFast]).Update.particles_,
        |p.velocity_.x| ≤ p.radius_ / 2 ∧ |p.velocity_.y| ≤ p.radius_ / 2 := by
  have h : CalmReachable (ParticleSimulator.mk [lightFast]).Update :=
    CalmReachable.update _ lightFast_calm (by simp)
  exact ⟨h, CalmReachable_velocity_bound _ h⟩

/-- The explicit-position `AddParticles` accepts a velocity component of
`0.8 * radius`: radius 10 with velocity `(8, 0)` is spawned. -/
theorem explicit_spawn_above_half_radius :
    ((ParticleSimulator.mk []).AddParticlesExplicit 1 10 10 "red" 550 550 8 0).1 =
        Except.ok () ∧
      ((ParticleSimulator.mk []).AddParticlesExplicit 1 10 10 "red" 550 550 8 0).2.particles_ =
        [⟨⟨550, 550⟩, ⟨8, 0⟩, 10, "red", 10⟩] := by
  have hok : ((ParticleSimulator.mk []).AddParticlesExplicit 1 10 10 "red" 550 550 8 0).1 =
      Except.ok () := by
    rw [AddParticlesExplicit_fst, Validate_ok_iff]
    norm_num
  refine ⟨hok, ?_⟩
  rw [AddParticlesExplicit_snd_of_ok _ _ _ _ _ _ _ _ _ hok]
  simp [emplaceLoop, Particle.new]

/-! ## The interleaved loop and the two-phase step -/

theorem updateAt_length (l : List Particle) (k : ℕ) : (updateAt l k).length = l.length := by
  unfold updateAt
  split <;> simp

theorem updateAt_getElem?_ne (l : List Particle) {k i : ℕ} (h : k ≠ i) :
    (updateAt l k)[i]? = l[i]? := by
  unfold updateAt
  split
  · rw [List.getElem?_set_ne h]
  · rfl

theorem collideAt_getElem?_ne (l : List Particle) {i j k : ℕ} (hi : i ≠ k) (hj : j ≠ k) :
    (collideAt l i j)[k]? = l[k]? := by
  unfold collideAt
  split
  · split_ifs
    · rw [List.getElem?_set_ne hj, List.getElem?_set_ne hi]
    · rfl
  · rfl

theorem collideAt_updateAt_comm (l : List Particle) {i j k : ℕ} (hi : k ≠ i) (hj : k ≠ j) :
    collideAt (updateAt l k) i j = updateAt (collideAt l i j) k := by
  have hk : (collideAt l i j)[k]? = l[k]? := collideAt_getElem?_ne l (Ne.symm hi) (Ne.symm hj)
  have hi' : (updateAt l k)[i]? = l[i]? := updateAt_getElem?_ne l hi
  have hj' : (updateAt l k)[j]? = l[j]? := updateAt_getElem?_ne l hj
  cases hlk : l[k]? with
  | none =>
    have h1 : updateAt l k = l := by
      unfold updateAt
      rw [hlk]
    have h2 : updateAt (collideAt l i j) k = collideAt l i j := by
      unfold updateAt
      rw [hk, hlk]
    rw [h1, h2]
  | some p =>
    have h1 : updateAt l k = l.set k p.Update := by
      unfold updateAt
      rw [hlk]
    have h2 : updateAt (collideAt l i j) k = (collideAt l i j).set k p.Update := by
      unfold updateAt
      rw [hk, hlk]
    rw [h2]
    unfold collideAt
    rw [hi', hj', h1]
    cases hli : l[i]? with
    | none => rfl
    | some a =>
      cases hlj : l[j]? with
      | none => rfl
      | some b =>
        simp only
        split_ifs
        · rw [List.set_comm _ _ _ hi, List.set_comm _ _ _ hj]
        · rfl

theorem innerLoop_updateAt_comm (i k : ℕ) (hik : k ≠ i) :
    ∀ (n j : ℕ) (l : List Particle), k < j →
      innerLoop i n j (updateAt l k) = updateAt (innerLoop i n j l) k := by
  intro n
  induction n with
  | zero => intro j l _; rfl
  | succ n ih =>
    intro j l hkj
    simp only [innerLoop]
    rw [collideAt_updateAt_comm l hik (Nat.ne_of_lt hkj)]
    exact ih (j + 1) (collideAt l i j) (by omega)

theorem scanLoop_updateAt_comm (k : ℕ) :
    ∀ (n i : ℕ) (l : List Particle), k < i →
      scanLoop n i (updateAt l k) = updateAt (scanLoop n i l) k := by
  intro n
  induction n with
  | zero => intro i l _; rfl
  | succ n ih =>
    intro i l hki
    simp only [scanLoop]
    rw [updateAt_length, innerLoop_updateAt_comm i k (Nat.ne_of_lt hki) _ _ _ (by omega)]
    exact ih (i + 1) _ (by omega)

theorem outerLoop_eq_two_phase :
    ∀ (n i : ℕ) (l : List Particle),
      outerLoop n i l = integrateLoop n i (scanLoop n i l) := by
  intro n
  induction n with
  | zero => intro i l; rfl
  | succ n ih =>
    intro i l
    simp only [outerLoop, scanLoop, integrateLoop]
    rw [ih, scanLoop_updateAt_comm i n (i + 1) _ (by omega)]

/-- C28: for every population the interleaved loop of
`ParticleSimulator::Update` ends in exactly the population of the two-phase
step of the specification: the whole scan of the pairs `(i, j)`, `i < j`, in
lexicographic order with `Collide` where `CanCollide` holds, and then
`Particle::Update` on every particle in index order. -/
theorem Update_eq_UpdateTwoPhase (s : ParticleSimulator) :
    s.Update = s.UpdateTwoPhase := by
  unfold ParticleSimulator.Update ParticleSimulator.UpdateTwoPhase resolveCollisions
  rw [outerLoop_eq_two_phase]

theorem innerLoop_length (i : ℕ) :
    ∀ (n j : ℕ) (l : List Particle), (innerLoop i n j l).length = l.length := by
  intro n
  induction n with
  | zero => intro j l; rfl
  | succ n ih =>
    intro j l
    simp only [innerLoop]
    rw [ih, collideAt_length]

theorem scanLoop_length :
    ∀ (n i : ℕ) (l : List Particle), (scanLoop n i l).length = l.length := by
  intro n
  induction n with
  | zero => intro i l; rfl
  | succ n ih =>
    intro i l
    simp only [scanLoop]
    rw [ih, innerLoop_length]

theorem integrateLoop_append :
    ∀ (todo done : List Particle),
      integrateLoop todo.length done.length (done ++ todo) =
        done ++ todo.map Particle.Update := by
  intro todo
  induction todo with
  | nil => intro done; simp [integrateLoop]
  | cons t ts ih =>
    intro done
    simp only [List.length_cons, integrateLoop]
    rw [updateAt_append]
    have h := ih (done ++ [t.Update])
    simp only [List.length_append, List.length_singleton, List.append_assoc,
      List.singleton_append] at h
    rw [h]
    simp

theorem Update_eq_map_resolve (s : ParticleSimulator) :
    s.Update.particles_ = (resolveCollisions s.particles_).map Particle.Update := by
  unfold ParticleSimulator.Update
  simp only
  rw [outerLoop_eq_two_phase]
  have hlen : s.particles_.length = (scanLoop s.particles_.length 0 s.particles_).length :=
    (scanLoop_length _ _ _).symm
  have h := integrateLoop_append (scanLoop s.particles_.length 0 s.particles_) []
  simp only [List.length_nil, List.nil_append] at h
  unfold resolveCollisions
  rw [← h, ← hlen]

/-! ## Signed momentum of an equal-mass population -/

theorem collideAt_mass_inv (P : ℚ → Prop) (l : List Particle) (i j : ℕ)
    (h : ∀ p ∈ l, P p.mass_) : ∀ p ∈ collideAt l i j, P p.mass_ := by
  unfold collideAt
  split
  · rename_i a b hi hj
    split_ifs
    · intro p hp
      rcases List.mem_or_eq_of_mem_set hp with hp1 | rfl
      · rcases List.mem_or_eq_of_mem_set hp1 with hp2 | rfl
        · exact h p hp2
        · rw [(Collide_fst_fields a b).2.1]
          exact h a (List.getElem?_mem hi)
      · rw [(Collide_snd_fields a b).2.1]
        exact h b (List.getElem?_mem hj)
    · exact h
  · exact h

theorem Update_singleton (p : Particle) :
    (ParticleSimulator.mk [p]).Update.particles_ = [p.Update] := by
  simp [ParticleSimulator.Update, outerLoop, innerLoop, updateAt]

theorem resolveCollisions_pair (a b : Particle) (hc : CanCollide a b = true) :
    resolveCollisions [a, b] = [(Collide a b).1, (Collide a b).2] := by
  simp [resolveCollisions, scanLoop, innerLoop, collideAt, hc]

theorem headOn_no_bounce :
    ∀ p ∈ resolveCollisions (ParticleSimulator.mk [headOnRight, headOnLeft]).particles_,
      p.Update.velocity_ = p.velocity_ := by
  intro p hp
  rw [resolveCollisions_pair _ _ headOn_CanCollide, headOn_Collide] at hp
  simp only [List.mem_cons, List.mem_singleton, List.not_mem_nil, or_false] at hp
  rcases hp with rfl | rfl
  · simp [Particle.Update, Vec2.add, checkXLower, checkYLower, checkXUpper, checkYUpper,
      kXUpperBound_cast, kXLowerBound_cast]
    norm_num
  · simp [Particle.Update, Vec2.add, checkXLower, checkYLower, checkXUpper, checkYUpper,
      kXUpperBound_cast, kXLowerBound_cast]
    norm_num

theorem dot_sub_add (u x v y w : Vec2) :
    dot u (Vec2.sub (Vec2.add x v) (Vec2.add y w)) =
      dot u (Vec2.sub x y) + dot u (Vec2.sub v w) := by
  simp only [dot, Vec2.sub, Vec2.add]
  ring

theorem Update_position_eq (p : Particle) :
    p.Update.position_ = Vec2.add p.position_ p.velocity_ := by
  simp [Particle.Update]

theorem CanCollide_after_tick (a b : Particle)
    (hc : CanCollide a b = true) (hm : a.mass_ + b.mass_ ≠ 0)
    (hwa : (Collide a b).1.Update.velocity_ = (Collide a b).1.velocity_)
    (hwb : (Collide a b).2.Update.velocity_ = (Collide a b).2.velocity_) :
    CanCollide (Collide a b).1.Update (Collide a b).2.Update = false := by
  have happ := CanCollide_approaching hc
  have hrel := Collide_relative_velocity a b (CanCollide_distinct_centres hc) hm
  have hsq := lengthSq_nonneg
    (Vec2.sub (Collide a b).1.velocity_ (Collide a b).2.velocity_)
  have hdot : ¬ dot (Vec2.sub (Collide a b).1.Update.velocity_ (Collide a b).2.Update.velocity_)
      (Vec2.sub (Collide a b).1.Update.position_ (Collide a b).2.Update.position_) < 0 := by
    rw [hwa, hwb, Update_position_eq, Update_position_eq, (Collide_fst_fields a b).1,
      (Collide_snd_fields a b).1, dot_sub_add, hrel]
    unfold lengthSq at hsq
    linarith
  unfold CanCollide
  simp [hdot]

/-- C27 (no sticking across a tick), amended: in exact arithmetic, in a
simulator of two particles that satisfy `CanCollide` (with `m1 + m2 ≠ 0`, so
that the quotients of `Collide` exist), if no wall check changes either
velocity during the tick, then after
one `Update` the pair fails `CanCollide`, the next `Update` performs no
collision (it is `Particle::Update` on each particle) and, absent wall contact
in that second tick, it leaves both velocities as the first `Update` left
them. -/
theorem Update_no_sticking_across_tick (a b : Particle)
    (hc : CanCollide a b = true) (hm : a.mass_ + b.mass_ ≠ 0)
    (hwa : (Collide a b).1.Update.velocity_ = (Collide a b).1.velocity_)
    (hwb : (Collide a b).2.Update.velocity_ = (Collide a b).2.velocity_) :
    ∃ a1 b1 : Particle,
      (ParticleSimulator.mk [a, b]).Update.particles_ = [a1, b1] ∧
      CanCollide a1 b1 = false ∧
      (ParticleSimulator.mk [a, b]).Update.Update.particles_ = [a1.Update, b1.Update] ∧
      (a1.Update.velocity_ = a1.velocity_ → b1.Update.velocity_ = b1.velocity_ →
        ∃ a2 b2 : Particle,
          (ParticleSimulator.mk [a, b]).Update.Update.particles_ = [a2, b2] ∧
          a2.velocity_ = a1.velocity_ ∧ b2.velocity_ = b1.velocity_) := by
  have h1 := Update_pair a b hc
  have h2 := CanCollide_after_tick a b hc hm hwa hwb
  have h3 : (ParticleSimulator.mk [a, b]).Update.Update.particles_ =
      [(Collide a b).1.Update.Update, (Collide a b).2.Update.Update] := by
    rw [Update_of_not _ (by rw [h1]; simp [h2]), h1]
    rfl
  exact ⟨_, _, h1, h2, h3, fun ha hb => ⟨_, _, h3, ha, hb⟩⟩

theorem headOn_mass_ne_zero : headOnRight.mass_ + headOnLeft.mass_ ≠ 0 := by
  norm_num [headOnRight, headOnLeft]

theorem headOn_fst_no_bounce :
    (Collide headOnRight headOnLeft).1.Update.velocity_ =
      (Collide headOnRight headOnLeft).1.velocity_ :=
  headOn_no_bounce _ (by rw [resolveCollisions_pair _ _ headOn_CanCollide]; simp)

theorem headOn_snd_no_bounce :
    (Collide headOnRight headOnLeft).2.Update.velocity_ =
      (Collide headOnRight headOnLeft).2.velocity_ :=
  headOn_no_bounce _ (by rw [resolveCollisions_pair _ _ headOn_CanCollide]; simp)

/-- Witness of the amended C27, "Particles should not stick together after collision": the
head-on pair of the equal-mass test, which no longer satisfies `CanCollide`
after its tick. -/
theorem Update_no_sticking_across_tick_witness :
    CanCollide headOnRight headOnLeft = true ∧
      headOnRight.mass_ + headOnLeft.mass_ ≠ 0 ∧
      (Collide headOnRight headOnLeft).1.Update.velocity_ =
        (Collide headOnRight headOnLeft).1.velocity_ ∧
      (Collide headOnRight headOnLeft).2.Update.velocity_ =
        (Collide headOnRight headOnLeft).2.velocity_ ∧
      ∃ a1 b1 : Particle,
        (ParticleSimulator.mk [headOnRight, headOnLeft]).Update.particles_ = [a1, b1] ∧
        CanCollide a1 b1 = false := by
  obtain ⟨a1, b1, h1, h2, _⟩ := Update_no_sticking_across_tick headOnRight headOnLeft
    headOn_CanCollide headOn_mass_ne_zero headOn_fst_no_bounce headOn_snd_no_bounce
  exact ⟨headOn_CanCollide, headOn_mass_ne_zero, headOn_fst_no_bounce, headOn_snd_no_bounce,
    a1, b1, h1, h2⟩

/-! ## SpeedUp and SlowDown -/

/-- C23 at the particle of radius 10 with velocity `(4.75, 0)`: both
components are within `radius / 2 = 5` before the call, and `Particle::SpeedUp`
returns the velocity `(5.25, 0.5)`, whose x-component exceeds 5.  The guard
`velocity_.x < radius_ / 2` is tested before the increment of 0.5 and nothing
clamps the sum. -/
theorem SpeedUp_exceeds_half_radius :
    |nearLimitParticle.velocity_.x| ≤ nearLimitParticle.radius_ / 2 ∧
      |nearLimitParticle.velocity_.y| ≤ nearLimitParticle.radius_ / 2 ∧
      nearLimitParticle.SpeedUp.velocity_ = ⟨5.25, 0.5⟩ ∧
      ¬ |nearLimitParticle.SpeedUp.velocity_.x| ≤ nearLimitParticle.SpeedUp.radius_ / 2 := by
  have hv : nearLimitParticle.SpeedUp.velocity_ = ⟨5.25, 0.5⟩ := by
    simp [Particle.SpeedUp, nearLimitParticle]
    norm_num
  have hr : nearLimitParticle.SpeedUp.radius_ = 10 := by
    simp [Particle.SpeedUp, nearLimitParticle]
  refine ⟨?_, ?_, hv, ?_⟩
  · norm_num [nearLimitParticle, abs_of_nonneg]
  · norm_num [nearLimitParticle]
  · rw [hv, hr]
    norm_num [abs_of_nonneg]

/-- C24 at the particle with velocity `(0.125, 0)`: the x-component is
positive with a magnitude below the decrement 0.5, and `Particle::SlowDown`
returns `-0.375`: the component is not left unchanged, it changes sign and its
magnitude grows.  The guard is `velocity_.x > 0` only. -/
theorem SlowDown_crosses_zero :
    0 < crawlingParticle.velocity_.x ∧ |crawlingParticle.velocity_.x| < 0.5 ∧
      crawlingParticle.SlowDown.velocity_.x = -0.375 ∧
      crawlingParticle.SlowDown.velocity_.x < 0 ∧
      |crawlingParticle.velocity_.x| < |crawlingParticle.SlowDown.velocity_.x| := by
  have hv : crawlingParticle.SlowDown.velocity_.x = -0.375 := by
    simp [Particle.SlowDown, crawlingParticle]
    norm_num
  refine ⟨?_, ?_, hv, ?_, ?_⟩
  · norm_num [crawlingParticle]
  · norm_num [crawlingParticle, abs_of_nonneg]
  · rw [hv]
    norm_num
  · rw [hv]
    norm_num [crawlingParticle, abs_of_nonneg, abs_of_neg]

/-! ## The velocity range of the random spawn -/

/-- C30 at the radius 0.5: the random-spawn `AddParticles` accepts it (it
throws only below 0.1), while the range `[kMinimumVelocity, radius / 2]` it
requests from the generator is `[0.5, 0.25]`, which is empty, so no draw lies in
it. -/
theorem AddParticlesRandom_empty_velocity_range :
    (∀ (positions : ℕ → ℕ × ℕ) (velocities : ℕ → ℚ × ℚ),
        ((ParticleSimulator.mk []).AddParticlesRandom 1 0.5 10 "red" positions velocities).1 =
          Except.ok ()) ∧
      ¬ kMinimumVelocity ≤ (0.5 : ℚ) / 2 ∧
      (∀ v : ℚ, ¬ (kMinimumVelocity ≤ v ∧ v ≤ (0.5 : ℚ) / 2)) ∧
      ∀ (positions : ℕ → ℕ × ℕ) (velocities : ℕ → ℚ × ℚ),
        ¬ ValidDraws 1 0.5 positions velocities := by
  refine ⟨?_, ?_, ?_, ?_⟩
  · intro positions velocities
    have h : ¬ ((0.5 : ℚ) < 0.1) := by norm_num
    simp only [ParticleSimulator.AddParticlesRandom, if_neg h]
  · norm_num [kMinimumVelocity]
  · intro v hv
    have h1 := hv.1
    have h2 := hv.2
    simp only [kMinimumVelocity] at h1
    norm_num at h1 h2
    linarith
  · intro positions velocities hd
    obtain ⟨_, _, ⟨h1, h2⟩, _⟩ := hd 0 (by norm_num)
    simp only [kMinimumVelocity] at h1
    norm_num at h1 h2
    linarith

/-! ## Histogram: the particles of one mass -/

theorem copy_if_eq (pred : Particle → Bool) :
    ∀ (l out : List Particle), copy_if pred l out = out ++ l.filter pred := by
  intro l
  induction l with
  | nil => intro out; simp [copy_if]
  | cons p rest ih =>
    intro out
    simp only [copy_if]
    rw [ih]
    by_cases hp : pred p = true
    · simp [hp, List.filter_cons]
    · simp [hp, List.filter_cons]

theorem FindAllParticlesWithMass_eq_filter (h : Histogram) (particles : List Particle) :
    h.FindAllParticlesWithMass particles =
      particles.filter (fun p => decide (p.mass_ = h.mass_)) := by
  unfold Histogram.FindAllParticlesWithMass
  rw [copy_if_eq]
  simp

/-- C25: `Histogram::FindAllParticlesWithMass` returns exactly the particles
whose mass equals the histogram's mass, in their original order (a sublist of
the input that keeps all of them and nothing else); appending particles of
another mass changes neither the result nor the bins filled from it, and
appending `n` particles of the histogram's mass lengthens the result by `n`. -/
theorem FindAllParticlesWithMass_spec (h : Histogram) (particles : List Particle) :
    (h.FindAllParticlesWithMass particles =
        particles.filter (fun p => decide (p.mass_ = h.mass_)) ∧
      (h.FindAllParticlesWithMass particles).Sublist particles ∧
      (∀ p, p ∈ h.FindAllParticlesWithMass particles ↔ p ∈ particles ∧ p.mass_ = h.mass_)) ∧
    (∀ extra : List Particle, (∀ p ∈ extra, p.mass_ ≠ h.mass_) →
      h.FindAllParticlesWithMass (particles ++ extra) = h.FindAllParticlesWithMass particles ∧
      (h.FillBins (h.FindAllParticlesWithMass (particles ++ extra))).bins_ =
        (h.FillBins (h.FindAllParticlesWithMass particles)).bins_) ∧
    (∀ extra : List Particle, (∀ p ∈ extra, p.mass_ = h.mass_) →
      h.FindAllParticlesWithMass (particles ++ extra) =
          h.FindAllParticlesWithMass particles ++ extra ∧
        (h.FindAllParticlesWithMass (particles ++ extra)).length =
          (h.FindAllParticlesWithMass particles).length + extra.length) := by
  refine ⟨⟨FindAllParticlesWithMass_eq_filter h particles, ?_, ?_⟩, ?_, ?_⟩
  · rw [FindAllParticlesWithMass_eq_filter]
    exact List.filter_sublist particles
  · intro p
    rw [FindAllParticlesWithMass_eq_filter]
    simp [List.mem_filter]
  · intro extra hne
    have he : h.FindAllParticlesWithMass (particles ++ extra) =
        h.FindAllParticlesWithMass particles := by
      rw [FindAllParticlesWithMass_eq_filter, FindAllParticlesWithMass_eq_filter,
        List.filter_append]
      have : extra.filter (fun p => decide (p.mass_ = h.mass_)) = [] := by
        rw [List.filter_eq_nil_iff]
        intro p hp
        simpa using hne p hp
      rw [this, List.append_nil]
    exact ⟨he, by rw [he]⟩
  · intro extra heq
    have he : h.FindAllParticlesWithMass (particles ++ extra) =
        h.FindAllParticlesWithMass particles ++ extra := by
      rw [FindAllParticlesWithMass_eq_filter, FindAllParticlesWithMass_eq_filter,
        List.filter_append]
      have : extra.filter (fun p => decide (p.mass_ = h.mass_)) = extra := by
        rw [List.filter_eq_self]
        intro p hp
        simpa using heq p hp
      rw [this]
    exact ⟨he, by rw [he, List.length_append]⟩

/-! ## Histogram: the bins -/

theorem lengthLt_iff_sqrt_lt (v : Vec2) (b : ℚ) :
    lengthLt v b = true ↔ Real.sqrt (((lengthSq v : ℚ) : ℝ)) < ((b : ℚ) : ℝ) := by
  unfold lengthLt
  rw [decide_eq_true_iff]
  constructor
  · rintro ⟨hb, hlt⟩
    have hb' : (0 : ℝ) < (b : ℝ) := by exact_mod_cast hb
    rw [Real.sqrt_lt' hb']
    have : ((lengthSq v : ℚ) : ℝ) < ((b * b : ℚ) : ℝ) := by exact_mod_cast hlt
    simpa [pow_two] using this
  · intro h
    have hb' : (0 : ℝ) < (b : ℝ) := lt_of_le_of_lt (Real.sqrt_nonneg _) h
    have hb : 0 < b := by exact_mod_cast hb'
    refine ⟨hb, ?_⟩
    rw [Real.sqrt_lt' hb'] at h
    have h2 : ((lengthSq v : ℚ) : ℝ) < ((b * b : ℚ) : ℝ) := by
      simpa [pow_two] using h
    exact_mod_cast h2

theorem lengthGe_iff_le_sqrt (v : Vec2) (a : ℚ) :
    lengthGe v a = true ↔ ((a : ℚ) : ℝ) ≤ Real.sqrt (((lengthSq v : ℚ) : ℝ)) := by
  unfold lengthGe
  rw [decide_eq_true_iff]
  by_cases ha : a ≤ 0
  · have ha' : ((a : ℚ) : ℝ) ≤ 0 := by exact_mod_cast ha
    constructor
    · intro _
      exact le_trans ha' (Real.sqrt_nonneg _)
    · intro _
      exact Or.inl ha
  · have hpos : 0 < a := lt_of_not_ge ha
    have hpos' : (0 : ℝ) < ((a : ℚ) : ℝ) := by exact_mod_cast hpos
    rw [Real.le_sqrt' hpos']
    constructor
    · rintro (h | h)
      · exact absurd h ha
      · have : ((a * a : ℚ) : ℝ) ≤ ((lengthSq v : ℚ) : ℝ) := by exact_mod_cast h
        simpa [pow_two] using this
    · intro h
      right
      have h2 : ((a * a : ℚ) : ℝ) ≤ ((lengthSq v : ℚ) : ℝ) := by
        simpa [pow_two] using h
      exact_mod_cast h2

theorem countInSpeedRange_eq (min_speed max_speed : ℚ) :
    ∀ (l : List Particle) (count : ℕ),
      Histogram.countInSpeedRange min_speed max_speed l count =
        count + l.countP (fun p =>
          lengthGe p.velocity_ min_speed && lengthLt p.velocity_ max_speed) := by
  intro l
  induction l with
  | nil => intro count; simp [Histogram.countInSpeedRange]
  | cons p rest ih =>
    intro count
    simp only [Histogram.countInSpeedRange]
    rw [ih, List.countP_cons]
    split_ifs <;> omega

theorem FindAllParticlesInSpeedRange_eq (particles : List Particle) (min_speed max_speed : ℚ) :
    Histogram.FindAllParticlesInSpeedRange particles min_speed max_speed =
      particles.countP (fun p =>
        lengthGe p.velocity_ min_speed && lengthLt p.velocity_ max_speed) := by
  unfold Histogram.FindAllParticlesInSpeedRange
  rw [countInSpeedRange_eq, Nat.zero_add]

theorem take_succ_set (c : ℕ) :
    ∀ (l : List ℕ) (k : ℕ), k < l.length → (l.set k c).take (k + 1) = l.take k ++ [c] := by
  intro l
  induction l with
  | nil => intro k hk; simp at hk
  | cons a t ih =>
    intro k hk
    cases k with
    | zero => simp
    | succ k =>
      simp only [List.length_cons, Nat.add_lt_add_iff_right] at hk
      simp [ih k hk]

theorem fillBinsLoop_eq (particles : List Particle) :
    ∀ (d k : ℕ) (bins : List ℕ), k + d = 10 → bins.length = 10 →
      Histogram.fillBinsLoop particles 5 (5 * (k : ℚ)) k bins =
        bins.take k ++ (List.range' k d).map (fun (i : ℕ) =>
          Histogram.FindAllParticlesInSpeedRange particles (5 * (i : ℚ)) (5 * (i : ℚ) + 5)) := by
  intro d
  induction d with
  | zero =>
    intro k bins hk hlen
    have hk10 : k = 10 := by omega
    subst hk10
    rw [Histogram.fillBinsLoop]
    have hg : ¬ ((5 * ((10 : ℕ) : ℚ) < (Histogram.kMaxSpeed : ℚ)) ∧
        10 < Histogram.kNumberOfPartitions) := by
      norm_num [Histogram.kNumberOfPartitions]
    rw [dif_neg hg]
    simp [List.take_of_length_le (le_of_eq hlen)]
  | succ d ih =>
    intro k bins hk hlen
    have hk10 : k < 10 := by omega
    rw [Histogram.fillBinsLoop]
    have hg : (5 * (k : ℚ) < (Histogram.kMaxSpeed : ℚ)) ∧ k < Histogram.kNumberOfPartitions := by
      constructor
      · have : (k : ℚ) < 10 := by exact_mod_cast hk10
        norm_num [Histogram.kMaxSpeed]
        linarith
      · exact hk10
    rw [dif_pos hg]
    simp only
    have hcast : 5 * (k : ℚ) + 5 = 5 * ((k + 1 : ℕ) : ℚ) := by
      push_cast
      ring
    rw [hcast, ih (k + 1) _ (by omega) (by rw [List.length_set]; exact hlen),
      take_succ_set _ bins k (by omega), List.range'_succ, List.map_cons, ← hcast,
      List.append_assoc, List.singleton_append]

/-- C26, amended: in exact arithmetic, for every particle list, after
`Histogram::FillBins` bin `k` (`k = 0..9`) holds the number of particles whose
speed `s`, the length of the velocity, satisfies `5 k ≤ s < 5 k + 5`, whatever
the ten bins held before. -/
theorem FillBins_counts (h : Histogram) (particles : List Particle)
    (hlen : h.bins_.length = 10) :
    (h.FillBins particles).bins_ =
        (List.range 10).map (fun (k : ℕ) => particles.countP (fun p =>
          lengthGe p.velocity_ (5 * (k : ℚ)) && lengthLt p.velocity_ (5 * (k : ℚ) + 5))) ∧
      ∀ (p : Particle) (k : ℕ),
        (lengthGe p.velocity_ (5 * (k : ℚ)) && lengthLt p.velocity_ (5 * (k : ℚ) + 5)) = true ↔
          (5 * (k : ℝ) ≤ Real.sqrt (((p.velocity_.x : ℚ) : ℝ) ^ 2 + ((p.velocity_.y : ℚ) : ℝ) ^ 2) ∧
            Real.sqrt (((p.velocity_.x : ℚ) : ℝ) ^ 2 + ((p.velocity_.y : ℚ) : ℝ) ^ 2) <
              5 * (k : ℝ) + 5) := by
  constructor
  · have hsr : (((Histogram.kMaxSpeed / Histogram.kNumberOfPartitions : ℕ)) : ℚ) = 5 := by
      norm_num [Histogram.kMaxSpeed, Histogram.kNumberOfPartitions]
    have h0 := fillBinsLoop_eq particles 10 0 h.bins_ (by norm_num) hlen
    simp only [Nat.cast_zero, mul_zero, List.take_zero, List.nil_append] at h0
    simp only [Histogram.FillBins, hsr]
    rw [h0, List.range_eq_range']
    apply List.map_congr_left
    intro k _
    exact FindAllParticlesInSpeedRange_eq particles _ _
  · intro p k
    have hs : (((lengthSq p.velocity_ : ℚ)) : ℝ) =
        ((p.velocity_.x : ℚ) : ℝ) ^ 2 + ((p.velocity_.y : ℚ) : ℝ) ^ 2 := by
      simp only [lengthSq, dot]
      push_cast
      ring
    rw [Bool.and_eq_true, lengthGe_iff_le_sqrt, lengthLt_iff_sqrt_lt, hs]
    push_cast
    rfl

/-- Witness of the amended C26: a fresh histogram filled from particles with the speeds 6,
17, 25 and 5 counts them in the bins 1, 3, 5 and 1. -/
theorem FillBins_counts_witness :
    (Histogram.new 10).bins_.length = 10 ∧
      ((Histogram.new 10).FillBins histogramParticles).bins_ = [0, 2, 0, 1, 0, 1, 0, 0, 0, 0] := by
  have hlen : (Histogram.new 10).bins_.length = 10 := by
    simp [Histogram.new, Histogram.kNumberOfPartitions]
  refine ⟨hlen, ?_⟩
  rw [(FillBins_counts (Histogram.new 10) histogramParticles hlen).1]
  simp [List.range, List.range.loop, histogramParticles, List.countP_cons, lengthGe, lengthLt,
    lengthSq, dot]
  norm_num

/-! ## Division safety of the resolution -/

theorem collideAtLog_fst (l : List Particle) (i j : ℕ) (calls : List (Particle × Particle)) :
    (collideAtLog l i j calls).1 = collideAt l i j := by
  unfold collideAtLog collideAt
  split
  · split_ifs <;> rfl
  · rfl

theorem innerLoopLog_fst (i : ℕ) :
    ∀ (n j : ℕ) (state : List Particle × List (Particle × Particle)),
      (innerLoopLog i n j state).1 = innerLoop i n j state.1 := by
  intro n
  induction n with
  | zero => intro j state; rfl
  | succ n ih =>
    intro j state
    simp only [innerLoopLog, innerLoop]
    rw [ih, collideAtLog_fst]

theorem outerLoopLog_fst :
    ∀ (n i : ℕ) (state : List Particle × List (Particle × Particle)),
      (outerLoopLog n i state).1 = outerLoop n i state.1 := by
  intro n
  induction n with
  | zero => intro i state; rfl
  | succ n ih =>
    intro i state
    simp only [outerLoopLog, outerLoop]
    rw [ih, innerLoopLog_fst]

theorem updateAt_mass_inv (P : ℚ → Prop) (l : List Particle) (i : ℕ)
    (h : ∀ p ∈ l, P p.mass_) : ∀ p ∈ updateAt l i, P p.mass_ := by
  unfold updateAt
  split
  · rename_i a hi
    intro p hp
    rcases List.mem_or_eq_of_mem_set hp with hp1 | rfl
    · exact h p hp1
    · rw [Update_mass]
      exact h a (List.getElem?_mem hi)
  · exact h

theorem innerLoop_mass_inv (P : ℚ → Prop) (i : ℕ) :
    ∀ (n j : ℕ) (l : List Particle), (∀ p ∈ l, P p.mass_) →
      ∀ p ∈ innerLoop i n j l, P p.mass_ := by
  intro n
  induction n with
  | zero => intro j l h; exact h
  | succ n ih =>
    intro j l h
    simp only [innerLoop]
    exact ih (j + 1) _ (collideAt_mass_inv P l i j h)

theorem collideAtLog_calls (P : ℚ → Prop) (l : List Particle) (i j : ℕ)
    (calls : List (Particle × Particle)) (h : ∀ p ∈ l, P p.mass_)
    (hc : ∀ c ∈ calls, CanCollide c.1 c.2 = true ∧ P c.1.mass_ ∧ P c.2.mass_) :
    ∀ c ∈ (collideAtLog l i j calls).2,
      CanCollide c.1 c.2 = true ∧ P c.1.mass_ ∧ P c.2.mass_ := by
  unfold collideAtLog
  split
  · rename_i a b hi hj
    split_ifs with hab
    · intro c hcm
      simp only [List.mem_append, List.mem_singleton] at hcm
      rcases hcm with hcm | rfl
      · exact hc c hcm
      · exact ⟨hab, h a (List.getElem?_mem hi), h b (List.getElem?_mem hj)⟩
    · exact hc
  · exact hc

theorem innerLoopLog_calls (P : ℚ → Prop) (i : ℕ) :
    ∀ (n j : ℕ) (state : List Particle × List (Particle × Particle)),
      (∀ p ∈ state.1, P p.mass_) →
      (∀ c ∈ state.2, CanCollide c.1 c.2 = true ∧ P c.1.mass_ ∧ P c.2.mass_) →
      ∀ c ∈ (innerLoopLog i n j state).2,
        CanCollide c.1 c.2 = true ∧ P c.1.mass_ ∧ P c.2.mass_ := by
  intro n
  induction n with
  | zero => intro j state _ hc; exact hc
  | succ n ih =>
    intro j state h hc
    simp only [innerLoopLog]
    apply ih
    · rw [collideAtLog_fst]
      exact collideAt_mass_inv P state.1 i j h
    · exact collideAtLog_calls P state.1 i j state.2 h hc

theorem outerLoopLog_calls (P : ℚ → Prop) :
    ∀ (n i : ℕ) (state : List Particle × List (Particle × Particle)),
      (∀ p ∈ state.1, P p.mass_) →
      (∀ c ∈ state.2, CanCollide c.1 c.2 = true ∧ P c.1.mass_ ∧ P c.2.mass_) →
      ∀ c ∈ (outerLoopLog n i state).2,
        CanCollide c.1 c.2 = true ∧ P c.1.mass_ ∧ P c.2.mass_ := by
  intro n
  induction n with
  | zero => intro i state _ hc; exact hc
  | succ n ih =>
    intro i state h hc
    simp only [outerLoopLog]
    apply ih
    · simp only
      apply updateAt_mass_inv
      rw [innerLoopLog_fst]
      exact innerLoop_mass_inv P i _ _ state.1 h
    · exact innerLoopLog_calls P i _ _ state h hc

theorem lengthSq_sub_pos {a b : Vec2} (h : a ≠ b) : 0 < lengthSq (Vec2.sub a b) := by
  have hne := lengthSq_sub_ne_zero h
  have hnn := lengthSq_nonneg (Vec2.sub a b)
  have heq : lengthSq (Vec2.sub a b) = (a.x - b.x) ^ 2 + (a.y - b.y) ^ 2 := by
    simp only [lengthSq, dot, Vec2.sub]
    ring
  rw [heq] at hnn ⊢
  exact lt_of_le_of_ne hnn (Ne.symm hne)

theorem mass_sum_ne_zero {m1 m2 : ℚ} (h1 : 0.1 ≤ m1) (h2 : 0.1 ≤ m2) : m1 + m2 ≠ 0 := by
  intro h
  norm_num at h1 h2
  linarith

/-- C29 (division safety of the resolution): a pair on which `CanCollide` is
true has distinct centres, so both squared centre distances `Collide` divides
by are strictly positive; masses that are both at least 0.1 have a non-zero
sum; hence, in a population whose masses are all at least 0.1, every `Collide`
call made by `Update` has non-zero divisors.  The last part is stated on the
record of the calls, whose run ends in the state of `Update`. -/
theorem Collide_division_safe :
    (∀ p1 p2 : Particle, CanCollide p1 p2 = true →
      p1.position_ ≠ p2.position_ ∧
        0 < lengthSq (Vec2.sub p1.position_ p2.position_) ∧
        0 < lengthSq (Vec2.sub p2.position_ p1.position_)) ∧
    (∀ p1 p2 : Particle, 0.1 ≤ p1.mass_ → 0.1 ≤ p2.mass_ → p1.mass_ + p2.mass_ ≠ 0) ∧
    (∀ s : ParticleSimulator, (∀ p ∈ s.particles_, 0.1 ≤ p.mass_) →
      ∀ c ∈ s.collideCalls,
        0 < lengthSq (Vec2.sub c.1.position_ c.2.position_) ∧
          0 < lengthSq (Vec2.sub c.2.position_ c.1.position_) ∧
          c.1.mass_ + c.2.mass_ ≠ 0) ∧
    (∀ s : ParticleSimulator,
      (outerLoopLog s.particles_.length 0 (s.particles_, [])).1 = s.Update.particles_) := by
  refine ⟨?_, ?_, ?_, ?_⟩
  · intro p1 p2 hc
    have hne := CanCollide_distinct_centres hc
    exact ⟨hne, lengthSq_sub_pos hne, lengthSq_sub_pos (Ne.symm hne)⟩
  · intro p1 p2 h1 h2
    exact mass_sum_ne_zero h1 h2
  · intro s hs c hc
    have h := outerLoopLog_calls (fun m => 0.1 ≤ m) s.particles_.length 0 (s.particles_, [])
      hs (by intro c hc; simp at hc) c hc
    have hne := CanCollide_distinct_centres h.1
    exact ⟨lengthSq_sub_pos hne, lengthSq_sub_pos (Ne.symm hne), mass_sum_ne_zero h.2.1 h.2.2⟩
  · intro s
    rw [outerLoopLog_fst]
    rfl

theorem headOn_collideCalls :
    (ParticleSimulator.mk [headOnRight, headOnLeft]).collideCalls =
      [(headOnRight, headOnLeft)] := by
  simp [ParticleSimulator.collideCalls, outerLoopLog, innerLoopLog, collideAtLog,
    headOn_CanCollide]

/-! ## Wall containment -/

theorem cornerSpawn_added :
    ((ParticleSimulator.mk []).AddParticlesExplicit 1 10 10 "red" 450 80 1 1).1 =
        Except.ok () ∧
      ((ParticleSimulator.mk []).AddParticlesExplicit 1 10 10 "red" 450 80 1 1).2 =
        ParticleSimulator.mk [cornerSpawn] := by
  have hok : ((ParticleSimulator.mk []).AddParticlesExplicit 1 10 10 "red" 450 80 1 1).1 =
      Except.ok () := by
    rw [AddParticlesExplicit_fst, Validate_ok_iff]
    norm_num
  refine ⟨hok, ?_⟩
  rw [AddParticlesExplicit_snd_of_ok _ _ _ _ _ _ _ _ _ hok]
  simp [emplaceLoop, Particle.new, cornerSpawn]

/-- In exact arithmetic as well the containment fails right after a spawn: the
explicit-position `AddParticles(1, 10, 10, "red", 450, 80, 1, 1)` is accepted (the validation asks
for the centre to be inside the container, whatever the radius) and puts a
particle of radius 10 at `x = 450`, below `450 + 10 - 1`. -/
theorem Reachable_outside_walls :
    ¬ (∀ s : ParticleSimulator, ReachableByAddAndUpdate s →
        ∀ p ∈ s.particles_, ∀ a : Axis, withinOvershoot p a) := by
  intro h
  have hr := ReachableByAddAndUpdate.addExplicit _ 1 10 10 "red" 450 80 1 1
    ReachableByAddAndUpdate.empty cornerSpawn_added.1
  rw [cornerSpawn_added.2] at hr
  have hp := (h _ hr cornerSpawn (by simp) Axis.x).1
  simp only [lowerBound, kXLowerBound_cast, Vec2.comp, cornerSpawn] at hp
  norm_num at hp

theorem bounce_invariant (lo hi r p v : ℚ) (hw : lo + r ≤ hi - r)
    (h : (lo + r ≤ p ∧ p ≤ hi - r) ∨ (p < lo + r ∧ 0 < v ∧ lo + r ≤ p + v) ∨
      (hi - r < p ∧ v < 0 ∧ p + v ≤ hi - r)) :
    (lo + r ≤ p + v ∧ p + v ≤ hi - r) ∨
      (p + v < lo + r ∧ 0 < bounceAxis lo hi r (p + v) v ∧
        lo + r ≤ p + v + bounceAxis lo hi r (p + v) v) ∨
      (hi - r < p + v ∧ bounceAxis lo hi r (p + v) v < 0 ∧
        p + v + bounceAxis lo hi r (p + v) v ≤ hi - r) := by
  by_cases h1 : p + v < lo + r
  · have hv : v < 0 := by
      rcases h with ⟨ha, _⟩ | ⟨_, _, hc⟩ | ⟨_, hb, _⟩
      · linarith
      · linarith
      · exact hb
    have hp : lo + r ≤ p := by
      rcases h with ⟨ha, _⟩ | ⟨_, hb, _⟩ | ⟨ha, _, _⟩
      · exact ha
      · linarith
      · linarith
    have hle : p + v ≤ lo + r := le_of_lt h1
    have hpos : -v > 0 := by linarith
    have hnot : ¬ p + v ≥ hi - r := by
      intro hge
      linarith
    have hb : bounceAxis lo hi r (p + v) v = -v := by
      unfold bounceAxis
      simp [hv, hle, hpos, hnot]
    rw [hb]
    right
    left
    exact ⟨h1, by linarith, by linarith⟩
  · by_cases h2 : hi - r < p + v
    · have hv : 0 < v := by
        rcases h with ⟨_, hb⟩ | ⟨_, hb, _⟩ | ⟨_, _, hc⟩
        · linarith
        · exact hb
        · linarith
      have hp : p ≤ hi - r := by
        rcases h with ⟨_, hb⟩ | ⟨ha, _, _⟩ | ⟨_, hb, _⟩
        · exact hb
        · linarith
        · linarith
      have hnv : ¬ v < 0 := by
        intro hn
        linarith
      have hge : p + v ≥ hi - r := le_of_lt h2
      have hb : bounceAxis lo hi r (p + v) v = -v := by
        unfold bounceAxis
        simp [hnv, hv, hge]
      rw [hb]
      right
      right
      exact ⟨h2, by linarith, by linarith⟩
    · left
      exact ⟨le_of_not_lt h1, le_of_not_lt h2⟩

theorem wallInvariant_Update (p : Particle) (a : Axis) (h : wallInvariant p a) :
    wallInvariant p.Update a := by
  unfold wallInvariant at h ⊢
  rw [Update_radius, Update_velocity_comp, Update_position_comp]
  exact ⟨h.1, bounce_invariant _ _ _ _ _ h.1 h.2⟩

theorem wallInvariant_of_inside (p : Particle) (a : Axis)
    (h : lowerBound a + p.radius_ ≤ p.position_.comp a ∧
      p.position_.comp a ≤ upperBound a - p.radius_) : wallInvariant p a :=
  ⟨le_trans h.1 h.2, Or.inl h⟩

theorem withinOvershoot_of_wallInvariant (p : Particle) (a : Axis) (h : wallInvariant p a) :
    withinOvershoot p a := by
  unfold withinOvershoot
  obtain ⟨hw, hin | ⟨h1, h2, h3⟩ | ⟨h1, h2, h3⟩⟩ := h
  · have := abs_nonneg (p.velocity_.comp a)
    exact ⟨by linarith [hin.1], by linarith [hin.2]⟩
  · rw [abs_of_pos h2]
    exact ⟨by linarith, by linarith⟩
  · rw [abs_of_neg h2]
    exact ⟨by linarith, by linarith⟩

theorem wallInvariant_of_spawn (radius mass : ℚ) (color : String) (x y : ℕ) (v : Vec2)
    (h : SpawnInside radius x y) (a : Axis) :
    wallInvariant (Particle.new ⟨(x : ℚ), (y : ℚ)⟩ v radius mass color) a := by
  apply wallInvariant_of_inside
  cases a
  · exact h.1
  · exact h.2

theorem ContainedReachable_wallInvariant (s : ParticleSimulator) (h : ContainedReachable s) :
    ∀ p ∈ s.particles_, ∀ a : Axis, wallInvariant p a := by
  induction h with
  | empty =>
    intro p hp
    simp at hp
  | addRandom s amount radius mass color positions velocities _ _ hin hok ih =>
    intro p hp a
    rw [AddParticlesRandom_snd_of_ok s amount radius mass color positions velocities hok,
      List.mem_append] at hp
    rcases hp with hp | hp
    · exact ih p hp a
    · simp only [List.mem_map, List.mem_range] at hp
      obtain ⟨k, hk, rfl⟩ := hp
      rw [zero_add]
      exact wallInvariant_of_spawn radius mass color _ _ _ (hin k hk) a
  | addExplicit s amount radius mass color x y vx vy _ hin hok ih =>
    intro p hp a
    rw [AddParticlesExplicit_snd_of_ok s amount radius mass color x y vx vy hok] at hp
    simp only [emplaceLoop_eq, List.mem_append] at hp
    rcases hp with hp | hp
    · exact ih p hp a
    · rw [List.eq_of_mem_replicate hp]
      exact wallInvariant_of_spawn radius mass color x y _ hin a
  | update s _ hnot ih =>
    intro p hp a
    rw [Update_of_not s hnot, List.mem_map] at hp
    obtain ⟨q, hq, rfl⟩ := hp
    exact wallInvariant_Update q a (ih q hq a)

/-- C21, amended: in exact arithmetic, in every state reachable from an empty
simulator by successful `AddParticles` calls whose spawn positions lie between
`lowerBound + radius` and `upperBound - radius` on both axes and by `Update`s
before which no pair satisfies `CanCollide`, every particle's position on each
axis lies between `lowerBound + radius` and `upperBound - radius` up to the
magnitude of its velocity component on that axis (bounds 450 and 1350 on x, 80
and 720 on y). -/
theorem ContainedReachable_within_walls (s : ParticleSimulator) (h : ContainedReachable s) :
    ∀ p ∈ s.particles_,
      (450 + p.radius_ - |p.velocity_.x| ≤ p.position_.x ∧
        p.position_.x ≤ 1350 - p.radius_ + |p.velocity_.x|) ∧
      (80 + p.radius_ - |p.velocity_.y| ≤ p.position_.y ∧
        p.position_.y ≤ 720 - p.radius_ + |p.velocity_.y|) := by
  intro p hp
  have hx := withinOvershoot_of_wallInvariant p Axis.x
    (ContainedReachable_wallInvariant s h p hp Axis.x)
  have hy := withinOvershoot_of_wallInvariant p Axis.y
    (ContainedReachable_wallInvariant s h p hp Axis.y)
  simp only [withinOvershoot, lowerBound, upperBound, Vec2.comp, kXLowerBound_cast,
    kXUpperBound_cast, kYLowerBound_cast, kYUpperBound_cast] at hx hy
  exact ⟨hx, hy⟩

theorem wallRunner_added :
    ((ParticleSimulator.mk []).AddParticlesExplicit 1 10 10 "red" 1340 500 5 0).1 =
        Except.ok () ∧
      ((ParticleSimulator.mk []).AddParticlesExplicit 1 10 10 "red" 1340 500 5 0).2 =
        ParticleSimulator.mk [wallRunner] := by
  have hok : ((ParticleSimulator.mk []).AddParticlesExplicit 1 10 10 "red" 1340 500 5 0).1 =
      Except.ok () := by
    rw [AddParticlesExplicit_fst, Validate_ok_iff]
    norm_num
  refine ⟨hok, ?_⟩
  rw [AddParticlesExplicit_snd_of_ok _ _ _ _ _ _ _ _ _ hok]
  simp [emplaceLoop, Particle.new, wallRunner]

theorem wallRunner_contained : ContainedReachable (ParticleSimulator.mk [wallRunner]).Update := by
  have hin : SpawnInside 10 1340 500 := by
    simp only [SpawnInside, lowerBound, upperBound, kXLowerBound_cast, kXUpperBound_cast,
      kYLowerBound_cast, kYUpperBound_cast]
    norm_num
  have h1 := ContainedReachable.addExplicit _ 1 10 10 "red" 1340 500 5 0
    ContainedReachable.empty hin wallRunner_added.1
  rw [wallRunner_added.2] at h1
  exact ContainedReachable.update _ h1 (by simp)

theorem wallRunner_Update :
    (ParticleSimulator.mk [wallRunner]).Update.particles_ =
      [⟨⟨1345, 500⟩, ⟨-5, 0⟩, 10, "red", 10⟩] := by
  rw [Update_singleton]
  simp [Particle.Update, Vec2.add, checkXLower, checkYLower, checkXUpper, checkYUpper,
    kXUpperBound_cast, kXLowerBound_cast, wallRunner]
  norm_num

/-- Witness of the amended C21: a particle of radius 10 spawned at `x = 1340`
with velocity `(5, 0)` is at `x = 1345` after its first tick, beyond
`1350 - 10` by its speed 5, with the velocity `(-5, 0)`. -/
theorem ContainedReachable_within_walls_witness :
    ContainedReachable (ParticleSimulator.mk [wallRunner]).Update ∧
      (ParticleSimulator.mk [wallRunner]).Update.particles_ =
        [⟨⟨1345, 500⟩, ⟨-5, 0⟩, 10, "red", 10⟩] ∧
      ∀ p ∈ (ParticleSimulator.mk [wallRunner]).Update.particles_,
        (450 + p.radius_ - |p.velocity_.x| ≤ p.position_.x ∧
          p.position_.x ≤ 1350 - p.radius_ + |p.velocity_.x|) ∧
        (80 + p.radius_ - |p.velocity_.y| ≤ p.position_.y ∧
          p.position_.y ≤ 720 - p.radius_ + |p.velocity_.y|) :=
  ⟨wallRunner_contained, wallRunner_Update,
    ContainedReachable_within_walls _ wallRunner_contained⟩

/-- A resolved collision breaks the containment of C21 also after spawns
between the walls: `bouncer` and `follower` (radius 10, spawned at `x = 461` and
`x = 470`, inside `[460, 1340]`) do not collide in the first tick, in which
`bouncer` bounces off the left wall; in the second tick they collide and
`bouncer` is left at `x = 458.5` with the x-velocity `0.5`, below
`450 + 10 - 0.5`. -/
theorem Update_collision_breaks_containment :
    SpawnInside 10 461 500 ∧ SpawnInside 10 470 500 ∧
      (ParticleSimulator.mk [bouncer, follower]).Update.Update.particles_ =
        [⟨⟨458.5, 500⟩, ⟨0.5, 0⟩, 10, "red", 10⟩, ⟨⟨473.5, 500⟩, ⟨3, 0⟩, 10, "red", 10⟩] ∧
      ¬ (450 + (10 : ℚ) - |(0.5 : ℚ)| ≤ 458.5) := by
  have hb : SpawnInside 10 461 500 := by
    simp only [SpawnInside, lowerBound, upperBound, kXLowerBound_cast, kXUpperBound_cast,
      kYLowerBound_cast, kYUpperBound_cast]
    norm_num
  have hf : SpawnInside 10 470 500 := by
    simp only [SpawnInside, lowerBound, upperBound, kXLowerBound_cast, kXUpperBound_cast,
      kYLowerBound_cast, kYUpperBound_cast]
    norm_num
  have hnot : (ParticleSimulator.mk [bouncer, follower]).particles_.Pairwise
      (fun a b => CanCollide a b = false) := by
    simp [CanCollide, distanceLt, lengthSq, dot, Vec2.sub, bouncer, follower]
    norm_num
  have h1 : (ParticleSimulator.mk [bouncer, follower]).Update =
      ParticleSimulator.mk [⟨⟨458, 500⟩, ⟨3, 0⟩, 10, "red", 10⟩,
        ⟨⟨470.5, 500⟩, ⟨0.5, 0⟩, 10, "red", 10⟩] := by
    have hl := Update_of_not _ hnot
    have hs : ∀ s t : ParticleSimulator, s.particles_ = t.particles_ → s = t := by
      intro s t hst
      cases s
      cases t
      simp only at hst
      rw [hst]
    apply hs
    rw [hl]
    simp [Particle.Update, Vec2.add, checkXLower, checkYLower, checkXUpper, checkYUpper,
      kXUpperBound_cast, kXLowerBound_cast, bouncer, follower]
    norm_num
  have hc : CanCollide (⟨⟨458, 500⟩, ⟨3, 0⟩, 10, "red", 10⟩ : Particle)
      ⟨⟨470.5, 500⟩, ⟨0.5, 0⟩, 10, "red", 10⟩ = true := by
    simp [CanCollide, distanceLt, lengthSq, dot, Vec2.sub]
    norm_num
  have hcol : Collide (⟨⟨458, 500⟩, ⟨3, 0⟩, 10, "red", 10⟩ : Particle)
      ⟨⟨470.5, 500⟩, ⟨0.5, 0⟩, 10, "red", 10⟩ =
        (⟨⟨458, 500⟩, ⟨0.5, 0⟩, 10, "red", 10⟩, ⟨⟨470.5, 500⟩, ⟨3, 0⟩, 10, "red", 10⟩) := by
    simp [Collide, Particle.SetVelocity, lengthSq, dot, Vec2.sub, Vec2.smul]
    norm_num
  refine ⟨hb, hf, ?_, ?_⟩
  · rw [h1, Update_pair _ _ hc, hcol]
    simp [Particle.Update, Vec2.add, checkXLower, checkYLower, checkXUpper, checkYUpper,
      kXUpperBound_cast, kXLowerBound_cast]
    norm_num
  · norm_num [abs_of_pos]

/-! ## Symmetry of the detection -/

theorem distanceLt_comm (a b : Vec2) (r : ℚ) : distanceLt a b r = distanceLt b a r := by
  unfold distanceLt
  have h : lengthSq (Vec2.sub a b) = lengthSq (Vec2.sub b a) := by
    simp only [lengthSq, dot, Vec2.sub]
    ring
  rw [h]

theorem dot_sub_comm (v1 v2 x1 x2 : Vec2) :
    dot (Vec2.sub v1 v2) (Vec2.sub x1 x2) = dot (Vec2.sub v2 v1) (Vec2.sub x2 x1) := by
  simp only [dot, Vec2.sub]
  ring

/-- C35: `CanCollide` is symmetric: `CanCollide p1 p2 = CanCollide p2 p1` for
every two particles. -/
theorem CanCollide_comm (p1 p2 : Particle) : CanCollide p1 p2 = CanCollide p2 p1 := by
  unfold CanCollide
  simp only
  rw [distanceLt_comm p1.position_ p2.position_, add_comm p1.radius_ p2.radius_,
    dot_sub_comm p1.velocity_ p2.velocity_ p1.position_ p2.position_]

/-! ## Wall checks: speed and direction -/

/-- C36: `Particle::Update` leaves the magnitude of each velocity component
unchanged, `|vx'| = |vx|` and `|vy'| = |vy|`, and never changes a component that
is exactly zero. -/
theorem Update_preserves_speed (p : Particle) :
    (|p.Update.velocity_.x| = |p.velocity_.x| ∧ |p.Update.velocity_.y| = |p.velocity_.y|) ∧
      (p.velocity_.x = 0 → p.Update.velocity_.x = 0) ∧
      (p.velocity_.y = 0 → p.Update.velocity_.y = 0) := by
  have h := Update_velocity_abs p
  refine ⟨h, ?_, ?_⟩
  · intro h0
    have hx := h.1
    rw [h0, abs_zero] at hx
    exact abs_eq_zero.mp hx
  · intro h0
    have hy := h.2
    rw [h0, abs_zero] at hy
    exact abs_eq_zero.mp hy

theorem bounceAxis_direction (lo hi r p v : ℚ) (h : lo + r < hi - r) :
    (p ≤ lo + r → 0 ≤ bounceAxis lo hi r p v) ∧ (p ≥ hi - r → bounceAxis lo hi r p v ≤ 0) := by
  unfold bounceAxis
  constructor
  · intro hp
    have hnot : ¬ p ≥ hi - r := by
      intro hge
      linarith
    by_cases hv : v < 0
    · have hpos : -v > 0 := by linarith
      simp only [if_pos hv, if_pos hp, if_pos hpos, if_neg hnot]
      linarith
    · simp only [if_neg hv]
      by_cases hv2 : v > 0
      · simp only [if_pos hv2, if_neg hnot]
        linarith
      · simp only [if_neg hv2]
        linarith
  · intro hp
    have hnot : ¬ p ≤ lo + r := by
      intro hle
      linarith
    by_cases hv : v < 0
    · have hnpos : ¬ v > 0 := by
        intro hv2
        linarith
      simp only [if_pos hv, if_neg hnot, if_neg hnpos]
      linarith
    · simp only [if_neg hv]
      by_cases hv2 : v > 0
      · simp only [if_pos hv2, if_pos hp]
        linarith
      · simp only [if_neg hv2]
        linarith

/-- C37: for a particle narrower than the container on an axis
(`2 * radius < 900` on x, `2 * radius < 640` on y), after `Particle::Update` the
velocity does not point further into a wall the particle touches or has
crossed: `position.x ≤ 450 + radius` gives `velocity.x ≥ 0` and
`position.x ≥ 1350 - radius` gives `velocity.x ≤ 0`, likewise on y with the
bounds 80 and 720. -/
theorem Update_velocity_points_inside (p : Particle) :
    (2 * p.radius_ < 900 →
      (p.Update.position_.x ≤ 450 + p.radius_ → 0 ≤ p.Update.velocity_.x) ∧
        (p.Update.position_.x ≥ 1350 - p.radius_ → p.Update.velocity_.x ≤ 0)) ∧
    (2 * p.radius_ < 640 →
      (p.Update.position_.y ≤ 80 + p.radius_ → 0 ≤ p.Update.velocity_.y) ∧
        (p.Update.position_.y ≥ 720 - p.radius_ → p.Update.velocity_.y ≤ 0)) := by
  have hx := Update_velocity_comp p Axis.x
  have hy := Update_velocity_comp p Axis.y
  simp only [Vec2.comp, lowerBound, upperBound, kXLowerBound_cast, kXUpperBound_cast,
    kYLowerBound_cast, kYUpperBound_cast] at hx hy
  constructor
  · intro hr
    rw [hx]
    exact bounceAxis_direction 450 1350 p.radius_ _ _ (by linarith)
  · intro hr
    rw [hy]
    exact bounceAxis_direction 80 720 p.radius_ _ _ (by linarith)

/-- Witness of C37 on the particle of the right-wall test: radius 5, at
`x = 1350 ≥ 1350 - 5` after the step, with `velocity.x = -5 ≤ 0`. -/
theorem Update_velocity_points_inside_witness :
    2 * rightWallParticle.radius_ < 900 ∧
      rightWallParticle.Update.position_.x ≥ 1350 - rightWallParticle.radius_ ∧
      rightWallParticle.Update.velocity_.x ≤ 0 := by
  have hr : 2 * rightWallParticle.radius_ < 900 := by norm_num [rightWallParticle]
  have hp : rightWallParticle.Update.position_.x ≥ 1350 - rightWallParticle.radius_ := by
    rw [rightWallParticle_Update]
    norm_num [rightWallParticle]
  exact ⟨hr, hp, ((Update_velocity_points_inside rightWallParticle).1 hr).2 hp⟩

/-! ## SpeedUp: the y-component follows the sign of the x-component -/

theorem SpeedUp_x_sign (p : Particle) :
    (0 < p.velocity_.x → 0 < p.SpeedUp.velocity_.x) ∧
      (p.velocity_.x < 0 → p.SpeedUp.velocity_.x < 0) ∧
      (p.velocity_.x = 0 → p.SpeedUp.velocity_.x = 0) := by
  simp only [Particle.SpeedUp]
  refine ⟨?_, ?_, ?_⟩
  · intro h
    split_ifs <;> norm_num <;> linarith
  · intro h
    split_ifs <;> norm_num <;> linarith
  · intro h
    rw [h]
    simp

/-- C32, amended: in exact arithmetic, in `Particle::SpeedUp` the y-component is
gated by the sign of the x-component: with `vx > 0`, `vy` grows by 0.5 exactly
when `vy < radius / 2`; with
`vx < 0`, `vy` decreases by 0.5 exactly when `vy > -radius / 2`; with `vx = 0`
the whole velocity is left unchanged, whatever `vy` is. -/
theorem SpeedUp_y_gated_by_x (p : Particle) :
    (0 < p.velocity_.x →
      p.SpeedUp.velocity_.y =
        if p.velocity_.y < p.radius_ / 2 then p.velocity_.y + 0.5 else p.velocity_.y) ∧
    (p.velocity_.x < 0 →
      p.SpeedUp.velocity_.y =
        if p.velocity_.y > -p.radius_ / 2 then p.velocity_.y - 0.5 else p.velocity_.y) ∧
    (p.velocity_.x = 0 → p.SpeedUp.velocity_ = p.velocity_) := by
  have hs := SpeedUp_x_sign p
  have hy : p.SpeedUp.velocity_.y =
      if p.velocity_.y < p.radius_ / 2 ∧ p.SpeedUp.velocity_.x > 0 then p.velocity_.y + 0.5
      else if p.velocity_.y > -p.radius_ / 2 ∧ p.SpeedUp.velocity_.x < 0 then
        p.velocity_.y - 0.5
      else p.velocity_.y := by
    simp only [Particle.SpeedUp]
  refine ⟨?_, ?_, ?_⟩
  · intro h
    have h1 := hs.1 h
    have h2 : ¬ p.SpeedUp.velocity_.x < 0 := not_lt.mpr (le_of_lt h1)
    rw [hy]
    simp [h1, h2]
  · intro h
    have h1 := hs.2.1 h
    have h2 : ¬ p.SpeedUp.velocity_.x > 0 := not_lt.mpr (le_of_lt h1)
    rw [hy]
    simp [h1, h2]
  · intro h
    have h1 := hs.2.2 h
    have hyy : p.SpeedUp.velocity_.y = p.velocity_.y := by
      rw [hy, h1]
      simp
    cases hv : p.SpeedUp.velocity_
    cases hp : p.velocity_
    rw [hv] at h1 hyy
    rw [hp] at h hyy
    simp only at h1 hyy h
    rw [h1, hyy, h]

/-! ## What a tick, SpeedUp and SlowDown leave alone -/

theorem set_map_same {α : Type} (f : Particle → α) :
    ∀ (l : List Particle) (i : ℕ) (a b : Particle), l[i]? = some a → f b = f a →
      (l.set i b).map f = l.map f := by
  intro l
  induction l with
  | nil => intro i a b h _; simp at h
  | cons hd tl ih =>
    intro i a b h hf
    cases i with
    | zero =>
      simp only [List.getElem?_cons_zero, Option.some.injEq] at h
      subst h
      simp only [List.set_cons_zero, List.map_cons, hf]
    | succ k =>
      simp only [List.getElem?_cons_succ] at h
      simp only [List.set_cons_succ, List.map_cons, ih k a b h hf]

theorem collideAt_map {α : Type} (f : Particle → α)
    (hf1 : ∀ a b, f (Collide a b).1 = f a) (hf2 : ∀ a b, f (Collide a b).2 = f b)
    (l : List Particle) (i j : ℕ) : (collideAt l i j).map f = l.map f := by
  unfold collideAt
  split
  · rename_i a b hi hj
    split_ifs with hc
    · have hx := CanCollide_distinct_centres hc
      have hij : i ≠ j := by
        intro he
        subst he
        rw [hi] at hj
        simp only [Option.some.injEq] at hj
        subst hj
        exact hx rfl
      have hj' : (l.set i (Collide a b).1)[j]? = some b := by
        rw [List.getElem?_set_ne hij]
        exact hj
      rw [set_map_same f _ j b _ hj' (hf2 a b), set_map_same f l i a _ hi (hf1 a b)]
    · rfl
  · rfl

theorem innerLoop_map {α : Type} (f : Particle → α)
    (hf1 : ∀ a b, f (Collide a b).1 = f a) (hf2 : ∀ a b, f (Collide a b).2 = f b) (i : ℕ) :
    ∀ (n j : ℕ) (l : List Particle), (innerLoop i n j l).map f = l.map f := by
  intro n
  induction n with
  | zero => intro j l; rfl
  | succ n ih =>
    intro j l
    simp only [innerLoop]
    rw [ih, collideAt_map f hf1 hf2]

theorem scanLoop_map {α : Type} (f : Particle → α)
    (hf1 : ∀ a b, f (Collide a b).1 = f a) (hf2 : ∀ a b, f (Collide a b).2 = f b) :
    ∀ (n i : ℕ) (l : List Particle), (scanLoop n i l).map f = l.map f := by
  intro n
  induction n with
  | zero => intro i l; rfl
  | succ n ih =>
    intro i l
    simp only [scanLoop]
    rw [ih, innerLoop_map f hf1 hf2]

theorem Update_map {α : Type} (f : Particle → α)
    (hf1 : ∀ a b, f (Collide a b).1 = f a) (hf2 : ∀ a b, f (Collide a b).2 = f b)
    (hu : ∀ p : Particle, f p.Update = f p) (s : ParticleSimulator) :
    s.Update.particles_.map f = s.particles_.map f := by
  rw [Update_eq_map_resolve, List.map_map]
  have h : (f ∘ Particle.Update) = f := by
    funext p
    exact hu p
  rw [h]
  exact scanLoop_map f hf1 hf2 _ _ _

/-- C33: `ParticleSimulator::Update`, `SpeedUp` and `SlowDown` keep the number
and the order of the particles and the radius, mass and colour of each (the
lists of radii, masses and colours, by index, are unchanged); `SpeedUp` and
`SlowDown` also keep every position and are the per-particle operation on every
particle of the population. -/
theorem frame_of_Update_SpeedUp_SlowDown (s : ParticleSimulator) :
    (s.Update.particles_.length = s.particles_.length ∧
      s.Update.particles_.map (fun p => p.radius_) = s.particles_.map (fun p => p.radius_) ∧
      s.Update.particles_.map (fun p => p.mass_) = s.particles_.map (fun p => p.mass_) ∧
      s.Update.particles_.map (fun p => p.color_) = s.particles_.map (fun p => p.color_)) ∧
    (s.SpeedUp.particles_ = s.particles_.map Particle.SpeedUp ∧
      s.SpeedUp.particles_.length = s.particles_.length ∧
      s.SpeedUp.particles_.map (fun p => (p.position_, p.radius_, p.mass_, p.color_)) =
        s.particles_.map (fun p => (p.position_, p.radius_, p.mass_, p.color_))) ∧
    (s.SlowDown.particles_ = s.particles_.map Particle.SlowDown ∧
      s.SlowDown.particles_.length = s.particles_.length ∧
      s.SlowDown.particles_.map (fun p => (p.position_, p.radius_, p.mass_, p.color_)) =
        s.particles_.map (fun p => (p.position_, p.radius_, p.mass_, p.color_))) := by
  refine ⟨⟨?_, ?_, ?_, ?_⟩, ⟨rfl, ?_, ?_⟩, ⟨rfl, ?_, ?_⟩⟩
  · have h := congrArg List.length (Update_map (fun p => p.radius_)
      (fun a b => (Collide_fst_fields a b).2.2.1) (fun a b => (Collide_snd_fields a b).2.2.1)
      Update_radius s)
    simpa using h
  · exact Update_map (fun p => p.radius_) (fun a b => (Collide_fst_fields a b).2.2.1)
      (fun a b => (Collide_snd_fields a b).2.2.1) Update_radius s
  · exact Update_map (fun p => p.mass_) (fun a b => (Collide_fst_fields a b).2.1)
      (fun a b => (Collide_snd_fields a b).2.1) Update_mass s
  · exact Update_map (fun p => p.color_) (fun a b => (Collide_fst_fields a b).2.2.2)
      (fun a b => (Collide_snd_fields a b).2.2.2) (fun p => by simp [Particle.Update]) s
  · simp [ParticleSimulator.SpeedUp]
  · simp only [ParticleSimulator.SpeedUp, List.map_map]
    apply List.map_congr_left
    intro p _
    simp [Particle.SpeedUp]
  · simp [ParticleSimulator.SlowDown]
  · simp only [ParticleSimulator.SlowDown, List.map_map]
    apply List.map_congr_left
    intro p _
    simp [Particle.SlowDown]

/-! ## Histogram: a speed on a bin boundary -/

theorem FillBins_bins (h : Histogram) (particles : List Particle)
    (hlen : h.bins_.length = 10) :
    (h.FillBins particles).bins_ =
      (List.range 10).map (fun (k : ℕ) => particles.countP (fun p =>
        lengthGe p.velocity_ (5 * (k : ℚ)) && lengthLt p.velocity_ (5 * (k : ℚ) + 5))) := by
  have hsr : (((Histogram.kMaxSpeed / Histogram.kNumberOfPartitions : ℕ)) : ℚ) = 5 := by
    norm_num [Histogram.kMaxSpeed, Histogram.kNumberOfPartitions]
  have h0 := fillBinsLoop_eq particles 10 0 h.bins_ (by norm_num) hlen
  simp only [Nat.cast_zero, mul_zero, List.take_zero, List.nil_append] at h0
  simp only [Histogram.FillBins, hsr]
  rw [h0, List.range_eq_range']
  apply List.map_congr_left
  intro k _
  exact FindAllParticlesInSpeedRange_eq particles _ _

theorem new_bins_length (mass : ℚ) : (Histogram.new mass).bins_.length = 10 := by
  simp [Histogram.new, Histogram.kNumberOfPartitions]

/-- C34 as stated fails: a particle of speed exactly `5 = 5 * 1` is counted by
`Histogram::FillBins` in bin 1, whose lower bound is 5, and not in bin 0, whose
upper bound is 5 (the test of the blue histogram asserts the same for its 90
particles of speed 5). -/
theorem FillBins_speed_on_boundary :
    ((Histogram.new 30).FillBins [speedFive]).bins_ = [0, 1, 0, 0, 0, 0, 0, 0, 0, 0] := by
  rw [FillBins_bins _ _ (new_bins_length 30)]
  simp [List.range, List.range.loop, speedFive, List.countP_cons, lengthGe, lengthLt,
    lengthSq, dot]
  norm_num

/-- C34, amended: the speed ranges of the histogram have an inclusive lower
bound and an exclusive upper bound: a particle whose speed is exactly a bin
boundary `5 k` (`0 < k < 10`) is counted in bin `k`, whose lower bound is `5 k`,
and not in bin `k - 1`, whose upper bound is `5 k`. -/
theorem FillBins_boundary_in_upper_bin (h : Histogram) (p : Particle) (k : ℕ)
    (hlen : h.bins_.length = 10) (hk0 : 0 < k) (hk : k < 10)
    (hs : Real.sqrt (((p.velocity_.x : ℚ) : ℝ) ^ 2 + ((p.velocity_.y : ℚ) : ℝ) ^ 2) =
      5 * (k : ℝ)) :
    (h.FillBins [p]).bins_[k]? = some 1 ∧ (h.FillBins [p]).bins_[k - 1]? = some 0 := by
  have hsq : lengthSq p.velocity_ = (5 * (k : ℚ)) * (5 * (k : ℚ)) := by
    have hnn : (0 : ℝ) ≤ ((p.velocity_.x : ℚ) : ℝ) ^ 2 + ((p.velocity_.y : ℚ) : ℝ) ^ 2 := by
      positivity
    have h2 := Real.sq_sqrt hnn
    rw [hs] at h2
    have h3 : ((lengthSq p.velocity_ : ℚ) : ℝ) = (((5 * (k : ℚ)) * (5 * (k : ℚ)) : ℚ) : ℝ) := by
      simp only [lengthSq, dot]
      push_cast
      linarith [h2, sq (5 * (k : ℝ)), sq ((p.velocity_.x : ℚ) : ℝ), sq ((p.velocity_.y : ℚ) : ℝ)]
    exact_mod_cast h3
  have hkq : (0 : ℚ) < (k : ℚ) := by exact_mod_cast hk0
  have hk1 : k - 1 < 10 := by omega
  have hcast : ((k - 1 : ℕ) : ℚ) = (k : ℚ) - 1 := Nat.cast_pred hk0
  rw [FillBins_bins _ _ hlen, List.getElem?_map, List.getElem?_map, List.getElem?_range hk,
    List.getElem?_range hk1]
  simp only [Option.map_some', List.countP_singleton, Option.some.injEq]
  constructor
  · have hge : lengthGe p.velocity_ (5 * (k : ℚ)) = true := by
      unfold lengthGe
      rw [decide_eq_true_iff, hsq]
      exact Or.inr (le_refl _)
    have hlt : lengthLt p.velocity_ (5 * (k : ℚ) + 5) = true := by
      unfold lengthLt
      rw [decide_eq_true_iff, hsq]
      constructor
      · linarith
      · nlinarith
    simp [hge, hlt]
  · have hlt : lengthLt p.velocity_ (5 * ((k - 1 : ℕ) : ℚ) + 5) = false := by
      unfold lengthLt
      rw [decide_eq_false_iff_not, hsq, hcast]
      intro hcon
      have h5 : 5 * ((k : ℚ) - 1) + 5 = 5 * (k : ℚ) := by ring
      rw [h5] at hcon
      exact lt_irrefl _ hcon.2
    simp [hlt]

/-- Witness of the amended C34: the particle of speed 5 is counted in bin 1 and
not in bin 0. -/
theorem FillBins_boundary_in_upper_bin_witness :
    (Histogram.new 30).bins_.length = 10 ∧ 0 < 1 ∧ 1 < 10 ∧
      Real.sqrt (((speedFive.velocity_.x : ℚ) : ℝ) ^ 2 +
        ((speedFive.velocity_.y : ℚ) : ℝ) ^ 2) = 5 * ((1 : ℕ) : ℝ) ∧
      ((Histogram.new 30).FillBins [speedFive]).bins_[1]? = some 1 ∧
      ((Histogram.new 30).FillBins [speedFive]).bins_[1 - 1]? = some 0 := by
  have hs : Real.sqrt (((speedFive.velocity_.x : ℚ) : ℝ) ^ 2 +
      ((speedFive.velocity_.y : ℚ) : ℝ) ^ 2) = 5 * ((1 : ℕ) : ℝ) := by
    have h25 : (((speedFive.velocity_.x : ℚ) : ℝ) ^ 2 +
        ((speedFive.velocity_.y : ℚ) : ℝ) ^ 2) = 5 ^ 2 := by
      norm_num [speedFive]
    rw [h25, Real.sqrt_sq (by norm_num)]
    norm_num
  exact ⟨new_bins_length 30, by norm_num, by norm_num, hs,
    FillBins_boundary_in_upper_bin (Histogram.new 30) speedFive 1 (new_bins_length 30)
      (by norm_num) (by norm_num) hs⟩

/-! ## Three particles: the order of the resolutions -/

theorem Update_three (a b c : Particle) :
    (ParticleSimulator.mk [a, b, c]).Update.particles_ =
      (collideAt (collideAt (collideAt [a, b, c] 0 1) 0 2) 1 2).map Particle.Update := by
  rw [Update_eq_map_resolve]
  simp [resolveCollisions, scanLoop, innerLoop, collideAt_length]

theorem trio_first : CanCollide trioA trioB = true ∧ Collide trioA trioB = (trioA1, trioB1) := by
  constructor
  · simp [CanCollide, distanceLt, lengthSq, dot, Vec2.sub, trioA, trioB]
    norm_num
  · simp [Collide, Particle.SetVelocity, lengthSq, dot, Vec2.sub, Vec2.smul, trioA, trioB,
      trioA1, trioB1]
    norm_num

theorem trio_second :
    CanCollide trioA1 trioC = true ∧ Collide trioA1 trioC = (trioA2, trioC1) := by
  constructor
  · simp [CanCollide, distanceLt, lengthSq, dot, Vec2.sub, trioA1, trioC]
    norm_num
  · simp [Collide, Particle.SetVelocity, lengthSq, dot, Vec2.sub, Vec2.smul, trioA1, trioC,
      trioA2, trioC1]
    norm_num

theorem trio_third :
    CanCollide trioB1 trioC1 = true ∧ Collide trioB1 trioC1 = (trioB2, trioC2) := by
  constructor
  · simp [CanCollide, distanceLt, lengthSq, dot, Vec2.sub, trioB1, trioC1]
    norm_num
  · simp [Collide, Particle.SetVelocity, lengthSq, dot, Vec2.sub, Vec2.smul, trioB1, trioC1,
      trioB2, trioC2]
    norm_num

theorem trio_scan :
    collideAt (collideAt (collideAt [trioA, trioB, trioC] 0 1) 0 2) 1 2 =
      [trioA2, trioB2, trioC2] := by
  simp [collideAt, trio_first.1, trio_first.2, trio_second.1, trio_second.2, trio_third.1,
    trio_third.2]

theorem trio_moves :
    trioA2.Update = ⟨⟨550 + 29 / 3, 545 + 1 / 3⟩, ⟨29 / 3, 1 / 3⟩, 10, "red", 10⟩ ∧
      trioB2.Update = ⟨⟨540 + -5 / 2, 545 + 3 / 2⟩, ⟨-5 / 2, 3 / 2⟩, 20, "red", 20⟩ ∧
      trioC2.Update = ⟨⟨545 + 13 / 6, 550 + -1 / 6⟩, ⟨13 / 6, -1 / 6⟩, 20, "red", 20⟩ := by
  refine ⟨?_, ?_, ?_⟩
  · simp [Particle.Update, Vec2.add, checkXLower, checkYLower, checkXUpper, checkYUpper,
      kXUpperBound_cast, kXLowerBound_cast, kYUpperBound_cast, kYLowerBound_cast, trioA2]
    norm_num
  · simp [Particle.Update, Vec2.add, checkXLower, checkYLower, checkXUpper, checkYUpper,
      kXUpperBound_cast, kXLowerBound_cast, kYUpperBound_cast, kYLowerBound_cast, trioB2]
    norm_num
  · simp [Particle.Update, Vec2.add, checkXLower, checkYLower, checkXUpper, checkYUpper,
      kXUpperBound_cast, kXLowerBound_cast, kYUpperBound_cast, kYLowerBound_cast, trioC2]
    norm_num

theorem trio_calls :
    (ParticleSimulator.mk [trioA, trioB, trioC]).collideCalls =
      [(trioA, trioB), (trioA1, trioC), (trioB1, trioC1)] := by
  simp [ParticleSimulator.collideCalls, outerLoopLog, innerLoopLog, collideAtLog, updateAt,
    trio_first.1, trio_first.2, trio_second.1, trio_second.2, trio_third.1, trio_third.2]

/-- C31: within one `Update` the collisions are resolved one after the other
in the pair order `(0, 1)`, `(0, 2)`, `(1, 2)`, each on the velocities the
earlier ones left.  For the three particles of the test, `Collide` is called on
the original pair `(0, 1)`, then on particle 0 with its new velocity `(5, 5)`
and particle 2, then on particle 1 with `(-1, 3)` and particle 2 with
`(2/3, -5/3)`; the tick ends with the velocities `(29/3, 1/3)`, `(-5/2, 3/2)`,
`(13/6, -1/6)` and the old positions plus these velocities. -/
theorem Update_three_particles :
    (∀ a b c : Particle,
      (ParticleSimulator.mk [a, b, c]).Update.particles_ =
        (collideAt (collideAt (collideAt [a, b, c] 0 1) 0 2) 1 2).map Particle.Update) ∧
    (ParticleSimulator.mk [trioA, trioB, trioC]).collideCalls =
      [(trioA, trioB), (trioA1, trioC), (trioB1, trioC1)] ∧
    (ParticleSimulator.mk [trioA, trioB, trioC]).Update.particles_ =
      [⟨⟨550 + 29 / 3, 545 + 1 / 3⟩, ⟨29 / 3, 1 / 3⟩, 10, "red", 10⟩,
        ⟨⟨540 + -5 / 2, 545 + 3 / 2⟩, ⟨-5 / 2, 3 / 2⟩, 20, "red", 20⟩,
        ⟨⟨545 + 13 / 6, 550 + -1 / 6⟩, ⟨13 / 6, -1 / 6⟩, 20, "red", 20⟩] := by
  refine ⟨Update_three, trio_calls, ?_⟩
  rw [Update_three, trio_scan]
  simp only [List.map_cons, List.map_nil, trio_moves.1, trio_moves.2.1, trio_moves.2.2]

/-! ## Single and double precision: conversions, validation and spawning -/

theorem log2Nat_le (j : ℕ) :
    ∀ (fuel n : ℕ), n < 2 ^ (j + 1) → ieee.log2Nat fuel n ≤ j := by
  induction j with
  | zero =>
    intro fuel n hn
    cases fuel with
    | zero => simp [ieee.log2Nat]
    | succ fuel =>
      have h2 : n < 2 := by simpa using hn
      simp [ieee.log2Nat, h2]
  | succ j ih =>
    intro fuel n hn
    cases fuel with
    | zero => simp [ieee.log2Nat]
    | succ fuel =>
      unfold ieee.log2Nat
      by_cases h2 : n < 2
      · simp [h2]
      · rw [if_neg h2]
        have hdiv : n / 2 < 2 ^ (j + 1) := by
          rw [Nat.div_lt_iff_lt_mul (by norm_num)]
          calc n < 2 ^ (j + 1 + 1) := hn
            _ = 2 ^ (j + 1) * 2 := by ring
        have := ih fuel (n / 2) hdiv
        omega

theorem pow2_neg (j : ℕ) : ieee.pow2 (-(j : ℤ)) = 1 / (2 : ℚ) ^ j := by
  unfold ieee.pow2
  cases j with
  | zero => simp
  | succ j =>
    have hneg : ¬ (0 : ℤ) ≤ -((j + 1 : ℕ) : ℤ) := by
      push_cast
      omega
    rw [if_neg hneg]
    simp

theorem pow2_nonneg (j : ℕ) : ieee.pow2 (j : ℤ) = (2 : ℚ) ^ j := by
  unfold ieee.pow2
  simp

theorem roundHalfEven_natCast (n : ℕ) : ieee.roundHalfEven (n : ℚ) = (n : ℤ) := by
  unfold ieee.roundHalfEven
  simp

/-- A natural number below `2 ^ 24` converts to `float` without rounding. -/
theorem ofNat_binary32_exact (x : ℕ) (h : x < 2 ^ 24) :
    ieee.Fp.ofNat ieee.binary32 x = ieee.Fp.fin false (x : ℚ) := by
  unfold ieee.Fp.ofNat ieee.Format.round
  by_cases h0 : (x : ℚ) = 0
  · rw [if_pos h0, h0]
  · rw [if_neg h0]
    have hk : ieee.ilog2 (x : ℚ) ≤ 23 := by
      unfold ieee.ilog2
      have h1 : ieee.log2Nat 1 1 = 0 := by decide
      have hl := log2Nat_le 23 x x (by simpa using h)
      simp only [Rat.num_natCast, Int.natAbs_ofNat, Rat.den_natCast, h1]
      split_ifs
      · push_cast
        omega
      · push_cast
        omega
    obtain ⟨j, hj⟩ : ∃ j : ℕ, max (ieee.ilog2 (x : ℚ)) (1 - ieee.binary32.emax) -
        (((ieee.binary32.prec : ℕ) : ℤ) - 1) = -(j : ℤ) := by
      refine ⟨(23 - max (ieee.ilog2 (x : ℚ)) (1 - 127)).toNat, ?_⟩
      have hm : max (ieee.ilog2 (x : ℚ)) (1 - 127) ≤ 23 := max_le hk (by norm_num)
      simp only [ieee.binary32]
      rw [Int.toNat_of_nonneg (by omega)]
      push_cast
      ring
    simp only [hj, pow2_neg]
    have hq : (x : ℚ) / (1 / (2 : ℚ) ^ j) = ((x * 2 ^ j : ℕ) : ℚ) := by
      push_cast
      field_simp
    rw [hq, roundHalfEven_natCast]
    have hm : (((x * 2 ^ j : ℕ) : ℤ) : ℚ) * (1 / (2 : ℚ) ^ j) = (x : ℚ) := by
      push_cast
      field_simp
    rw [hm]
    have hbig : ¬ ieee.pow2 (ieee.binary32.emax + 1) ≤ (x : ℚ) := by
      have h128 : ieee.pow2 (ieee.binary32.emax + 1) = (2 : ℚ) ^ 128 := by
        have : ieee.binary32.emax + 1 = ((128 : ℕ) : ℤ) := by simp [ieee.binary32]
        rw [this, pow2_nonneg]
      rw [h128, not_le]
      have hx : (x : ℚ) < (2 : ℚ) ^ 24 := by exact_mod_cast h
      have : (2 : ℚ) ^ 24 < (2 : ℚ) ^ 128 := by norm_num
      linarith
    rw [if_neg hbig]

theorem Validate_ok_iff_double (radius mass : ieee.Fp) (x y : ℕ) (vx vy : ieee.Fp) :
    ieee.ValidateAddParticleArguments radius mass x y vx vy = Except.ok () ↔
      ¬ (ieee.Fp.lt radius (ieee.Fp.ofRat ieee.binary64 (1 / 10)) = true ∨
        ieee.Fp.lt mass (ieee.Fp.ofRat ieee.binary64 (1 / 10)) = true ∨
        (ieee.Fp.eq vx (ieee.Fp.ofNat ieee.binary64 0) = true ∧
          ieee.Fp.eq vy (ieee.Fp.ofNat ieee.binary64 0) = true) ∨
        ieee.Fp.lt (ieee.Fp.mul ieee.binary64 radius (ieee.Fp.ofRat ieee.binary64 (8 / 10)))
          (ieee.Fp.abs vx) = true ∨
        ieee.Fp.lt (ieee.Fp.mul ieee.binary64 radius (ieee.Fp.ofRat ieee.binary64 (8 / 10)))
          (ieee.Fp.abs vy) = true ∨
        x < 450 ∨ 1350 < x ∨ y < 80 ∨ 720 < y) := by
  unfold ieee.ValidateAddParticleArguments
  rw [kXLowerBound_eq, kXUpperBound_eq, kYLowerBound_eq, kYUpperBound_eq]
  by_cases h1 : ieee.Fp.lt radius (ieee.Fp.ofRat ieee.binary64 (1 / 10)) = true
  · rw [if_pos h1]
    simp only [reduceCtorEq, false_iff, not_not]
    exact Or.inl h1
  by_cases h2 : ieee.Fp.lt mass (ieee.Fp.ofRat ieee.binary64 (1 / 10)) = true
  · rw [if_neg h1, if_pos h2]
    simp only [reduceCtorEq, false_iff, not_not]
    exact Or.inr (Or.inl h2)
  by_cases h3 : (ieee.Fp.eq vx (ieee.Fp.ofNat ieee.binary64 0) &&
      ieee.Fp.eq vy (ieee.Fp.ofNat ieee.binary64 0)) = true
  · rw [if_neg h1, if_neg h2, if_pos h3]
    simp only [reduceCtorEq, false_iff, not_not]
    rw [Bool.and_eq_true] at h3
    exact Or.inr (Or.inr (Or.inl h3))
  by_cases h4 : (ieee.Fp.lt (ieee.Fp.mul ieee.binary64 radius
        (ieee.Fp.ofRat ieee.binary64 (8 / 10))) (ieee.Fp.abs vx) ||
      ieee.Fp.lt (ieee.Fp.mul ieee.binary64 radius (ieee.Fp.ofRat ieee.binary64 (8 / 10)))
        (ieee.Fp.abs vy)) = true
  · rw [if_neg h1, if_neg h2, if_neg h3, if_pos h4]
    simp only [reduceCtorEq, false_iff, not_not]
    rw [Bool.or_eq_true] at h4
    rcases h4 with h4 | h4
    · exact Or.inr (Or.inr (Or.inr (Or.inl h4)))
    · exact Or.inr (Or.inr (Or.inr (Or.inr (Or.inl h4))))
  by_cases h5 : x < 450 ∨ x > 1350
  · rw [if_neg h1, if_neg h2, if_neg h3, if_neg h4, if_pos h5]
    simp only [reduceCtorEq, false_iff, not_not]
    rcases h5 with h5 | h5
    · exact Or.inr (Or.inr (Or.inr (Or.inr (Or.inr (Or.inl h5)))))
    · exact Or.inr (Or.inr (Or.inr (Or.inr (Or.inr (Or.inr (Or.inl h5))))))
  by_cases h6 : y < 80 ∨ y > 720
  · rw [if_neg h1, if_neg h2, if_neg h3, if_neg h4, if_neg h5, if_pos h6]
    simp only [reduceCtorEq, false_iff, not_not]
    rcases h6 with h6 | h6
    · exact Or.inr (Or.inr (Or.inr (Or.inr (Or.inr (Or.inr (Or.inr (Or.inl h6)))))))
    · exact Or.inr (Or.inr (Or.inr (Or.inr (Or.inr (Or.inr (Or.inr (Or.inr h6)))))))
  · rw [if_neg h1, if_neg h2, if_neg h3, if_neg h4, if_neg h5, if_neg h6]
    simp only [true_iff]
    rw [Bool.and_eq_true] at h3
    rw [Bool.or_eq_true] at h4
    rintro (h | h | h | h | h | h | h | h | h)
    · exact h1 h
    · exact h2 h
    · exact h3 h
    · exact h4 (Or.inl h)
    · exact h4 (Or.inr h)
    · exact h5 (Or.inl h)
    · exact h5 (Or.inr h)
    · exact h6 (Or.inl h)
    · exact h6 (Or.inr h)

theorem Validate_error_iff_double (radius mass : ieee.Fp) (x y : ℕ) (vx vy : ieee.Fp) :
    (∃ msg, ieee.ValidateAddParticleArguments radius mass x y vx vy =
        Except.error (Exception.invalid_argument msg)) ↔
      (ieee.Fp.lt radius (ieee.Fp.ofRat ieee.binary64 (1 / 10)) = true ∨
        ieee.Fp.lt mass (ieee.Fp.ofRat ieee.binary64 (1 / 10)) = true ∨
        (ieee.Fp.eq vx (ieee.Fp.ofNat ieee.binary64 0) = true ∧
          ieee.Fp.eq vy (ieee.Fp.ofNat ieee.binary64 0) = true) ∨
        ieee.Fp.lt (ieee.Fp.mul ieee.binary64 radius (ieee.Fp.ofRat ieee.binary64 (8 / 10)))
          (ieee.Fp.abs vx) = true ∨
        ieee.Fp.lt (ieee.Fp.mul ieee.binary64 radius (ieee.Fp.ofRat ieee.binary64 (8 / 10)))
          (ieee.Fp.abs vy) = true ∨
        x < 450 ∨ 1350 < x ∨ y < 80 ∨ 720 < y) := by
  have hok := Validate_ok_iff_double radius mass x y vx vy
  constructor
  · rintro ⟨msg, hmsg⟩
    by_contra hn
    rw [hok.mpr hn] at hmsg
    simp at hmsg
  · intro hc
    rcases Except_unit_cases (ieee.ValidateAddParticleArguments radius mass x y vx vy) with h | h
    · exact absurd hc (hok.mp h)
    · exact h

theorem AddParticlesExplicit_fst_double (s : ieee.ParticleSimulator) (amount : ℕ)
    (radius mass : ieee.Fp) (color : String) (x y : ℕ) (vx vy : ieee.Fp) :
    (s.AddParticlesExplicit amount radius mass color x y vx vy).1 =
      ieee.ValidateAddParticleArguments radius mass x y vx vy := by
  unfold ieee.ParticleSimulator.AddParticlesExplicit
  split
  · rename_i e h
    rw [h]
  · rename_i u h
    rw [h]

theorem emplaceLoop_eq_double (p : ieee.Particle) :
    ∀ (n : ℕ) (l : List ieee.Particle), ieee.emplaceLoop n p l = l ++ List.replicate n p := by
  intro n
  induction n with
  | zero => intro l; simp [ieee.emplaceLoop]
  | succ n ih =>
    intro l
    simp only [ieee.emplaceLoop]
    rw [ih, List.replicate_succ, List.append_assoc, List.singleton_append]

/-- C14, amended: the explicit-position `AddParticles` throws
`std::invalid_argument` exactly when `radius < 0.1`, or `mass < 0.1`, or `vx == 0`
and `vy == 0`, or `abs(vx) > radius * .8`, or `abs(vy) > radius * .8`, or `x` is
outside `[450, 1350]`, or `y` is outside `[80, 720]`, where `0.1` and `.8` are the
`double`s nearest to the decimals, `radius * .8` is the product rounded to
`double` and the comparisons are those of `double` (false on not a number); for
all other arguments it returns normally. -/
theorem AddParticlesExplicit_fails_iff_double (s : ieee.ParticleSimulator) (amount : ℕ)
    (radius mass : ieee.Fp) (color : String) (x y : ℕ) (vx vy : ieee.Fp) :
    ((∃ msg, (s.AddParticlesExplicit amount radius mass color x y vx vy).1 =
          Except.error (Exception.invalid_argument msg)) ↔
        (ieee.Fp.lt radius (ieee.Fp.ofRat ieee.binary64 (1 / 10)) = true ∨
          ieee.Fp.lt mass (ieee.Fp.ofRat ieee.binary64 (1 / 10)) = true ∨
          (ieee.Fp.eq vx (ieee.Fp.ofNat ieee.binary64 0) = true ∧
            ieee.Fp.eq vy (ieee.Fp.ofNat ieee.binary64 0) = true) ∨
          ieee.Fp.lt (ieee.Fp.mul ieee.binary64 radius (ieee.Fp.ofRat ieee.binary64 (8 / 10)))
            (ieee.Fp.abs vx) = true ∨
          ieee.Fp.lt (ieee.Fp.mul ieee.binary64 radius (ieee.Fp.ofRat ieee.binary64 (8 / 10)))
            (ieee.Fp.abs vy) = true ∨
          x < 450 ∨ 1350 < x ∨ y < 80 ∨ 720 < y)) ∧
      (¬ (ieee.Fp.lt radius (ieee.Fp.ofRat ieee.binary64 (1 / 10)) = true ∨
          ieee.Fp.lt mass (ieee.Fp.ofRat ieee.binary64 (1 / 10)) = true ∨
          (ieee.Fp.eq vx (ieee.Fp.ofNat ieee.binary64 0) = true ∧
            ieee.Fp.eq vy (ieee.Fp.ofNat ieee.binary64 0) = true) ∨
          ieee.Fp.lt (ieee.Fp.mul ieee.binary64 radius (ieee.Fp.ofRat ieee.binary64 (8 / 10)))
            (ieee.Fp.abs vx) = true ∨
          ieee.Fp.lt (ieee.Fp.mul ieee.binary64 radius (ieee.Fp.ofRat ieee.binary64 (8 / 10)))
            (ieee.Fp.abs vy) = true ∨
          x < 450 ∨ 1350 < x ∨ y < 80 ∨ 720 < y) →
        (s.AddParticlesExplicit amount radius mass color x y vx vy).1 = Except.ok ()) := by
  rw [AddParticlesExplicit_fst_double]
  exact ⟨Validate_error_iff_double radius mass x y vx vy,
    (Validate_ok_iff_double radius mass x y vx vy).mpr⟩

/-- C15, amended: when the explicit-position `AddParticles` returns normally,
the particle list is the previous list followed by `amount` particles, each with
position `(x, y)` (both coordinates are integers that a `float` holds exactly),
the velocity `(vx, vy)` narrowed from `double` to `float`, and the radius, mass
and colour given. -/
theorem AddParticlesExplicit_appends_narrowed (s : ieee.ParticleSimulator) (amount : ℕ)
    (radius mass : ieee.Fp) (color : String) (x y : ℕ) (vx vy : ieee.Fp)
    (h : (s.AddParticlesExplicit amount radius mass color x y vx vy).1 = Except.ok ()) :
    (s.AddParticlesExplicit amount radius mass color x y vx vy).2.particles_ =
      s.particles_ ++ List.replicate amount
        { position_ := ⟨ieee.Fp.fin false (x : ℚ), ieee.Fp.fin false (y : ℚ)⟩,
          velocity_ := ⟨ieee.Fp.cast ieee.binary32 vx, ieee.Fp.cast ieee.binary32 vy⟩,
          mass_ := mass, color_ := color, radius_ := radius } := by
  rw [AddParticlesExplicit_fst_double] at h
  have hb := (Validate_ok_iff_double radius mass x y vx vy).mp h
  have hx : x < 2 ^ 24 := by
    by_contra hn
    exact hb (Or.inr (Or.inr (Or.inr (Or.inr (Or.inr (Or.inr (Or.inl (by
      have : (2 : ℕ) ^ 24 = 16777216 := by norm_num
      omega))))))))
  have hy : y < 2 ^ 24 := by
    by_contra hn
    exact hb (Or.inr (Or.inr (Or.inr (Or.inr (Or.inr (Or.inr (Or.inr (Or.inr (by
      have : (2 : ℕ) ^ 24 = 16777216 := by norm_num
      omega)))))))))
  unfold ieee.ParticleSimulator.AddParticlesExplicit
  rw [h]
  simp only [emplaceLoop_eq_double, ieee.Particle.new, ofNat_binary32_exact x hx,
    ofNat_binary32_exact y hy]

theorem drifting_spawn_ok :
    ((ieee.ParticleSimulator.mk []).AddParticlesExplicit 1 (ieee.Fp.ofRat ieee.binary64 10)
      (ieee.Fp.ofRat ieee.binary64 10) "red" 500 500 (ieee.Fp.ofRat ieee.binary64 (1 / 10))
      (ieee.Fp.ofRat ieee.binary64 (1 / 10))).1 = Except.ok () := by
  rw [AddParticlesExplicit_fst_double, Validate_ok_iff_double]
  decide!

/-- Witness of the amended C15: `AddParticles(1, 10, 10, "red", 500, 500, 0.1, 0.1)`
on the empty simulator stores the velocity `(0.1f, 0.1f)`,
`0.1f = 13421773 / 134217728`. -/
theorem AddParticlesExplicit_appends_narrowed_witness :
    ((ieee.ParticleSimulator.mk []).AddParticlesExplicit 1 (ieee.Fp.ofRat ieee.binary64 10)
        (ieee.Fp.ofRat ieee.binary64 10) "red" 500 500 (ieee.Fp.ofRat ieee.binary64 (1 / 10))
        (ieee.Fp.ofRat ieee.binary64 (1 / 10))).1 = Except.ok () ∧
      ((ieee.ParticleSimulator.mk []).AddParticlesExplicit 1 (ieee.Fp.ofRat ieee.binary64 10)
        (ieee.Fp.ofRat ieee.binary64 10) "red" 500 500 (ieee.Fp.ofRat ieee.binary64 (1 / 10))
        (ieee.Fp.ofRat ieee.binary64 (1 / 10))).2.particles_ =
        [] ++ List.replicate 1
          { position_ := ⟨ieee.Fp.fin false ((500 : ℕ) : ℚ), ieee.Fp.fin false ((500 : ℕ) : ℚ)⟩,
            velocity_ := ⟨ieee.Fp.cast ieee.binary32 (ieee.Fp.ofRat ieee.binary64 (1 / 10)),
              ieee.Fp.cast ieee.binary32 (ieee.Fp.ofRat ieee.binary64 (1 / 10))⟩,
            mass_ := ieee.Fp.ofRat ieee.binary64 10, color_ := "red",
            radius_ := ieee.Fp.ofRat ieee.binary64 10 } ∧
      ieee.Fp.cast ieee.binary32 (ieee.Fp.ofRat ieee.binary64 (1 / 10)) =
        ieee.Fp.fin false (13421773 / 134217728) :=
  ⟨drifting_spawn_ok,
    AddParticlesExplicit_appends_narrowed _ _ _ _ _ _ _ _ _ drifting_spawn_ok, by decide!⟩

/-- C7, amended: after `Particle::Update` each component of the position is the
`float` sum of the old position and the old velocity, the exact sum rounded to
the nearest `float`, whatever the wall checks do to the velocity. -/
theorem Update_position_single (p : ieee.Particle) :
    p.Update.position_.x = ieee.Fp.add ieee.binary32 p.position_.x p.velocity_.x ∧
      p.Update.position_.y = ieee.Fp.add ieee.binary32 p.position_.y p.velocity_.y ∧
      (∀ (s t : Bool) (a b : ℚ), p.position_.x = ieee.Fp.fin s a →
        p.velocity_.x = ieee.Fp.fin t b →
        (ieee.Fp.fin s a).toRat + (ieee.Fp.fin t b).toRat ≠ 0 →
        p.Update.position_.x =
          ieee.Fp.ofRat ieee.binary32 ((ieee.Fp.fin s a).toRat + (ieee.Fp.fin t b).toRat)) ∧
      (∀ (s t : Bool) (a b : ℚ), p.position_.y = ieee.Fp.fin s a →
        p.velocity_.y = ieee.Fp.fin t b →
        (ieee.Fp.fin s a).toRat + (ieee.Fp.fin t b).toRat ≠ 0 →
        p.Update.position_.y =
          ieee.Fp.ofRat ieee.binary32 ((ieee.Fp.fin s a).toRat + (ieee.Fp.fin t b).toRat)) := by
  refine ⟨rfl, rfl, ?_, ?_⟩
  · intro s t a b hp hv hne
    show ieee.Fp.add ieee.binary32 p.position_.x p.velocity_.x = _
    rw [hp, hv]
    simp only [ieee.Fp.add, ieee.Fp.ofRat, if_neg hne]
  · intro s t a b hp hv hne
    show ieee.Fp.add ieee.binary32 p.position_.y p.velocity_.y = _
    rw [hp, hv]
    simp only [ieee.Fp.add, ieee.Fp.ofRat, if_neg hne]

/-! ### Known values of the two formats

Anchors for the rounding of `ieee.Format.round`: the `float` and the `double`
nearest to `0.1`, `sqrtf(2)` and `sqrt(2)`, ties to even at `2 ^ 24`, overflow above
`FLT_MAX`, the smallest subnormal and the underflow below it, the signed zero, and
division by zero. -/

theorem known_values_of_the_formats :
    ieee.Fp.ofRat ieee.binary32 (1 / 10) = ieee.Fp.fin false (13421773 / 134217728) ∧
      ieee.Fp.ofRat ieee.binary64 (1 / 10) =
        ieee.Fp.fin false (3602879701896397 / 36028797018963968) ∧
      ieee.Fp.sqrt ieee.binary32 (ieee.Fp.fin false 2) =
        ieee.Fp.fin false (11863283 / 8388608) ∧
      ieee.Fp.sqrt ieee.binary64 (ieee.Fp.fin false 2) =
        ieee.Fp.fin false (6369051672525773 / 4503599627370496) ∧
      ieee.Fp.ofRat ieee.binary32 (2 ^ 24 + 1) = ieee.Fp.fin false (2 ^ 24) ∧
      ieee.Fp.ofRat ieee.binary32 (2 ^ 24 + 3) = ieee.Fp.fin false (2 ^ 24 + 4) ∧
      ieee.Fp.add ieee.binary32 (ieee.Fp.fin false 16777216) (ieee.Fp.fin false 1) =
        ieee.Fp.fin false 16777216 ∧
      ieee.Fp.ofRat ieee.binary32 ((2 ^ 24 - 1) * 2 ^ 104) =
        ieee.Fp.fin false 340282346638528859811704183484516925440 ∧
      ieee.Fp.ofRat ieee.binary32 ((2 ^ 25 - 1) * 2 ^ 103) = ieee.Fp.inf false ∧
      ieee.Fp.ofRat ieee.binary32 (1 / 2 ^ 149) = ieee.Fp.fin false (1 / 2 ^ 149) ∧
      ieee.Fp.ofRat ieee.binary32 (1 / 2 ^ 150) = ieee.Fp.fin false 0 ∧
      ieee.Fp.ofRat ieee.binary32 (3 / 2 ^ 150) = ieee.Fp.fin false (1 / 2 ^ 148) ∧
      ieee.Fp.ofRat ieee.binary32 (-1 / 2 ^ 151) = ieee.Fp.fin true 0 ∧
      ieee.Fp.div ieee.binary32 (ieee.Fp.fin false 1) (ieee.Fp.fin false 0) =
        ieee.Fp.inf false ∧
      ieee.Fp.div ieee.binary32 (ieee.Fp.fin false 0) (ieee.Fp.fin false 0) = ieee.Fp.nan ∧
      ieee.Fp.div ieee.binary64 (ieee.Fp.fin false 1) (ieee.Fp.fin false 3) =
        ieee.Fp.fin false (6004799503160661 / 18014398509481984) := by
  decide!

/-! ### The expectations of the repository tests

On the whole numbers of the tests the arithmetic of the program is exact, and the
embedding of the program gives the values the tests require. -/

theorem testHeadOn_as_the_tests_require :
    ieee.testHeadOn.Update.particles_ =
        [⟨⟨ieee.Fp.fin false 552, ieee.Fp.fin false 550⟩,
            ⟨ieee.Fp.fin false 2, ieee.Fp.fin false 0⟩, ieee.Fp.fin false 10, "red",
            ieee.Fp.fin false 10⟩,
          ⟨⟨ieee.Fp.fin false 538, ieee.Fp.fin false 550⟩,
            ⟨ieee.Fp.fin true 2, ieee.Fp.fin false 0⟩, ieee.Fp.fin false 10, "red",
            ieee.Fp.fin false 10⟩] ∧
      ieee.testHeadOn.Update.Update.particles_.map (fun p => p.velocity_) =
        [⟨ieee.Fp.fin false 2, ieee.Fp.fin false 0⟩,
          ⟨ieee.Fp.fin true 2, ieee.Fp.fin false 0⟩] := by
  decide!

theorem testUnequalMass_as_the_tests_require :
    ieee.testUnequalMass.Update.particles_ =
      [⟨⟨ieee.Fp.fin false 555, ieee.Fp.fin false 545⟩,
          ⟨ieee.Fp.fin false 5, ieee.Fp.fin false 0⟩, ieee.Fp.fin false 10, "red",
          ieee.Fp.fin false 10⟩,
        ⟨⟨ieee.Fp.fin false 539, ieee.Fp.fin false 545⟩,
          ⟨ieee.Fp.fin true 1, ieee.Fp.fin false 0⟩, ieee.Fp.fin false 20, "red",
          ieee.Fp.fin false 20⟩] := by
  decide!

/-! ## Single and double precision: where the program leaves exact arithmetic

The statements of this part evaluate the embedding `ieee` of the program on
particles that `AddParticles` creates, and set the result against what the
exact reading of a property gives on the same stored values (`toExact`). -/

/-- C1 as stated fails in the arithmetic of the program, in both directions.
The particles of `grazingPair` approach each other with centres `sqrt 10` apart,
less than the sum `3.1622776985...` of their radii, yet `glm::distance` rounds
`sqrt 10` up to the `float` `3.1622776985...` itself and `CanCollide` returns
false.  The particles of `nearMissPair` have centres `sqrt 401` apart, more than
the sum `20.0249843597...` of their radii, yet `glm::distance` rounds `sqrt 401`
down to a `float` below that sum and `CanCollide` returns true. -/
theorem CanCollide_rounded_distance :
    (ieee.grazingPair.particles_ = [ieee.grazingUpper, ieee.grazingLower] ∧
      ieee.CanCollide ieee.grazingUpper ieee.grazingLower = false ∧
      Real.sqrt ((lengthSq (Vec2.sub ieee.grazingUpper.toExact.position_
          ieee.grazingLower.toExact.position_) : ℚ) : ℝ) <
        ((ieee.grazingUpper.toExact.radius_ + ieee.grazingLower.toExact.radius_ : ℚ) : ℝ) ∧
      dot (Vec2.sub ieee.grazingUpper.toExact.velocity_ ieee.grazingLower.toExact.velocity_)
        (Vec2.sub ieee.grazingUpper.toExact.position_ ieee.grazingLower.toExact.position_) <
          0) ∧
    (ieee.nearMissPair.particles_ = [ieee.nearMissUpper, ieee.nearMissLower] ∧
      ieee.CanCollide ieee.nearMissUpper ieee.nearMissLower = true ∧
      ¬ Real.sqrt ((lengthSq (Vec2.sub ieee.nearMissUpper.toExact.position_
          ieee.nearMissLower.toExact.position_) : ℚ) : ℝ) <
        ((ieee.nearMissUpper.toExact.radius_ + ieee.nearMissLower.toExact.radius_ : ℚ) : ℝ)) := by
  refine ⟨⟨by decide!, by decide!, ?_, by decide!⟩, by decide!, by decide!, ?_⟩
  · exact (distanceLt_iff_sqrt_lt _ _ _).mp (by decide!)
  · intro h
    exact absurd ((distanceLt_iff_sqrt_lt _ _ _).mpr h) (by decide!)

/-- C5 as stated fails in the arithmetic of the program.  The particles of
`stickingPair` (masses 1 and 1000) satisfy `CanCollide`: they overlap and the
scalar product of the relative velocity and the relative position is
`-2 ^ (-21)`.  The velocity change that `Collide` computes for either particle is
less than half a `float` step of its velocity, so `Collide` returns both
particles unchanged, and `CanCollide` is still true on the resolved pair: the
scalar product has not changed sign. -/
theorem Collide_sticking_in_single_precision :
    ieee.stickingPair.particles_ = [ieee.stickingLight, ieee.stickingHeavy] ∧
      ieee.stickingLight.toExact.mass_ + ieee.stickingHeavy.toExact.mass_ ≠ 0 ∧
      ieee.CanCollide ieee.stickingLight ieee.stickingHeavy = true ∧
      ieee.Collide ieee.stickingLight ieee.stickingHeavy =
        (ieee.stickingLight, ieee.stickingHeavy) ∧
      ieee.CanCollide (ieee.Collide ieee.stickingLight ieee.stickingHeavy).1
        (ieee.Collide ieee.stickingLight ieee.stickingHeavy).2 = true ∧
      ieee.dot
          (ieee.Vec2.sub (ieee.Collide ieee.stickingLight ieee.stickingHeavy).1.velocity_
            (ieee.Collide ieee.stickingLight ieee.stickingHeavy).2.velocity_)
          (ieee.Vec2.sub ieee.stickingLight.position_ ieee.stickingHeavy.position_) =
        ieee.Fp.fin true (1 / 2097152) ∧
      dot
          (Vec2.sub (ieee.Collide ieee.stickingLight ieee.stickingHeavy).1.toExact.velocity_
            (ieee.Collide ieee.stickingLight ieee.stickingHeavy).2.toExact.velocity_)
          (Vec2.sub ieee.stickingLight.toExact.position_ ieee.stickingHeavy.toExact.position_) <
        0 := by
  decide!

/-- C7 as stated fails in the arithmetic of the program: the particle that
`AddParticles(1, 10, 10, "red", 500, 500, 0.1, 0.1)` creates has the velocity
`0.1f = 0.100000001490116...`, and `Particle::Update` moves it from `x = 500` to
the `float` `16387277 / 32768 = 500.100006103515625`, not to the sum
`500.100000001490116...`, which no `float` holds. -/
theorem Update_position_rounded :
    ((ieee.ParticleSimulator.mk []).AddParticlesExplicit 1 (ieee.Fp.ofRat ieee.binary64 10)
        (ieee.Fp.ofRat ieee.binary64 10) "red" 500 500 (ieee.Fp.ofRat ieee.binary64 (1 / 10))
        (ieee.Fp.ofRat ieee.binary64 (1 / 10))).2.particles_ = [ieee.drifting] ∧
      ieee.drifting.Update.position_ =
        ⟨ieee.Fp.fin false (16387277 / 32768), ieee.Fp.fin false (16387277 / 32768)⟩ ∧
      ieee.drifting.position_.x.toRat + ieee.drifting.velocity_.x.toRat =
        67122285773 / 134217728 ∧
      ieee.drifting.Update.position_.x.toRat ≠
        ieee.drifting.position_.x.toRat + ieee.drifting.velocity_.x.toRat ∧
      ieee.drifting.Update.position_.y.toRat ≠
        ieee.drifting.position_.y.toRat + ieee.drifting.velocity_.y.toRat := by
  decide!

/-- C10 as stated fails in the arithmetic of the program: the particle that
`AddParticles(1, 9.9, 10, "red", 1340, 710, 0.1, 0.1)` creates has `vx > 0`,
`vy > 0`, `x + vx = 1340.1000000014... >= 1350 - radius` and
`y + vy = 710.1000000014... >= 720 - radius` (with the differences exact or
rounded to `double`), but `position_ += velocity_` rounds the moved position to
the `float`s `1340.0999755859375` and `710.0999755859375`, below both
thresholds, and `Particle::Update` negates neither component. -/
theorem Update_corner_missed_by_rounding :
    ((ieee.ParticleSimulator.mk []).AddParticlesExplicit 1
        (ieee.Fp.ofRat ieee.binary64 (99 / 10)) (ieee.Fp.ofRat ieee.binary64 10) "red" 1340 710
        (ieee.Fp.ofRat ieee.binary64 (1 / 10))
        (ieee.Fp.ofRat ieee.binary64 (1 / 10))).2.particles_ = [ieee.cornerGrazer] ∧
      (0 < ieee.cornerGrazer.toExact.velocity_.x ∧ 0 < ieee.cornerGrazer.toExact.velocity_.y ∧
        ieee.cornerGrazer.toExact.position_.x + ieee.cornerGrazer.toExact.velocity_.x ≥
          1350 - ieee.cornerGrazer.toExact.radius_ ∧
        ieee.cornerGrazer.toExact.position_.y + ieee.cornerGrazer.toExact.velocity_.y ≥
          720 - ieee.cornerGrazer.toExact.radius_) ∧
      (ieee.cornerGrazer.toExact.position_.x + ieee.cornerGrazer.toExact.velocity_.x ≥
          (ieee.Fp.sub ieee.binary64 (ieee.Fp.ofNat ieee.binary64 1350)
            ieee.cornerGrazer.radius_).toRat ∧
        ieee.cornerGrazer.toExact.position_.y + ieee.cornerGrazer.toExact.velocity_.y ≥
          (ieee.Fp.sub ieee.binary64 (ieee.Fp.ofNat ieee.binary64 720)
            ieee.cornerGrazer.radius_).toRat) ∧
      ieee.cornerGrazer.Update.velocity_ = ieee.cornerGrazer.velocity_ ∧
      ieee.cornerGrazer.Update.position_ =
        ⟨ieee.Fp.fin false (10978099 / 8192), ieee.Fp.fin false (5817139 / 8192)⟩ := by
  decide!

/-- C11 as stated fails in the arithmetic of the program: in the tick of
`slowHeadOn` the collision is resolved first (the particles leave with the
velocities `Collide` gives them), but the first particle ends at the `float`
`9016115 / 16384 = 550.29998779296875` and not at its old position plus its new
velocity, `550 + 0.2999999523... = 550.2999999523...`; likewise the second. -/
theorem Update_position_after_collision_rounded :
    ieee.slowHeadOn.particles_ = [ieee.slowRight, ieee.slowLeft] ∧
      ieee.CanCollide ieee.slowRight ieee.slowLeft = true ∧
      ieee.slowHeadOn.Update.particles_ =
        [⟨⟨ieee.Fp.fin false (9016115 / 16384), ieee.Fp.fin false 550⟩,
            (ieee.Collide ieee.slowRight ieee.slowLeft).1.velocity_, ieee.Fp.fin false 10, "red",
            ieee.Fp.fin false 10⟩,
          ⟨⟨ieee.Fp.fin false (8842445 / 16384), ieee.Fp.fin false 550⟩,
            (ieee.Collide ieee.slowRight ieee.slowLeft).2.velocity_, ieee.Fp.fin false 10, "red",
            ieee.Fp.fin false 10⟩] ∧
      (9016115 / 16384 : ℚ) ≠
        ieee.slowRight.position_.x.toRat +
          (ieee.Collide ieee.slowRight ieee.slowLeft).1.velocity_.x.toRat ∧
      (8842445 / 16384 : ℚ) ≠
        ieee.slowLeft.position_.x.toRat +
          (ieee.Collide ieee.slowRight ieee.slowLeft).2.velocity_.x.toRat := by
  decide!

/-- C13 as stated fails in the arithmetic of the program: the two particles of
`driftingPair` do not satisfy `CanCollide`, and after the tick the first is at
the `float` `500.100006103515625` on both axes, not at its old position plus
its velocity `0.1f`, `500.100000001490116...`; the velocities are unchanged. -/
theorem Update_without_collision_rounded :
    ieee.driftingPair.particles_ = [ieee.drifting, ieee.driftingFar] ∧
      ieee.CanCollide ieee.drifting ieee.driftingFar = false ∧
      ieee.driftingPair.Update.particles_ =
        [⟨⟨ieee.Fp.fin false (16387277 / 32768), ieee.Fp.fin false (16387277 / 32768)⟩,
            ieee.drifting.velocity_, ieee.Fp.fin false 10, "red", ieee.Fp.fin false 10⟩,
          ⟨⟨ieee.Fp.fin false (7373619 / 8192), ieee.Fp.fin false (9833677 / 32768)⟩,
            ieee.driftingFar.velocity_, ieee.Fp.fin false 10, "red", ieee.Fp.fin false 10⟩] ∧
      (16387277 / 32768 : ℚ) ≠ ieee.drifting.position_.x.toRat + ieee.drifting.velocity_.x.toRat ∧
      (7373619 / 8192 : ℚ) ≠
        ieee.driftingFar.position_.x.toRat + ieee.driftingFar.velocity_.x.toRat := by
  decide!

theorem justAbove_spawn_ok :
    ((ieee.ParticleSimulator.mk []).AddParticlesExplicit 1 (ieee.Fp.ofRat ieee.binary64 3)
      (ieee.Fp.ofRat ieee.binary64 1) "red" 500 500 ieee.justAbove
      (ieee.Fp.ofRat ieee.binary64 0)).1 = Except.ok () := by
  rw [AddParticlesExplicit_fst_double, Validate_ok_iff_double]
  decide!

/-- C14 as stated fails in the arithmetic of the program: with radius 3 and
`vx = 2.4000000000000004` (the `double` next above `2.4`) the call is accepted,
although `|vx| > 0.8 * radius = 2.4`, and also `|vx| > .8 * radius` with `.8` the
`double` nearest to `0.8`: the program compares `vx` with the product rounded to
`double`, which is `2.4000000000000004` itself. -/
theorem AddParticlesExplicit_accepts_above_bound :
    ((ieee.ParticleSimulator.mk []).AddParticlesExplicit 1 (ieee.Fp.ofRat ieee.binary64 3)
        (ieee.Fp.ofRat ieee.binary64 1) "red" 500 500 ieee.justAbove
        (ieee.Fp.ofRat ieee.binary64 0)).1 = Except.ok () ∧
      |ieee.justAbove.toRat| > 0.8 * (ieee.Fp.ofRat ieee.binary64 3).toRat ∧
      |ieee.justAbove.toRat| >
        (ieee.Fp.ofRat ieee.binary64 (8 / 10)).toRat * (ieee.Fp.ofRat ieee.binary64 3).toRat ∧
      ieee.Fp.mul ieee.binary64 (ieee.Fp.ofRat ieee.binary64 3)
        (ieee.Fp.ofRat ieee.binary64 (8 / 10)) = ieee.justAbove :=
  ⟨justAbove_spawn_ok, by decide!, by decide!, by decide!⟩

/-- C15 as stated fails in the arithmetic of the program:
`AddParticles(1, 10, 10, "red", 500, 500, 0.1, 0.1)` is accepted, and the particle
it adds has the x-velocity `0.1f = 13421773 / 134217728`, not the argument, the
`double` `0.1 = 3602879701896397 / 36028797018963968`. -/
theorem AddParticlesExplicit_velocity_not_stored :
    ((ieee.ParticleSimulator.mk []).AddParticlesExplicit 1 (ieee.Fp.ofRat ieee.binary64 10)
        (ieee.Fp.ofRat ieee.binary64 10) "red" 500 500 (ieee.Fp.ofRat ieee.binary64 (1 / 10))
        (ieee.Fp.ofRat ieee.binary64 (1 / 10))).1 = Except.ok () ∧
      ((ieee.ParticleSimulator.mk []).AddParticlesExplicit 1 (ieee.Fp.ofRat ieee.binary64 10)
        (ieee.Fp.ofRat ieee.binary64 10) "red" 500 500 (ieee.Fp.ofRat ieee.binary64 (1 / 10))
        (ieee.Fp.ofRat ieee.binary64 (1 / 10))).2.particles_ = [ieee.drifting] ∧
      ieee.drifting.velocity_.x = ieee.Fp.fin false (13421773 / 134217728) ∧
      ieee.Fp.ofRat ieee.binary64 (1 / 10) =
        ieee.Fp.fin false (3602879701896397 / 36028797018963968) ∧
      ieee.drifting.velocity_.x ≠ ieee.Fp.ofRat ieee.binary64 (1 / 10) ∧
      ieee.drifting.velocity_.y ≠ ieee.Fp.ofRat ieee.binary64 (1 / 10) :=
  ⟨drifting_spawn_ok, by decide!, by decide!, by decide!, by decide!, by decide!⟩

/-- C20 as stated fails, in five ways.  A spawn:
`AddParticles(1, 10, 10, "red", 550, 550, 8, 0)` is accepted (the validation allows
`0.8 * radius`) and creates a particle with the x-velocity 8, above half its
radius.  A collision: the particles of
`unequalHeadOn` are spawned at half their radius and the lighter one leaves the
tick with the x-velocity 10, a full radius.  `SlowDown`: the particle of
`smallCrawler` (radius `0.5`, x-velocity `0.125`) leaves it with `-0.375`, above
`0.25`.  `SpeedUp`: the particle of `nearLimit` (radius 10, x-velocity `4.75`)
leaves it with `5.25`.  Rounding: `AddParticles(1, 0.3, 10, "red", 500, 500, 0.15, 0)`
passes an x-velocity equal to half the radius, and the particle stores the
`float` `0.15f = 0.1500000059...`, above half the radius. -/
theorem velocity_bound_broken :
    (∃ a : ieee.Particle, ieee.fastSpawn.particles_ = [a] ∧
      a.velocity_ = ⟨ieee.Fp.fin false 8, ieee.Fp.fin false 0⟩ ∧
      a.radius_ = ieee.Fp.fin false 10 ∧
      ¬ |a.toExact.velocity_.x| ≤ a.toExact.radius_ / 2) ∧
    (∃ a b : ieee.Particle,
      (∀ p ∈ ieee.unequalHeadOn.particles_,
        |p.toExact.velocity_.x| ≤ p.toExact.radius_ / 2 ∧
          |p.toExact.velocity_.y| ≤ p.toExact.radius_ / 2) ∧
      ieee.unequalHeadOn.Update.particles_ = [a, b] ∧
      a.velocity_ = ⟨ieee.Fp.fin false 10, ieee.Fp.fin false 0⟩ ∧
      ¬ |a.toExact.velocity_.x| ≤ a.toExact.radius_ / 2) ∧
    (∃ a : ieee.Particle,
      (∀ p ∈ ieee.smallCrawler.particles_,
        |p.toExact.velocity_.x| ≤ p.toExact.radius_ / 2 ∧
          |p.toExact.velocity_.y| ≤ p.toExact.radius_ / 2) ∧
      ieee.smallCrawler.SlowDown.particles_ = [a] ∧
      a.velocity_ = ⟨ieee.Fp.fin true (3 / 8), ieee.Fp.fin false 0⟩ ∧
      ¬ |a.toExact.velocity_.x| ≤ a.toExact.radius_ / 2) ∧
    (∃ a : ieee.Particle,
      (∀ p ∈ ieee.nearLimit.particles_,
        |p.toExact.velocity_.x| ≤ p.toExact.radius_ / 2 ∧
          |p.toExact.velocity_.y| ≤ p.toExact.radius_ / 2) ∧
      ieee.nearLimit.SpeedUp.particles_ = [a] ∧
      a.velocity_ = ⟨ieee.Fp.fin false (21 / 4), ieee.Fp.fin false (1 / 2)⟩ ∧
      ¬ |a.toExact.velocity_.x| ≤ a.toExact.radius_ / 2) ∧
    (∃ a : ieee.Particle,
      |(ieee.Fp.ofRat ieee.binary64 (15 / 100)).toRat| ≤
        (ieee.Fp.ofRat ieee.binary64 (3 / 10)).toRat / 2 ∧
      ieee.halfRadiusSpawn.particles_ = [a] ∧
      a.velocity_ = ⟨ieee.Fp.fin false (5033165 / 33554432), ieee.Fp.fin false 0⟩ ∧
      a.radius_ = ieee.Fp.ofRat ieee.binary64 (3 / 10) ∧
      ¬ |a.toExact.velocity_.x| ≤ a.toExact.radius_ / 2) := by
  refine ⟨⟨⟨⟨ieee.Fp.fin false 550, ieee.Fp.fin false 550⟩,
      ⟨ieee.Fp.fin false 8, ieee.Fp.fin false 0⟩, ieee.Fp.fin false 10, "red",
      ieee.Fp.fin false 10⟩, by decide!⟩,
    ⟨⟨⟨ieee.Fp.fin false 560, ieee.Fp.fin false 550⟩,
      ⟨ieee.Fp.fin false 10, ieee.Fp.fin false 0⟩, ieee.Fp.fin false 1, "red",
      ieee.Fp.fin false 10⟩,
    ⟨⟨ieee.Fp.fin false 540, ieee.Fp.fin false 550⟩,
      ⟨ieee.Fp.fin false 0, ieee.Fp.fin false 0⟩, ieee.Fp.fin false 3, "red",
      ieee.Fp.fin false 10⟩, by decide!⟩,
    ⟨⟨⟨ieee.Fp.fin false 500, ieee.Fp.fin false 500⟩,
      ⟨ieee.Fp.fin true (3 / 8), ieee.Fp.fin false 0⟩, ieee.Fp.fin false 10, "red",
      ieee.Fp.fin false (1 / 2)⟩, by decide!⟩,
    ⟨⟨⟨ieee.Fp.fin false 500, ieee.Fp.fin false 500⟩,
      ⟨ieee.Fp.fin false (21 / 4), ieee.Fp.fin false (1 / 2)⟩, ieee.Fp.fin false 10, "red",
      ieee.Fp.fin false 10⟩, by decide!⟩,
    ⟨⟨⟨ieee.Fp.fin false 500, ieee.Fp.fin false 500⟩,
      ⟨ieee.Fp.fin false (5033165 / 33554432), ieee.Fp.fin false 0⟩, ieee.Fp.fin false 10, "red",
      ieee.Fp.fin false (5404319552844595 / 18014398509481984)⟩, by decide!⟩⟩

/-- C21 as stated fails, in three ways.  A spawn: `cornerSpawned` holds a
particle of radius 10 at `x = 450`, below `450 + 10 - 1`.  A collision: the
particles of `bouncerAndFollower` are spawned between the walls inset by the
radius, do not collide in the first tick and collide in the second, which
leaves the first at `x = 458.5` with the x-velocity `0.5`, below
`450 + 10 - 0.5`.  Rounding: the particle of `wallToucher` is spawned at
`x = 460 = 450 + 10` with the x-velocity `-0.1f`, and its first tick rounds the
position to the `float` `459.899993896484375`, below
`450 + 10 - 0.1f = 459.8999999985...`. -/
theorem containment_broken :
    (∃ a : ieee.Particle, ieee.cornerSpawned.particles_ = [a] ∧
      ¬ 450 + a.toExact.radius_ - |a.toExact.velocity_.x| ≤ a.toExact.position_.x) ∧
    (∃ a b a1 b1 a2 b2 : ieee.Particle, ieee.bouncerAndFollower.particles_ = [a, b] ∧
      (450 + a.toExact.radius_ ≤ a.toExact.position_.x ∧
        a.toExact.position_.x ≤ 1350 - a.toExact.radius_ ∧
        80 + a.toExact.radius_ ≤ a.toExact.position_.y ∧
        a.toExact.position_.y ≤ 720 - a.toExact.radius_) ∧
      (450 + b.toExact.radius_ ≤ b.toExact.position_.x ∧
        b.toExact.position_.x ≤ 1350 - b.toExact.radius_ ∧
        80 + b.toExact.radius_ ≤ b.toExact.position_.y ∧
        b.toExact.position_.y ≤ 720 - b.toExact.radius_) ∧
      ieee.bouncerAndFollower.Update.particles_ = [a1, b1] ∧
      ieee.bouncerAndFollower.Update.Update.particles_ = [a2, b2] ∧
      a2.position_ = ⟨ieee.Fp.fin false (917 / 2), ieee.Fp.fin false 500⟩ ∧
      a2.velocity_ = ⟨ieee.Fp.fin false (1 / 2), ieee.Fp.fin false 0⟩ ∧
      ¬ 450 + a2.toExact.radius_ - |a2.toExact.velocity_.x| ≤ a2.toExact.position_.x) ∧
    (∃ a a1 : ieee.Particle, ieee.wallToucher.particles_ = [a] ∧
      (450 + a.toExact.radius_ ≤ a.toExact.position_.x ∧
        a.toExact.position_.x ≤ 1350 - a.toExact.radius_ ∧
        80 + a.toExact.radius_ ≤ a.toExact.position_.y ∧
        a.toExact.position_.y ≤ 720 - a.toExact.radius_) ∧
      ieee.wallToucher.Update.particles_ = [a1] ∧
      a1.position_ = ⟨ieee.Fp.fin false (15070003 / 32768), ieee.Fp.fin false 500⟩ ∧
      a1.velocity_ = ⟨ieee.Fp.fin false (13421773 / 134217728), ieee.Fp.fin false 0⟩ ∧
      ¬ 450 + a1.toExact.radius_ - |a1.toExact.velocity_.x| ≤ a1.toExact.position_.x) := by
  refine ⟨⟨⟨⟨ieee.Fp.fin false 450, ieee.Fp.fin false 80⟩,
      ⟨ieee.Fp.fin false 1, ieee.Fp.fin false 1⟩, ieee.Fp.fin false 10, "red",
      ieee.Fp.fin false 10⟩, by decide!⟩,
    ⟨⟨⟨ieee.Fp.fin false 461, ieee.Fp.fin false 500⟩,
      ⟨ieee.Fp.fin true 3, ieee.Fp.fin false 0⟩, ieee.Fp.fin false 10, "red",
      ieee.Fp.fin false 10⟩,
    ⟨⟨ieee.Fp.fin false 470, ieee.Fp.fin false 500⟩,
      ⟨ieee.Fp.fin false (1 / 2), ieee.Fp.fin false 0⟩, ieee.Fp.fin false 10, "red",
      ieee.Fp.fin false 10⟩,
    ⟨⟨ieee.Fp.fin false 458, ieee.Fp.fin false 500⟩,
      ⟨ieee.Fp.fin false 3, ieee.Fp.fin false 0⟩, ieee.Fp.fin false 10, "red",
      ieee.Fp.fin false 10⟩,
    ⟨⟨ieee.Fp.fin false (941 / 2), ieee.Fp.fin false 500⟩,
      ⟨ieee.Fp.fin false (1 / 2), ieee.Fp.fin false 0⟩, ieee.Fp.fin false 10, "red",
      ieee.Fp.fin false 10⟩,
    ⟨⟨ieee.Fp.fin false (917 / 2), ieee.Fp.fin false 500⟩,
      ⟨ieee.Fp.fin false (1 / 2), ieee.Fp.fin false 0⟩, ieee.Fp.fin false 10, "red",
      ieee.Fp.fin false 10⟩,
    ⟨⟨ieee.Fp.fin false (947 / 2), ieee.Fp.fin false 500⟩,
      ⟨ieee.Fp.fin false 3, ieee.Fp.fin false 0⟩, ieee.Fp.fin false 10, "red",
      ieee.Fp.fin false 10⟩, by decide!⟩,
    ⟨⟨⟨ieee.Fp.fin false 460, ieee.Fp.fin false 500⟩,
      ⟨ieee.Fp.fin true (13421773 / 134217728), ieee.Fp.fin false 0⟩, ieee.Fp.fin false 10,
      "red", ieee.Fp.fin false 10⟩,
    ⟨⟨ieee.Fp.fin false (15070003 / 32768), ieee.Fp.fin false 500⟩,
      ⟨ieee.Fp.fin false (13421773 / 134217728), ieee.Fp.fin false 0⟩, ieee.Fp.fin false 10,
      "red", ieee.Fp.fin false 10⟩, by decide!⟩⟩

theorem almostFive_speed :
    ∀ a : ieee.Particle,
      a = ⟨⟨ieee.Fp.fin false 500, ieee.Fp.fin false 500⟩,
        ⟨ieee.Fp.fin false 3, ieee.Fp.fin false (16777215 / 4194304)⟩, ieee.Fp.fin false 10, "red",
        ieee.Fp.fin false 10⟩ →
      (0 : ℝ) ≤ Real.sqrt ((lengthSq a.toExact.velocity_ : ℚ) : ℝ) ∧
        Real.sqrt ((lengthSq a.toExact.velocity_ : ℚ) : ℝ) < 5 := by
  intro a ha
  refine ⟨Real.sqrt_nonneg _, ?_⟩
  have h := (lengthLt_iff_sqrt_lt a.toExact.velocity_ 5).mp (by rw [ha]; decide!)
  exact_mod_cast h

/-- C26 as stated fails in the arithmetic of the program: the particle of
`almostFive` has the velocity `(3, 3.9999997615814209)`, whose Euclidean length
is below 5, so that the claim counts it in bin 0; `glm::length` rounds the length
to the `float` 5 and `FillBins` counts the particle in bin 1. -/
theorem FillBins_rounded_speed :
    ∃ a : ieee.Particle, ieee.almostFive.particles_ = [a] ∧
      ((0 : ℝ) ≤ Real.sqrt ((lengthSq a.toExact.velocity_ : ℚ) : ℝ) ∧
        Real.sqrt ((lengthSq a.toExact.velocity_ : ℚ) : ℝ) < 5) ∧
      ieee.length a.velocity_ = ieee.Fp.fin false 5 ∧
      ((ieee.Histogram.new (ieee.Fp.ofRat ieee.binary64 10)).FillBins
        ieee.almostFive.particles_).bins_ = [0, 1, 0, 0, 0, 0, 0, 0, 0, 0] :=
  ⟨⟨⟨ieee.Fp.fin false 500, ieee.Fp.fin false 500⟩,
      ⟨ieee.Fp.fin false 3, ieee.Fp.fin false (16777215 / 4194304)⟩, ieee.Fp.fin false 10, "red",
      ieee.Fp.fin false 10⟩,
    by decide!, almostFive_speed _ rfl, by decide!, by decide!⟩

/-- C27 as stated fails in the arithmetic of the program: the particles of
`stickingPair` satisfy `CanCollide`, no wall check changes a velocity during
the tick, and after the tick (in which `Collide` changes neither velocity, each
change being below half a `float` step) the pair still satisfies `CanCollide`,
so the next `Update` calls `Collide` on it again.  With `m1 + m2 = 0` nothing is
left to compare: the particles of `weightlessPair` satisfy `CanCollide`, and
their tick leaves every component of both velocities not a number, which no
later velocity equals. -/
theorem Update_sticking_across_tick :
    (ieee.weightlessPair.particles_ = [ieee.weightlessRight, ieee.weightlessLeft] ∧
      ieee.Fp.add ieee.binary32 (ieee.Fp.cast ieee.binary32 ieee.weightlessRight.mass_)
        (ieee.Fp.cast ieee.binary32 ieee.weightlessLeft.mass_) = ieee.Fp.fin false 0 ∧
      ieee.CanCollide ieee.weightlessRight ieee.weightlessLeft = true ∧
      (∀ p ∈ ieee.weightlessPair.Update.particles_,
        p.velocity_ = ⟨ieee.Fp.nan, ieee.Fp.nan⟩) ∧
      (∀ p ∈ ieee.weightlessPair.Update.particles_,
        ∀ q ∈ ieee.weightlessPair.Update.Update.particles_,
          ieee.Fp.eq q.velocity_.x p.velocity_.x = false ∧
            ieee.Fp.eq q.velocity_.y p.velocity_.y = false)) ∧
    ieee.stickingPair.particles_ = [ieee.stickingLight, ieee.stickingHeavy] ∧
      ieee.stickingLight.toExact.mass_ + ieee.stickingHeavy.toExact.mass_ ≠ 0 ∧
      ieee.CanCollide ieee.stickingLight ieee.stickingHeavy = true ∧
      (ieee.Collide ieee.stickingLight ieee.stickingHeavy).1.Update.velocity_ =
        (ieee.Collide ieee.stickingLight ieee.stickingHeavy).1.velocity_ ∧
      (ieee.Collide ieee.stickingLight ieee.stickingHeavy).2.Update.velocity_ =
        (ieee.Collide ieee.stickingLight ieee.stickingHeavy).2.velocity_ ∧
      ieee.stickingPair.Update.particles_ =
        [(ieee.Collide ieee.stickingLight ieee.stickingHeavy).1.Update,
          (ieee.Collide ieee.stickingLight ieee.stickingHeavy).2.Update] ∧
      ieee.CanCollide (ieee.Collide ieee.stickingLight ieee.stickingHeavy).1.Update
        (ieee.Collide ieee.stickingLight ieee.stickingHeavy).2.Update = true ∧
      ieee.stickingPair.Update.Update.particles_ =
        [(ieee.Collide (ieee.Collide ieee.stickingLight ieee.stickingHeavy).1.Update
            (ieee.Collide ieee.stickingLight ieee.stickingHeavy).2.Update).1.Update,
          (ieee.Collide (ieee.Collide ieee.stickingLight ieee.stickingHeavy).1.Update
            (ieee.Collide ieee.stickingLight ieee.stickingHeavy).2.Update).2.Update] := by
  decide!

/-- C32 as stated fails in the arithmetic of the program: for the particle
`drifting` (velocity `(0.1f, 0.1f)`, radius 10) `vx > 0` and `vy < radius / 2`,
and `SpeedUp` stores the y-velocity `5033165 / 8388608 = 0.6000000238...`, the
`float` nearest to the sum, not `0.1f + 0.5 = 0.6000000014...`. -/
theorem SpeedUp_rounded_sum :
    0 < ieee.drifting.toExact.velocity_.x ∧
      ieee.drifting.toExact.velocity_.y < ieee.drifting.toExact.radius_ / 2 ∧
      ieee.drifting.SpeedUp.velocity_ =
        ⟨ieee.Fp.fin false (5033165 / 8388608), ieee.Fp.fin false (5033165 / 8388608)⟩ ∧
      ieee.drifting.toExact.velocity_.y + 0.5 = 80530637 / 134217728 ∧
      ieee.drifting.SpeedUp.toExact.velocity_.y ≠ ieee.drifting.toExact.velocity_.y + 0.5 := by
  decide!

end idealgas
